import Mathlib

/-!
# AarogyaDarpan: consent ledger, access resolver and medicine reminders

A shallow embedding of the request handlers of `src/routes/hospital.js` and
`src/routes/patient.js` that implement the consent workflow and the
patient-info access check, of the reminder generation (`parseTiming`,
`createMedicineReminders`) and of the reminder dispatcher
(`src/utils/reminderScheduler.js`, `src/utils/sendSMS.js`).  The record store
(the MongoDB collections) is an explicit `Store` value passed through every
handler; a handler returns the HTTP response together with the store it leaves
behind.

Conventions of the embedding:

* document ids (`_id`) are natural numbers; a new document takes the store's
  `nextId` counter, which is then incremented (a fresh `ObjectId`);
* `new Date()` is the `now` argument of a handler; a date is the number of
  milliseconds of local time since the epoch, in a time zone without
  daylight-saving shifts, so that a calendar day is 86 400 000 ms;
* `req.user` is the `reqUser` argument: the authenticated user put there by the
  `auth` middleware, which is outside the embedded sources;
* `Model.findOne(q)` is `List.find?` with the query as a Boolean predicate;
* `doc.save()` of a loaded document replaces the documents carrying its `_id`;
* the `catch` branch (status 500) is reached only on a store failure, which the
  embedding does not have;
* what the JavaScript runtime and the libraries do outside the sources is a
  parameter: `isMobilePhone` of the validator library, `unicodeLower` for
  `toLowerCase` on text outside ASCII, `castInherited` for the Mongoose cast of
  a value that is not a string, `twilio` for the delivery of an SMS.
-/

namespace AarogyaDarpan

/-! ## Data model -/

/-- The `role` of a `User` document. -/
inductive Role where
  | patient
  | hospital
  | lab
  deriving DecidableEq

/-- A `User` document, with the fields the embedded handlers read. -/
structure User where
  id : Nat
  phone : String
  name : String
  hospitalName : String
  role : Role
  deriving DecidableEq

/-- The `status` of a `Consent` document: the four string literals the handlers
write or query. -/
inductive ConsentStatus where
  | pending
  | granted
  | denied
  | revoked
  deriving DecidableEq

/-- A `Consent` document. -/
structure Consent where
  id : Nat
  patientId : Nat
  hospitalId : Nat
  patientName : String
  patientPhone : String
  status : ConsentStatus
  requestedAt : Nat
  respondedAt : Option Nat
  revokedAt : Option Nat
  deriving DecidableEq

/-- An `Admission` document of the legacy (phone based) admissions. -/
structure Admission where
  id : Nat
  patientId : Option Nat
  hospitalId : Nat
  patientName : String
  patientPhone : String
  notes : String
  isActive : Bool
  admissionDate : Nat
  dischargeDate : Option Nat
  deriving DecidableEq

/-- A `Notification` document. -/
structure Notification where
  userId : Nat
  type : String
  title : String
  message : String
  relatedId : Nat
  deriving DecidableEq

/-- One entry of a prescription's `medicines` array; `timing` is `none` when the
field is absent. -/
structure Medicine where
  name : String
  dosage : String
  timing : Option String
  duration : Nat
  deriving DecidableEq

/-- A `Prescription` document. -/
structure Prescription where
  id : Nat
  doctorName : String
  hospitalName : String
  hospitalId : Nat
  patientPhone : String
  patientName : String
  patientId : Option Nat
  familyMemberId : Option Nat
  emergencyPatientId : Option Nat
  isEmergencyPatient : Bool
  medicines : List Medicine
  notes : String
  date : Nat
  deriving DecidableEq

/-- A `MedicalReport` document, with the fields the access check reads. -/
structure MedicalReport where
  id : Nat
  patientId : Option Nat
  emergencyPatientId : Option Nat
  isEmergencyPatient : Bool
  uploadedBy : String
  reportType : String
  reportName : String
  date : Nat
  deriving DecidableEq

/-- A `MedicineReminder` document as stored: one row per medicine and time
slot. -/
structure MedicineReminder where
  id : Nat
  patientId : Nat
  familyMemberId : Option Nat
  prescriptionId : Nat
  medicineName : String
  dosage : String
  reminderTime : String
  startDate : Nat
  endDate : Nat
  isActive : Bool
  completed : Bool
  lastSent : Option Nat
  deriving DecidableEq

/-- An `EmergencyPatient` document: a patient admitted by bed number only. -/
structure EmergencyPatient where
  id : Nat
  temporaryId : String
  bedNumber : String
  hospitalId : Nat
  notes : String
  isActive : Bool
  admissionDate : Nat
  dischargeDate : Option Nat
  deriving DecidableEq

/-- The record store: one list per collection, in insertion order, and the
counter the next `_id` is taken from. -/
structure Store where
  users : List User
  consents : List Consent
  admissions : List Admission
  notifications : List Notification
  prescriptions : List Prescription
  reports : List MedicalReport
  reminders : List MedicineReminder
  emergencyPatients : List EmergencyPatient
  nextId : Nat
  deriving DecidableEq

/-- The data of a successful `GET /patient-info/:patientId`. -/
structure PatientInfo where
  name : String
  phone : String
  prescriptions : List Prescription
  reports : List MedicalReport
  consentId : Option Nat
  deriving DecidableEq

/-- An HTTP response: the status code, the `message` of the JSON body (empty
when the body has none), the validation `errors` of a 400 reply and the patient
data of a successful patient-info reply. -/
structure Response where
  status : Nat
  message : String
  errors : List String
  info : Option PatientInfo
  deriving DecidableEq

/-- The reply `res.status(code).json({ message })`. -/
def Response.msg (code : Nat) (message : String) : Response :=
  { status := code, message := message, errors := [], info := none }

/-- The store with the given users and every other collection empty. -/
def Store.init (users : List User) : Store :=
  { users := users, consents := [], admissions := [], notifications := [],
    prescriptions := [], reports := [], reminders := [], emergencyPatients := [],
    nextId := 0 }

/-- The expression `req.user.hospitalName || req.user.name`. -/
def displayName (u : User) : String :=
  if u.hospitalName = "" then u.name else u.hospitalName

/-! ## Queries -/

/-- The query `User.findOne({ phone, role: 'patient' })`. -/
def findPatientByPhone (users : List User) (phone : String) : Option User :=
  users.find? (fun u => decide (u.phone = phone) && decide (u.role = Role.patient))

/-- The query `User.findById(id)`. -/
def findUserById (users : List User) (id : Nat) : Option User :=
  users.find? (fun u => decide (u.id = id))

/-- The query `Consent.findOne({ patientId, hospitalId, status })`. -/
def findConsentFor (consents : List Consent) (patientId hospitalId : Nat)
    (status : ConsentStatus) : Option Consent :=
  consents.find? (fun c => decide (c.patientId = patientId) &&
    decide (c.hospitalId = hospitalId) && decide (c.status = status))

/-- The query `Admission.findOne({ patientId, hospitalId, isActive: true })`. -/
def findActiveAdmission (admissions : List Admission) (patientId hospitalId : Nat) :
    Option Admission :=
  admissions.find? (fun a => decide (a.patientId = some patientId) &&
    decide (a.hospitalId = hospitalId) && a.isActive)

/-- The effect of `consent.save()` on a loaded document: the documents with its
`_id` are replaced by it. -/
def saveConsent (consents : List Consent) (doc : Consent) : List Consent :=
  consents.map (fun c => if c.id = doc.id then doc else c)

/-- The effect of `admission.save()` on a loaded document. -/
def saveAdmission (admissions : List Admission) (doc : Admission) : List Admission :=
  admissions.map (fun a => if a.id = doc.id then doc else a)

/-! ## Consent ledger (`POST /consent/request`, `POST /consent/:consentId/respond`,
`PUT /consent/:consentId/revoke`) -/

/-- The messages of the validation chain shared by `POST /consent/request` and
`POST /admissions`: `isMobilePhone` on `patientPhone` (the predicate of the
`validator` library, a parameter here) and `notEmpty` on `patientName`. -/
def validatePhoneAndName (isMobilePhone : String → Bool) (patientPhone patientName : String) :
    List String :=
  (if isMobilePhone patientPhone then []
    else ["Valid phone number required (e.g., +91XXXXXXXXXX)"]) ++
  (if patientName = "" then ["Patient name is required"] else [])

/-- The handler `POST /consent/request` of `routes/hospital.js`. -/
def consentRequest (isMobilePhone : String → Bool) (now : Nat) (s : Store) (reqUser : User)
    (patientPhone patientName : String) : Response × Store :=
  let errors := validatePhoneAndName isMobilePhone patientPhone patientName
  if errors ≠ [] then
    ({ status := 400, message := "", errors := errors, info := none }, s)
  else
    match findPatientByPhone s.users patientPhone with
    | none => (Response.msg 404 "Patient not found", s)
    | some patient =>
      match findConsentFor s.consents patient.id reqUser.id ConsentStatus.granted with
      | some _ => (Response.msg 400 "You already have access to this patient", s)
      | none =>
        match findConsentFor s.consents patient.id reqUser.id ConsentStatus.pending with
        | some _ => (Response.msg 400 "Consent request already pending", s)
        | none =>
          let consent : Consent :=
            { id := s.nextId, patientId := patient.id, hospitalId := reqUser.id,
              patientName := patientName, patientPhone := patientPhone,
              status := ConsentStatus.pending, requestedAt := now,
              respondedAt := none, revokedAt := none }
          let note : Notification :=
            { userId := patient.id, type := "consent_request",
              title := "Info Access Request",
              message := displayName reqUser ++
                " is requesting access to your medical information",
              relatedId := consent.id }
          (Response.msg 200 "Consent request sent successfully",
            { s with consents := s.consents ++ [consent],
                     notifications := s.notifications ++ [note],
                     nextId := s.nextId + 1 })

/-- The word the respond handler puts in its title and reply for an action. -/
def actionWord (action : String) (granted denied : String) : String :=
  if action = "grant" then granted else denied

/-- The handler `POST /consent/:consentId/respond` of `routes/patient.js`.  The
route declares the validator `body('action').isIn(['grant', 'deny'])` but the
handler never calls `validationResult`, so the validator has no effect and is
not part of the embedding; the handler does not read the consent's status. -/
def consentRespond (now : Nat) (s : Store) (reqUser : User) (consentId : Nat)
    (action : String) : Response × Store :=
  match s.consents.find? (fun c => decide (c.id = consentId) &&
      decide (c.patientId = reqUser.id)) with
  | none => (Response.msg 404 "Consent request not found", s)
  | some consent =>
    let consent1 : Consent :=
      { consent with
        status := if action = "grant" then ConsentStatus.granted else ConsentStatus.denied,
        respondedAt := some now }
    let note : Notification :=
      { userId := consent1.hospitalId, type := "consent_request",
        title := "Consent " ++ actionWord action "Granted" "Denied",
        message := "Patient " ++ reqUser.name ++ " has " ++
          actionWord action "granted" "denied" ++ " access request",
        relatedId := consent1.id }
    (Response.msg 200 ("Consent " ++ actionWord action "granted" "denied" ++ " successfully"),
      { s with consents := saveConsent s.consents consent1,
               notifications := s.notifications ++ [note] })

/-- The handler `PUT /consent/:consentId/revoke` of `routes/hospital.js`. -/
def consentRevoke (now : Nat) (s : Store) (reqUser : User) (consentId : Nat) :
    Response × Store :=
  match s.consents.find? (fun c => decide (c.id = consentId) &&
      decide (c.hospitalId = reqUser.id) && decide (c.status = ConsentStatus.granted)) with
  | none => (Response.msg 404 "Consent not found or already revoked", s)
  | some consent =>
    let consent1 : Consent :=
      { consent with status := ConsentStatus.revoked, revokedAt := some now }
    let note : Notification :=
      { userId := consent1.patientId, type := "consent_revoked",
        title := "Access Revoked",
        message := displayName reqUser ++
          " has revoked access to your medical information",
        relatedId := consent1.id }
    (Response.msg 200 "Access revoked successfully",
      { s with consents := saveConsent s.consents consent1,
               notifications := s.notifications ++ [note] })

/-! ## Legacy admissions (`POST /admissions`, `PUT /admissions/:id/discharge`) -/

/-- Modelled from the spec: the default of `isActive` in the Admission schema
(`models/Admission.js` is not among the sources).  The spec's data model says an
admission "grants hospital read access implicitly while active" from its
creation until discharge, and the handler below, which never sets the field,
looks for `isActive: true` to detect a patient who is already admitted. -/
def Admission.defaultIsActive : Bool := true

/-- The handler `POST /admissions` of `routes/hospital.js`; `notes` is
`req.body.notes`, absent when `none`. -/
def admitPatient (isMobilePhone : String → Bool) (now : Nat) (s : Store) (reqUser : User)
    (patientPhone patientName : String) (notes : Option String) : Response × Store :=
  let errors := validatePhoneAndName isMobilePhone patientPhone patientName
  if errors ≠ [] then
    ({ status := 400, message := ", ".intercalate errors, errors := errors, info := none }, s)
  else
    let patient := findPatientByPhone s.users patientPhone
    match s.admissions.find? (fun a => decide (a.patientPhone = patientPhone) &&
        decide (a.hospitalId = reqUser.id) && a.isActive) with
    | some _ => (Response.msg 400 "Patient is already admitted", s)
    | none =>
      let admission : Admission :=
        { id := s.nextId, patientId := patient.map (fun p => p.id),
          hospitalId := reqUser.id, patientName := patientName,
          patientPhone := patientPhone, notes := notes.getD "",
          isActive := Admission.defaultIsActive, admissionDate := now,
          dischargeDate := none }
      (Response.msg 200 "Patient admitted successfully",
        { s with admissions := s.admissions ++ [admission], nextId := s.nextId + 1 })

/-- The handler `PUT /admissions/:id/discharge` of `routes/hospital.js`. -/
def dischargePatient (now : Nat) (s : Store) (reqUser : User) (admissionId : Nat) :
    Response × Store :=
  match s.admissions.find? (fun a => decide (a.id = admissionId) &&
      decide (a.hospitalId = reqUser.id)) with
  | none => (Response.msg 404 "Admission not found", s)
  | some admission =>
    let admission1 : Admission :=
      { admission with isActive := false, dischargeDate := some now }
    (Response.msg 200 "Patient discharged successfully",
      { s with admissions := saveAdmission s.admissions admission1 })

/-! ## Access resolver (`GET /patient-info/:patientId`) -/

/-- The result order of `.sort({ date: -1 })`: newest first. -/
def newestFirst {α : Type} (date : α → Nat) (xs : List α) : List α :=
  xs.insertionSort (fun a b => date b ≤ date a)

/-- The handler `GET /patient-info/:patientId` of `routes/hospital.js`.  It reads
the store and changes nothing. -/
def getPatientInfo (s : Store) (reqUser : User) (patientId : Nat) : Response :=
  match findUserById s.users patientId with
  | none => Response.msg 404 "Patient not found"
  | some patient =>
    if patient.role ≠ Role.patient then Response.msg 404 "Patient not found"
    else
      let admission := findActiveAdmission s.admissions patient.id reqUser.id
      let consent := findConsentFor s.consents patient.id reqUser.id ConsentStatus.granted
      if admission.isNone && consent.isNone then
        Response.msg 403 "Access denied. No consent or active admission"
      else
        { status := 200, message := "", errors := [],
          info := some
            { name := patient.name, phone := patient.phone,
              prescriptions := newestFirst Prescription.date
                (s.prescriptions.filter (fun p => decide (p.patientId = some patient.id))),
              reports := newestFirst MedicalReport.date
                (s.reports.filter (fun r => decide (r.patientId = some patient.id) &&
                  !r.isEmergencyPatient)),
              consentId := consent.map (fun c => c.id) } }

/-! ## Sequences of ledger operations -/

/-- One call of the consent ledger, with the actor that makes it. -/
inductive LedgerOp where
  | request (hospital : User) (patientPhone patientName : String)
  | respond (patient : User) (consentId : Nat) (action : String)
  | revoke (hospital : User) (consentId : Nat)

/-- The store after one ledger call made at time `now`. -/
def ledgerStep (isMobilePhone : String → Bool) (s : Store) (now : Nat) : LedgerOp → Store
  | LedgerOp.request h phone name => (consentRequest isMobilePhone now s h phone name).2
  | LedgerOp.respond p cid action => (consentRespond now s p cid action).2
  | LedgerOp.revoke h cid => (consentRevoke now s h cid).2

/-- The store after a sequence of timed ledger calls, first call first. -/
def ledgerRun (isMobilePhone : String → Bool) (s : Store) : List (Nat × LedgerOp) → Store
  | [] => s
  | (now, op) :: rest => ledgerRun isMobilePhone (ledgerStep isMobilePhone s now op) rest

/-- The consents of a ledger that a (patient, hospital) pair holds in a status. -/
def consentsOfPair (consents : List Consent) (patientId hospitalId : Nat)
    (status : ConsentStatus) : List Consent :=
  consents.filter (fun c => decide (c.patientId = patientId) &&
    decide (c.hospitalId = hospitalId) && decide (c.status = status))

/-- The hospital has an active admission for the patient id. -/
def hasActiveAdmission (s : Store) (patientId hospitalId : Nat) : Prop :=
  ∃ a ∈ s.admissions, a.patientId = some patientId ∧ a.hospitalId = hospitalId ∧
    a.isActive = true

/-- The hospital has a consent with status granted for the patient id. -/
def hasGrantedConsent (s : Store) (patientId hospitalId : Nat) : Prop :=
  ∃ c ∈ s.consents, c.patientId = patientId ∧ c.hospitalId = hospitalId ∧
    c.status = ConsentStatus.granted

/-- A user with this id exists and is a patient. -/
def isExistingPatient (s : Store) (patientId : Nat) : Prop :=
  ∃ u, findUserById s.users patientId = some u ∧ u.role = Role.patient

/-- No two consents of the store share an `_id` (the unique index of the
collection). -/
def consentIdsUnique (s : Store) : Prop :=
  (s.consents.map Consent.id).Nodup

instance (s : Store) (patientId hospitalId : Nat) :
    Decidable (hasActiveAdmission s patientId hospitalId) := by
  unfold hasActiveAdmission
  infer_instance

instance (s : Store) (patientId hospitalId : Nat) :
    Decidable (hasGrantedConsent s patientId hospitalId) := by
  unfold hasGrantedConsent
  infer_instance

instance (s : Store) : Decidable (consentIdsUnique s) := by
  unfold consentIdsUnique
  infer_instance

/-! ## Timing inference (`parseTiming` of `routes/hospital.js`) -/

/-- A member of the regular-expression class `\s`, which is also what
`String.prototype.trim` strips: the white space and line terminator code
points of ECMAScript. -/
def isJsSpace (c : Char) : Bool :=
  decide (c.toNat = 0x09) || decide (c.toNat = 0x0A) || decide (c.toNat = 0x0B) ||
  decide (c.toNat = 0x0C) || decide (c.toNat = 0x0D) || decide (c.toNat = 0x20) ||
  decide (c.toNat = 0xA0) || decide (c.toNat = 0x1680) ||
  (decide (0x2000 ≤ c.toNat) && decide (c.toNat ≤ 0x200A)) ||
  decide (c.toNat = 0x2028) || decide (c.toNat = 0x2029) || decide (c.toNat = 0x202F) ||
  decide (c.toNat = 0x205F) || decide (c.toNat = 0x3000) || decide (c.toNat = 0xFEFF)

/-- A member of the regular-expression class `\d`: an ASCII digit. -/
def isAsciiDigit (c : Char) : Bool :=
  decide (48 ≤ c.toNat) && decide (c.toNat ≤ 57)

/-- The method `String.prototype.trim`. -/
def jsTrim (s : String) : String :=
  String.mk ((s.data.dropWhile isJsSpace).rdropWhile isJsSpace)

/-- The method `String.prototype.toLowerCase`.  On a text made of ASCII
characters and white space it lowers the letters `A` to `Z` and keeps every
other character; on any other text it is the parameter `unicodeLower`, the
Unicode case conversion of the JavaScript runtime. -/
def toLowerCase (unicodeLower : String → String) (s : String) : String :=
  if s.data.all (fun c => decide (c.toNat < 128) || isJsSpace c) then
    String.mk (s.data.map Char.toLower)
  else unicodeLower s

/-- The method call `padStart(2, '0')`. -/
def padStart2 (s : String) : String :=
  if s.length < 2 then String.mk (List.replicate (2 - s.length) '0') ++ s else s

/-- The call `parseInt(text)` on a text of decimal digits. -/
def parseInt (text : String) : Nat :=
  text.data.foldl (fun n c => 10 * n + (c.toNat - 48)) 0

/-- The capture groups of a match of
`/^(\d{1,2}):(\d{2})\s*(am|pm)?$/i`: `match[1]`, `match[2]` and `match[3]`
(`none` when the optional group did not take part). -/
structure TimeMatch where
  hours : String
  minutes : String
  ampm : Option String
  deriving DecidableEq

/-- The tail `\s*(am|pm)?$` of the time pattern on the characters after the
minutes.  Under the flag `i` (without `u`) the letters match in either case and
no character outside ASCII matches them. -/
def matchSuffix (rest : List Char) : Option (Option String) :=
  match rest.dropWhile isJsSpace with
  | [] => some none
  | [a, m] =>
    if (a = 'a' || a = 'A' || a = 'p' || a = 'P') && (m = 'm' || m = 'M') then
      some (some (String.mk [a, m]))
    else none
  | _ => none

/-- The part `:(\d{2})\s*(am|pm)?$` of the time pattern after the hour digits
`hours`. -/
def matchAfterHours (hours : List Char) (rest : List Char) : Option TimeMatch :=
  match rest with
  | ':' :: c :: d :: tail =>
    if isAsciiDigit c && isAsciiDigit d then
      (matchSuffix tail).map
        (fun ampm => { hours := String.mk hours, minutes := String.mk [c, d], ampm := ampm })
    else none
  | _ => none

/-- The call `timing.match(/^(\d{1,2}):(\d{2})\s*(am|pm)?$/i)`: `\d{1,2}` takes
two digits when the second character is a digit (one digit would then have to
be followed by `:`) and one digit otherwise. -/
def matchTimePattern (timing : String) : Option TimeMatch :=
  match timing.data with
  | a :: b :: rest =>
    if isAsciiDigit a then
      if isAsciiDigit b then matchAfterHours [a, b] rest
      else matchAfterHours [a] (b :: rest)
    else none
  | _ => none

/-- A value `parseTiming` puts in its result: a string, or the value of a
property that the object literal `timeMap` inherits from `Object.prototype`. -/
inductive Slot where
  | time (text : String)
  | inherited (property : String)
  deriving DecidableEq

/-- The names of the properties of `Object.prototype`, which every object
literal inherits; all their values are truthy. -/
def objectPrototypeProperties : List String :=
  ["constructor", "__proto__", "hasOwnProperty", "isPrototypeOf",
   "propertyIsEnumerable", "toLocaleString", "toString", "valueOf",
   "__defineGetter__", "__defineSetter__", "__lookupGetter__", "__lookupSetter__"]

/-- The own properties of the object literal `timeMap`. -/
def timeMap : List (String × String) :=
  [("morning", "09:00"), ("afternoon", "14:00"), ("evening", "20:00"),
   ("night", "21:00"), ("breakfast", "08:00"), ("lunch", "13:00"), ("dinner", "20:00")]

/-- The property read `timeMap[key]`: an own property, else a property inherited
from `Object.prototype`, else `undefined` (`none`). -/
def timeMapGet (key : String) : Option Slot :=
  match timeMap.lookup key with
  | some slot => some (Slot.time slot)
  | none => if key ∈ objectPrototypeProperties then some (Slot.inherited key) else none

/-- The three default slots: morning, afternoon, night. -/
def defaultSlots : List Slot :=
  [Slot.time "09:00", Slot.time "14:00", Slot.time "21:00"]

/-- The two statements `if (ampm === 'pm' && hours !== 12) hours += 12;` and
`if (ampm === 'am' && hours === 12) hours = 0;`, in that order. -/
def adjustHours (ampm : Option String) (hours : Nat) : Nat :=
  let hours := if ampm = some "pm" ∧ hours ≠ 12 then hours + 12 else hours
  if ampm = some "am" ∧ hours = 12 then 0 else hours

/-- The function `parseTiming(timing)` of `routes/hospital.js`. -/
def parseTiming (unicodeLower : String → String) (timing : Option String) : List Slot :=
  match timing with
  | none => defaultSlots
  | some text =>
    if text = "" || jsTrim text = "" then defaultSlots
    else
      let timingLower := jsTrim (toLowerCase unicodeLower text)
      match matchTimePattern text with
      | some m =>
        let hours := parseInt m.hours
        let ampm := m.ampm.map (toLowerCase unicodeLower)
        let hours := adjustHours ampm hours
        [Slot.time (padStart2 (toString hours) ++ ":" ++ m.minutes)]
      | none =>
        match timeMapGet timingLower with
        | some value => [value]
        | none => defaultSlots

/-- A well-formed 24-hour time: five characters `HH:MM` with `HH` from 00 to 23
and `MM` from 00 to 59. -/
def isClockTime (s : String) : Bool :=
  match s.data with
  | [a, b, ':', c, d] =>
    isAsciiDigit a && isAsciiDigit b && isAsciiDigit c && isAsciiDigit d &&
    decide (parseInt (String.mk [a, b]) ≤ 23) && decide (parseInt (String.mk [c, d]) ≤ 59)
  | _ => false

/-! ## Reminder generation (`createMedicineReminders` of `routes/hospital.js`) -/

/-- The length of a calendar day in milliseconds. -/
def msPerDay : Nat := 86400000

/-- The local midnight of the calendar day of `t`: `new Date(y, m, d)` built from
the parts of `t`, and `setHours(0, 0, 0, 0)`. -/
def startOfDay (t : Nat) : Nat := t - t % msPerDay

/-- The number of the calendar day of `t`, counted from the epoch. -/
def dayOf (t : Nat) : Nat := t / msPerDay

/-- The method `getHours()`. -/
def getHours (t : Nat) : Nat := t % msPerDay / 3600000

/-- The method `getMinutes()`. -/
def getMinutes (t : Nat) : Nat := t % 3600000 / 60000

/-- The largest time value of a JavaScript `Date`: 8.64e15 ms, that is
100 000 000 days, after the epoch.  Times are counted in local time as in the
rest of the development, without a time zone offset. -/
def maxTime : Nat := 8640000000000000

/-- The effect of `date.setDate(date.getDate() + days)` on a date with the time
value `t`: the same time of day, `days` calendar days later.  The result is
`none` for the Invalid Date, which is what the method leaves in the object when
the new time value is beyond `maxTime`. -/
def addDays (t days : Nat) : Option Nat :=
  if t + days * msPerDay ≤ maxTime then some (t + days * msPerDay) else none

/-- The fields `createMedicineReminders` passes to `new MedicineReminder`.  The
field `endDate` is the `Date` object after `setDate`, `none` when it is the
Invalid Date. -/
structure ReminderSpec where
  patientId : Nat
  familyMemberId : Option Nat
  prescriptionId : Nat
  medicineName : String
  dosage : String
  reminderTime : Slot
  startDate : Nat
  endDate : Option Nat
  isActive : Bool
  deriving DecidableEq

/-- The array `reminders` that `createMedicineReminders` builds: the outer loop
runs over the medicines, the inner loop over the slots of `parseTiming`, and
each pass pushes one reminder. -/
def reminderSpecs (unicodeLower : String → String) (patientId : Nat)
    (familyMemberId : Option Nat) (prescription : Prescription) : List ReminderSpec :=
  prescription.medicines.foldl
    (fun reminders medicine =>
      (parseTiming unicodeLower medicine.timing).foldl
        (fun reminders timeSlot =>
          let startDate := prescription.date
          let endDate := addDays startDate medicine.duration
          reminders ++
            [{ patientId := patientId, familyMemberId := familyMemberId,
               prescriptionId := prescription.id, medicineName := medicine.name,
               dosage := medicine.dosage, reminderTime := timeSlot,
               startDate := startDate, endDate := endDate, isActive := true }])
        reminders)
    []

/-- The text the `String` path `reminderTime` stores for a slot: a string is
kept; what the Mongoose cast makes of an inherited property value (another text,
or `none` for a rejected document) is the parameter `castInherited`. -/
def castSlot (castInherited : String → Option String) : Slot → Option String
  | Slot.time text => some text
  | Slot.inherited property => castInherited property

/-- Modelled from the spec: the defaults of the MedicineReminder schema
(`models/MedicineReminder.js` is not among the sources).  The spec's data model
names the fields `completed` and `lastSent` ("date of most recent notification")
and the lifecycle "active, then completed when the patient marks it done", so a
new reminder is not completed and has no `lastSent`.  The stored document holds
the text `reminderTime` and the time value `endDate` that the casts of the two
paths have produced. -/
def MedicineReminder.ofSpec (id : Nat) (spec : ReminderSpec) (reminderTime : String)
    (endDate : Nat) : MedicineReminder :=
  { id := id, patientId := spec.patientId, familyMemberId := spec.familyMemberId,
    prescriptionId := spec.prescriptionId, medicineName := spec.medicineName,
    dosage := spec.dosage, reminderTime := reminderTime, startDate := spec.startDate,
    endDate := endDate, isActive := spec.isActive, completed := false,
    lastSent := none }

/-- The documents `insertMany` stores for the specs, with ids counted up from
`firstId`; `none` when a document is rejected, in which case nothing is stored.
A document is rejected when the cast of its slot fails, and when its `endDate`
is the Invalid Date, which the cast of a date path does not accept. -/
def reminderDocs (castInherited : String → Option String) (firstId : Nat) :
    List ReminderSpec → Option (List MedicineReminder)
  | [] => some []
  | spec :: rest =>
    match castSlot castInherited spec.reminderTime, spec.endDate,
        reminderDocs castInherited (firstId + 1) rest with
    | some text, some endDate, some docs =>
      some (MedicineReminder.ofSpec firstId spec text endDate :: docs)
    | _, _, _ => none

/-- The function `createMedicineReminders(patientId, familyMemberId,
prescription)`: it builds the reminders and stores them with `insertMany`;
`none` when the insert is rejected (the caller then replies 500). -/
def createMedicineReminders (unicodeLower : String → String)
    (castInherited : String → Option String) (s : Store) (patientId : Nat)
    (familyMemberId : Option Nat) (prescription : Prescription) : Option Store :=
  (reminderDocs castInherited s.nextId
      (reminderSpecs unicodeLower patientId familyMemberId prescription)).map
    (fun docs => { s with reminders := s.reminders ++ docs,
                          nextId := s.nextId + docs.length })

/-! ## Reminder dispatcher (`utils/reminderScheduler.js`, `utils/sendSMS.js`) -/

/-- The string `currentTime` of a tick: hours and minutes, each padded to two
digits. -/
def currentTime (now : Nat) : String :=
  padStart2 (toString (getHours now)) ++ ":" ++ padStart2 (toString (getMinutes now))

/-- The query of a tick: `isActive: true, completed: false, reminderTime:
currentTime, startDate: { $lte: today }, endDate: { $gte: today }` with `today`
the local midnight of `now`. -/
def isDue (now : Nat) (r : MedicineReminder) : Bool :=
  r.isActive && !r.completed && decide (r.reminderTime = currentTime now) &&
  decide (r.startDate ≤ startOfDay now) && decide (r.endDate ≥ startOfDay now)

/-- The function `sendSMS(to, message)`, with `recipient` for the parameter `to`.
`twilio` is `none` when no Twilio
client is configured (the message is logged and the result is `true`); otherwise
it tells whether `messages.create` succeeded, and a failure is caught inside
`sendSMS`, which then returns `false`. -/
def sendSMS (twilio : Option (String → String → Bool)) (recipient message : String) :
    Bool :=
  match twilio with
  | none => true
  | some create => create recipient message

/-- One call of `sendSMS` made by a tick, with the reminder it was made for and
the result of the call. -/
structure SmsAttempt where
  reminderId : Nat
  recipient : String
  body : String
  delivered : Bool
  deriving DecidableEq

/-- The message text of a reminder. -/
def reminderMessage (r : MedicineReminder) : String :=
  "🔔 Medicine Reminder: Take " ++ r.medicineName ++ " (" ++ r.dosage ++ ") now (" ++
    r.reminderTime ++ ")"

/-- The effect of `reminder.save()` on a loaded document. -/
def saveReminder (reminders : List MedicineReminder) (doc : MedicineReminder) :
    List MedicineReminder :=
  reminders.map (fun r => if r.id = doc.id then doc else r)

/-- The test `lastSentDate !== todayDate && reminder.patientId` of the loop body,
with `patient` the populated `patientId` (`none` when the user is gone). -/
def shouldAttempt (now : Nat) (patient : Option User) (reminder : MedicineReminder) : Bool :=
  decide (reminder.lastSent.map startOfDay ≠ some (startOfDay now)) && patient.isSome

/-- One pass of the loop `for (const reminder of reminders)` of a tick: the SMS
calls made so far and the reminder collection, before and after. -/
def tickStep (twilio : Option (String → String → Bool)) (now : Nat) (users : List User)
    (acc : List SmsAttempt × List MedicineReminder) (reminder : MedicineReminder) :
    List SmsAttempt × List MedicineReminder :=
  match findUserById users reminder.patientId with
  | none => acc
  | some patient =>
    if reminder.lastSent.map startOfDay ≠ some (startOfDay now) then
      let message := reminderMessage reminder
      let calls :=
        if patient.phone ≠ "" then
          acc.1 ++ [{ reminderId := reminder.id, recipient := patient.phone, body := message,
                      delivered := sendSMS twilio patient.phone message }]
        else acc.1
      (calls, saveReminder acc.2 { reminder with lastSent := some now })
    else acc

/-- The SMS call one pass of the loop makes for `reminder`, if it makes one: the
patient is populated, the reminder was not sent today and the patient has a
phone. -/
def attemptFor (twilio : Option (String → String → Bool)) (now : Nat) (users : List User)
    (reminder : MedicineReminder) : Option SmsAttempt :=
  match findUserById users reminder.patientId with
  | none => none
  | some patient =>
    if reminder.lastSent.map startOfDay ≠ some (startOfDay now) ∧ patient.phone ≠ "" then
      some { reminderId := reminder.id, recipient := patient.phone,
             body := reminderMessage reminder,
             delivered := sendSMS twilio patient.phone (reminderMessage reminder) }
    else none

/-- One run of the `cron.schedule` callback at time `now`: the SMS calls it makes,
in order, and the store it leaves. -/
def reminderTick (twilio : Option (String → String → Bool)) (now : Nat) (s : Store) :
    List SmsAttempt × Store :=
  let reminders := s.reminders.filter (isDue now)
  let result := reminders.foldl (tickStep twilio now s.users) ([], s.reminders)
  (result.1, { s with reminders := result.2 })

/-- The SMS calls and the final store of a sequence of ticks, first tick first. -/
def runTicks (twilio : Option (String → String → Bool)) (s : Store) :
    List Nat → List SmsAttempt × Store
  | [] => ([], s)
  | now :: rest =>
    let first := reminderTick twilio now s
    let later := runTicks twilio first.2 rest
    (first.1 ++ later.1, later.2)

/-- No two reminders of the store share an `_id`. -/
def reminderIdsUnique (s : Store) : Prop :=
  (s.reminders.map MedicineReminder.id).Nodup

instance (s : Store) : Decidable (reminderIdsUnique s) := by
  unfold reminderIdsUnique
  infer_instance

/-! ## Emergency patients (`POST /emergency-patients`,
`PUT /emergency-patients/:id/discharge`) -/

/-- Modelled from the spec: the default of `isActive` in the EmergencyPatient
schema (`models/EmergencyPatient.js` is not among the sources).  The spec's data
model says an emergency patient is "created on admission" and is "exactly one of
active, discharged at any time", and the admit handler, which never sets the
field, looks for `isActive: true` to find the occupant of a bed. -/
def EmergencyPatient.defaultIsActive : Bool := true

/-- The effect of `emergencyPatient.save()` on a loaded document. -/
def saveEmergencyPatient (patients : List EmergencyPatient) (doc : EmergencyPatient) :
    List EmergencyPatient :=
  patients.map (fun e => if e.id = doc.id then doc else e)

/-- The handler `POST /emergency-patients` of `routes/hospital.js`.  The static
`EmergencyPatient.generateTemporaryId(hospitalId, bedNumber)` belongs to the
model, which is outside the sources: it is the parameter `generateTemporaryId`,
which also gets the time of the call. -/
def admitEmergencyPatient (generateTemporaryId : Nat → String → Nat → String) (now : Nat)
    (s : Store) (reqUser : User) (bedNumber : String) (notes : Option String) :
    Response × Store :=
  if bedNumber = "" then
    ({ status := 400, message := "Bed number is required",
       errors := ["Bed number is required"], info := none }, s)
  else
    match s.emergencyPatients.find? (fun e => decide (e.bedNumber = jsTrim bedNumber) &&
        decide (e.hospitalId = reqUser.id) && e.isActive) with
    | some _ => (Response.msg 400 ("Bed " ++ bedNumber ++ " is already occupied"), s)
    | none =>
      let emergencyPatient : EmergencyPatient :=
        { id := s.nextId, temporaryId := generateTemporaryId reqUser.id bedNumber now,
          bedNumber := jsTrim bedNumber, hospitalId := reqUser.id, notes := notes.getD "",
          isActive := EmergencyPatient.defaultIsActive, admissionDate := now,
          dischargeDate := none }
      (Response.msg 200 "Emergency patient admitted successfully",
        { s with emergencyPatients := s.emergencyPatients ++ [emergencyPatient],
                 nextId := s.nextId + 1 })

/-- The handler `PUT /emergency-patients/:id/discharge` of `routes/hospital.js`. -/
def dischargeEmergencyPatient (now : Nat) (s : Store) (reqUser : User) (id : Nat) :
    Response × Store :=
  match s.emergencyPatients.find? (fun e => decide (e.id = id) &&
      decide (e.hospitalId = reqUser.id)) with
  | none => (Response.msg 404 "Emergency patient not found", s)
  | some emergencyPatient =>
    let emergencyPatient1 : EmergencyPatient :=
      { emergencyPatient with isActive := false, dischargeDate := some now }
    (Response.msg 200 "Emergency patient discharged successfully",
      { s with emergencyPatients := saveEmergencyPatient s.emergencyPatients
                 emergencyPatient1 })

/-- One call of the emergency admissions, with the hospital that makes it. -/
inductive BedOp where
  | admission (hospital : User) (bedNumber : String) (notes : Option String)
  | discharge (hospital : User) (id : Nat)

/-- The store after one emergency admission call made at time `now`. -/
def bedStep (generateTemporaryId : Nat → String → Nat → String) (s : Store) (now : Nat) :
    BedOp → Store
  | BedOp.admission h bedNumber notes =>
    (admitEmergencyPatient generateTemporaryId now s h bedNumber notes).2
  | BedOp.discharge h id => (dischargeEmergencyPatient now s h id).2

/-- The store after a sequence of timed emergency admission calls. -/
def bedRun (generateTemporaryId : Nat → String → Nat → String) (s : Store) :
    List (Nat × BedOp) → Store
  | [] => s
  | (now, op) :: rest => bedRun generateTemporaryId (bedStep generateTemporaryId s now op) rest

/-- The active emergency patients a hospital has in a bed. -/
def activeInBed (patients : List EmergencyPatient) (hospitalId : Nat) (bed : String) :
    List EmergencyPatient :=
  patients.filter (fun e => decide (e.bedNumber = bed) && decide (e.hospitalId = hospitalId) &&
    e.isActive)

/-! ## Prescriptions (`POST /prescriptions`, `PUT /prescriptions/:id`) -/

/-- The body of `POST /prescriptions`; a field is `none` when it is absent. -/
structure PrescriptionRequest where
  patientPhone : Option String
  patientName : Option String
  emergencyPatientId : Option Nat
  medicines : List Medicine
  notes : Option String
  familyMemberId : Option Nat

/-- The messages of the validators on `medicines` and its entries, chain by
chain: `isArray({ min: 1 })`, then `notEmpty` on every name, `notEmpty` on every
dosage, `notEmpty` on every timing (`optional()` in the create route, required
in the update route) and `isInt({ min: 1 })` on every duration. -/
def validateMedicines (timingRequired : Bool) (timingMessage : String)
    (medicines : List Medicine) : List String :=
  (if medicines = [] then ["At least one medicine is required"] else []) ++
  (medicines.filter (fun m => decide (m.name = ""))).map
    (fun _ => "Medicine name is required") ++
  (medicines.filter (fun m => decide (m.dosage = ""))).map
    (fun _ => "Medicine dosage is required") ++
  (medicines.filter (fun m => decide (m.timing = some "") ||
      (timingRequired && m.timing.isNone))).map (fun _ => timingMessage) ++
  (medicines.filter (fun m => decide (m.duration < 1))).map
    (fun _ => "Valid duration in days is required")

/-- The messages of the validation chain of `POST /prescriptions`.  An id of the
embedding always passes `isMongoId`. -/
def validateCreatePrescription (isMobilePhone : String → Bool) (body : PrescriptionRequest) :
    List String :=
  (match body.patientPhone with
    | some phone =>
      if isMobilePhone phone then []
      else ["Valid phone number required (e.g., +91XXXXXXXXXX)"]
    | none => []) ++
  (if body.patientName = some "" then ["Patient name is required for regular patients"]
    else []) ++
  validateMedicines false "Medicine timing (optional - AI will assign defaults)"
    body.medicines

/-- The handler `POST /prescriptions` of `routes/hospital.js`. -/
def createPrescription (isMobilePhone : String → Bool) (unicodeLower : String → String)
    (castInherited : String → Option String) (now : Nat) (s : Store) (reqUser : User)
    (body : PrescriptionRequest) : Response × Store :=
  let errors := validateCreatePrescription isMobilePhone body
  if errors ≠ [] then
    ({ status := 400, message := "", errors := errors, info := none }, s)
  else
    match body.emergencyPatientId with
    | some emergencyPatientId =>
      match s.emergencyPatients.find? (fun e => decide (e.id = emergencyPatientId) &&
          decide (e.hospitalId = reqUser.id) && e.isActive) with
      | none => (Response.msg 404 "Emergency patient not found or discharged", s)
      | some emergencyPatient =>
        let prescription : Prescription :=
          { id := s.nextId, doctorName := reqUser.name, hospitalName := displayName reqUser,
            hospitalId := reqUser.id,
            patientPhone := "EMG-" ++ emergencyPatient.temporaryId,
            patientName := "Emergency Patient - Bed " ++ emergencyPatient.bedNumber,
            patientId := none, familyMemberId := none,
            emergencyPatientId := some emergencyPatient.id, isEmergencyPatient := true,
            medicines := body.medicines, notes := body.notes.getD "", date := now }
        (Response.msg 200 "Prescription created successfully",
          { s with prescriptions := s.prescriptions ++ [prescription],
                   nextId := s.nextId + 1 })
    | none =>
      if body.patientPhone.getD "" = "" ∨ body.patientName.getD "" = "" then
        (Response.msg 400 "Patient phone and name are required for regular patients", s)
      else
        let patient := findPatientByPhone s.users (body.patientPhone.getD "")
        let prescription : Prescription :=
          { id := s.nextId, doctorName := reqUser.name, hospitalName := displayName reqUser,
            hospitalId := reqUser.id, patientPhone := body.patientPhone.getD "",
            patientName := body.patientName.getD "",
            patientId := patient.map (fun p => p.id),
            familyMemberId := body.familyMemberId, emergencyPatientId := none,
            isEmergencyPatient := false, medicines := body.medicines,
            notes := body.notes.getD "", date := now }
        let saved : Store :=
          { s with prescriptions := s.prescriptions ++ [prescription],
                   nextId := s.nextId + 1 }
        match patient with
        | none => (Response.msg 200 "Prescription created successfully", saved)
        | some p =>
          match createMedicineReminders unicodeLower castInherited saved p.id
              body.familyMemberId prescription with
          | none => (Response.msg 500 "Server error", saved)
          | some withReminders =>
            let note : Notification :=
              { userId := p.id, type := "prescription", title := "New Prescription",
                message := "New prescription from " ++ displayName reqUser,
                relatedId := prescription.id }
            (Response.msg 200 "Prescription created successfully",
              { withReminders with
                notifications := withReminders.notifications ++ [note] })

/-- The effect of `prescription.save()` on a loaded document. -/
def savePrescription (prescriptions : List Prescription) (doc : Prescription) :
    List Prescription :=
  prescriptions.map (fun p => if p.id = doc.id then doc else p)

/-- The handler `PUT /prescriptions/:id` of `routes/hospital.js`. -/
def updatePrescription (unicodeLower : String → String)
    (castInherited : String → Option String) (s : Store) (reqUser : User)
    (prescriptionId : Nat) (medicines : List Medicine) (notes : Option String) :
    Response × Store :=
  let errors := validateMedicines true "Medicine timing is required" medicines
  if errors ≠ [] then
    ({ status := 400, message := "", errors := errors, info := none }, s)
  else
    match s.prescriptions.find? (fun p => decide (p.id = prescriptionId) &&
        decide (p.hospitalId = reqUser.id)) with
    | none => (Response.msg 404 "Prescription not found", s)
    | some prescription =>
      let prescription1 : Prescription :=
        { prescription with
          medicines := medicines,
          notes := if notes.getD "" = "" then prescription.notes else notes.getD "" }
      let saved : Store :=
        { s with prescriptions := savePrescription s.prescriptions prescription1 }
      match prescription1.patientId with
      | none => (Response.msg 200 "Prescription updated successfully", saved)
      | some patientId =>
        let cleared : Store :=
          { saved with reminders :=
              saved.reminders.filter (fun r => !decide (r.prescriptionId = prescription1.id)) }
        match createMedicineReminders unicodeLower castInherited cleared patientId
            prescription1.familyMemberId prescription1 with
        | none => (Response.msg 500 "Server error", cleared)
        | some regenerated => (Response.msg 200 "Prescription updated successfully", regenerated)

/-! ## Reminder routes (`routes/reminders.js`) -/

/-- The handler `PUT /:id/complete` of `routes/reminders.js`. -/
def completeReminder (s : Store) (reqUser : User) (id : Nat) : Response × Store :=
  match s.reminders.find? (fun r => decide (r.id = id) &&
      decide (r.patientId = reqUser.id)) with
  | none => (Response.msg 404 "Reminder not found", s)
  | some reminder =>
    (Response.msg 200 "Reminder marked as completed",
      { s with reminders := saveReminder s.reminders
                 { reminder with completed := true, isActive := false } })

/-- The handler `PUT /:id/toggle` of `routes/reminders.js`; it does not read the
field `completed`. -/
def toggleReminder (s : Store) (reqUser : User) (id : Nat) : Response × Store :=
  match s.reminders.find? (fun r => decide (r.id = id) &&
      decide (r.patientId = reqUser.id)) with
  | none => (Response.msg 404 "Reminder not found", s)
  | some reminder =>
    let reminder1 : MedicineReminder := { reminder with isActive := !reminder.isActive }
    (Response.msg 200
        ("Reminder " ++ (if reminder1.isActive then "activated" else "deactivated")),
      { s with reminders := saveReminder s.reminders reminder1 })

/-! ## Sample data for the concrete evaluations -/

/-- A registered patient. -/
def asha : User :=
  { id := 1, phone := "9000000001", name := "Asha", hospitalName := "", role := Role.patient }

/-- A hospital account. -/
def cityCare : User :=
  { id := 2, phone := "", name := "Dr Rao", hospitalName := "City Care",
    role := Role.hospital }

/-- A second hospital account. -/
def lakeView : User :=
  { id := 3, phone := "", name := "Dr Sen", hospitalName := "Lake View",
    role := Role.hospital }

/-- A phone validator that accepts every text. -/
def anyPhone : String → Bool := fun _ => true

/-- The store with the three sample users and an empty ledger. -/
def sampleStore : Store := Store.init [asha, cityCare, lakeView]

/-- A consent of Asha to City Care in the given status. -/
def sampleConsent (status : ConsentStatus) : Consent :=
  { id := 7, patientId := 1, hospitalId := 2, patientName := "Asha",
    patientPhone := "9000000001", status := status, requestedAt := 10,
    respondedAt := if status = ConsentStatus.pending then none else some 20,
    revokedAt := if status = ConsentStatus.revoked then some 30 else none }

/-- The sample store whose ledger holds one consent of Asha to City Care. -/
def ledgerWith (status : ConsentStatus) : Store :=
  { sampleStore with consents := [sampleConsent status], nextId := 8 }

/-- The sample store after City Care has admitted Asha (admission id 0). -/
def admittedStore : Store :=
  (admitPatient anyPhone 40 sampleStore cityCare "9000000001" "Asha" none).2

/-- The sample store without the patient Asha. -/
def storeWithoutAsha : Store := Store.init [cityCare, lakeView]

/-- The local midnight that starts 2024-01-01, day 19723 from the epoch. -/
def newYear2024 : Nat := 19723 * msPerDay

/-- A prescription of City Care for Asha made on 2024-01-01 at 10:30: one
medicine, to be taken at night for 5 days. -/
def samplePrescription : Prescription :=
  { id := 40, doctorName := "Dr Rao", hospitalName := "City Care", hospitalId := 2,
    patientPhone := "9000000001", patientName := "Asha", patientId := some 1,
    familyMemberId := none, emergencyPatientId := none, isEmergencyPatient := false,
    medicines := [{ name := "Amoxicillin", dosage := "500mg", timing := some "night",
                    duration := 5 }],
    notes := "", date := newYear2024 + 37800000 }

/-- The one reminder built for the sample prescription: slot 21:00, from
2024-01-01 10:30 to 2024-01-06 10:30. -/
def sampleSpec : ReminderSpec :=
  { patientId := 1, familyMemberId := none, prescriptionId := 40,
    medicineName := "Amoxicillin", dosage := "500mg", reminderTime := Slot.time "21:00",
    startDate := newYear2024 + 37800000,
    endDate := some (newYear2024 + 5 * msPerDay + 37800000), isActive := true }

/-- The sample reminder as stored, with id 0. -/
def sampleReminder : MedicineReminder :=
  MedicineReminder.ofSpec 0 sampleSpec "21:00" (newYear2024 + 5 * msPerDay + 37800000)

/-- The sample store after the reminders of the sample prescription were
created. -/
def reminderStore : Store :=
  { sampleStore with reminders := [sampleReminder], nextId := 1 }

/-- A second reminder of Asha at 21:00, with id 1. -/
def secondReminder : MedicineReminder :=
  { sampleReminder with id := 1, medicineName := "Paracetamol", dosage := "650mg" }

/-- The sample store with the two reminders of Asha. -/
def twoReminderStore : Store :=
  { sampleStore with reminders := [sampleReminder, secondReminder], nextId := 2 }

/-- A Twilio client whose every `messages.create` call fails. -/
def failingTwilio : Option (String → String → Bool) := some (fun _ _ => false)

/-- The time 21:00 on the day `day` of January 2024 (day 1 is 2024-01-01). -/
def nightOf (day : Nat) : Nat := newYear2024 + (day - 1) * msPerDay + 21 * 3600000

/-- A Mongoose cast that rejects every value that is not a string. -/
def rejectInherited : String → Option String := fun _ => none

/-- A temporary id made of the hospital id, the bed label and the time. -/
def sampleTemporaryId : Nat → String → Nat → String :=
  fun hospitalId bedNumber now =>
    toString hospitalId ++ "-" ++ jsTrim bedNumber ++ "-" ++ toString now

/-- The medicine of the sample prescription. -/
def amoxicillin : Medicine :=
  { name := "Amoxicillin", dosage := "500mg", timing := some "night", duration := 5 }

/-- The sample prescription with a duration of 100 000 000 days in place of 5:
the number passes the validator `isInt({ min: 1 })`, and the end date is beyond
the range of a `Date`. -/
def endlessPrescription : Prescription :=
  { samplePrescription with
    medicines := [{ amoxicillin with duration := 100000000 }] }

/-- A medicine to be taken in the morning for 3 days. -/
def paracetamol : Medicine :=
  { name := "Paracetamol", dosage := "650mg", timing := some "morning", duration := 3 }

/-- A request of a prescription for the registered patient Asha. -/
def ashaRequest : PrescriptionRequest :=
  { patientPhone := some "9000000001", patientName := some "Asha",
    emergencyPatientId := none, medicines := [amoxicillin], notes := none,
    familyMemberId := none }

/-- A request of a prescription for a phone number that no patient has
registered. -/
def unregisteredRequest : PrescriptionRequest :=
  { ashaRequest with patientPhone := some "9000000009", patientName := some "Ravi" }

/-- The sample store after City Care admitted an emergency patient to bed 12
(emergency patient id 0) at time 10. -/
def bedStore : Store :=
  (admitEmergencyPatient sampleTemporaryId 10 sampleStore cityCare "12" none).2

/-- A request of a prescription for the emergency patient of bed 12. -/
def emergencyRequest : PrescriptionRequest :=
  { patientPhone := none, patientName := none, emergencyPatientId := some 0,
    medicines := [amoxicillin], notes := none, familyMemberId := none }

/-- The store with the sample prescription and its reminder, in which City Care
has only a revoked consent of Asha and no admission. -/
def revokedStore : Store :=
  { reminderStore with consents := [sampleConsent ConsentStatus.revoked],
                       prescriptions := [samplePrescription], nextId := 41 }

/-- The store `revokedStore` with a granted consent of Asha in place of the
revoked one, and with her active admission at City Care. -/
def grantedAdmittedStore : Store :=
  { revokedStore with consents := [sampleConsent ConsentStatus.granted],
                      admissions := admittedStore.admissions }

/-- The five ledger calls after which Asha has two granted consents to City
Care: a request she denies, a second request she grants, and a second response,
grant, to the first request. -/
def regrantCalls : List (Nat × LedgerOp) :=
  [ (10, LedgerOp.request cityCare "9000000001" "Asha"),
    (20, LedgerOp.respond asha 0 "deny"),
    (30, LedgerOp.request cityCare "9000000001" "Asha"),
    (40, LedgerOp.respond asha 1 "grant"),
    (50, LedgerOp.respond asha 0 "grant") ]

/-! ## Lemmas on the queries and on `save` -/

theorem length_filter_map_le {α : Type} (q : α → Bool) (f : α → α)
    (h : ∀ x, q (f x) = true → f x = x) (l : List α) :
    ((l.map f).filter q).length ≤ (l.filter q).length := by
  induction l with
  | nil => simp
  | cons a t ih =>
    by_cases hq : q (f a) = true
    · have hfa : f a = a := h a hq
      have hqa : q a = true := by rw [hfa] at hq; exact hq
      simp only [List.map_cons, List.filter_cons, hq, hqa, if_true, List.length_cons]
      omega
    · by_cases hqa : q a = true
      · simp only [List.map_cons, List.filter_cons, hq, hqa, if_true, List.length_cons]
        simp only [Bool.false_eq_true, if_false]
        omega
      · simp only [List.map_cons, List.filter_cons, hq, hqa]
        simpa using ih

theorem findConsentFor_eq_none {consents : List Consent} {p h : Nat} {st : ConsentStatus}
    (hnone : findConsentFor consents p h st = none) :
    consentsOfPair consents p h st = [] := by
  unfold findConsentFor at hnone
  unfold consentsOfPair
  rw [List.find?_eq_none] at hnone
  rw [List.filter_eq_nil_iff]
  exact hnone

theorem findConsentFor_isSome_iff (consents : List Consent) (p h : Nat) (st : ConsentStatus) :
    (findConsentFor consents p h st).isSome = true ↔
      ∃ c ∈ consents, c.patientId = p ∧ c.hospitalId = h ∧ c.status = st := by
  unfold findConsentFor
  rw [List.find?_isSome]
  simp only [Bool.and_eq_true, decide_eq_true_eq, and_assoc]

theorem findActiveAdmission_isSome_iff (admissions : List Admission) (p h : Nat) :
    (findActiveAdmission admissions p h).isSome = true ↔
      ∃ a ∈ admissions, a.patientId = some p ∧ a.hospitalId = h ∧ a.isActive = true := by
  unfold findActiveAdmission
  rw [List.find?_isSome]
  simp only [Bool.and_eq_true, decide_eq_true_eq, and_assoc]

theorem findUserById_id {users : List User} {pid : Nat} {u : User}
    (h : findUserById users pid = some u) : u.id = pid := by
  unfold findUserById at h
  have := List.find?_some h
  simpa using this

/-- Saving a document that is not pending leaves every pair with at most as many
pending consents as before. -/
theorem saveConsent_pending_le (consents : List Consent) (doc : Consent)
    (hdoc : doc.status ≠ ConsentStatus.pending) (p h : Nat) :
    (consentsOfPair (saveConsent consents doc) p h ConsentStatus.pending).length ≤
      (consentsOfPair consents p h ConsentStatus.pending).length := by
  unfold consentsOfPair saveConsent
  apply length_filter_map_le
  intro c hq
  by_cases hid : c.id = doc.id
  · simp only [hid, if_true] at hq
    simp only [Bool.and_eq_true, decide_eq_true_eq] at hq
    exact absurd hq.2 hdoc
  · simp only [hid, if_false]

/-- One ledger call keeps every pair at no more than one pending consent. -/
theorem ledgerStep_pending (isMobilePhone : String → Bool) (s : Store) (now : Nat)
    (op : LedgerOp)
    (inv : ∀ p h, (consentsOfPair s.consents p h ConsentStatus.pending).length ≤ 1) :
    ∀ p h, (consentsOfPair (ledgerStep isMobilePhone s now op).consents p h
      ConsentStatus.pending).length ≤ 1 := by
  intro p h
  cases op with
  | request hosp phone name =>
    simp only [ledgerStep, consentRequest]
    split
    · exact inv p h
    · split
      · exact inv p h
      · split
        · exact inv p h
        · split
          · exact inv p h
          · rename_i _ patient _ _ _ _ hpend
            have hnil := findConsentFor_eq_none hpend
            simp only [consentsOfPair, List.filter_append, List.length_append] at hnil ⊢
            by_cases hp : patient.id = p ∧ hosp.id = h
            · obtain ⟨h1, h2⟩ := hp
              subst h1 h2
              rw [hnil]
              simp
            · have hinv := inv p h
              simp only [consentsOfPair] at hinv
              have hdec : (decide (patient.id = p) && decide (hosp.id = h)) = false := by
                simpa using hp
              simp only [List.filter_cons, hdec, Bool.false_and, List.filter_nil]
              simpa using hinv
  | respond pat cid action =>
    simp only [ledgerStep, consentRespond]
    split
    · exact inv p h
    · refine le_trans (saveConsent_pending_le _ _ ?_ p h) (inv p h)
      by_cases ha : action = "grant" <;> simp [ha]
  | revoke hosp cid =>
    simp only [ledgerStep, consentRevoke]
    split
    · exact inv p h
    · refine le_trans (saveConsent_pending_le _ _ ?_ p h) (inv p h)
      simp

/-- A run of ledger calls keeps every pair at no more than one pending consent. -/
theorem ledgerRun_pending (isMobilePhone : String → Bool) (calls : List (Nat × LedgerOp)) :
    ∀ s : Store,
      (∀ p h, (consentsOfPair s.consents p h ConsentStatus.pending).length ≤ 1) →
      ∀ p h, (consentsOfPair (ledgerRun isMobilePhone s calls).consents p h
        ConsentStatus.pending).length ≤ 1 := by
  induction calls with
  | nil => intro s inv; exact inv
  | cons call rest ih =>
    intro s inv
    obtain ⟨now, op⟩ := call
    exact ih _ (ledgerStep_pending isMobilePhone s now op inv)

/-- Saving a loaded document keeps the list of ids of the ledger. -/
theorem saveConsent_ids (consents : List Consent) (doc : Consent) :
    (saveConsent consents doc).map Consent.id = consents.map Consent.id := by
  simp only [saveConsent, List.map_map]
  apply List.map_congr_left
  intro c _
  by_cases h : c.id = doc.id <;> simp [h]

/-- One ledger call keeps the consent ids distinct and below the id counter. -/
theorem ledgerStep_ids (isMobilePhone : String → Bool) (s : Store) (now : Nat)
    (op : LedgerOp)
    (inv : consentIdsUnique s ∧ ∀ i ∈ s.consents.map Consent.id, i < s.nextId) :
    consentIdsUnique (ledgerStep isMobilePhone s now op) ∧
      ∀ i ∈ (ledgerStep isMobilePhone s now op).consents.map Consent.id,
        i < (ledgerStep isMobilePhone s now op).nextId := by
  cases op with
  | request hosp phone name =>
    simp only [ledgerStep, consentRequest]
    split
    · exact inv
    · split
      · exact inv
      · split
        · exact inv
        · split
          · exact inv
          · obtain ⟨hnd, hlt⟩ := inv
            unfold consentIdsUnique at hnd ⊢
            simp only [List.map_append, List.map_cons, List.map_nil]
            constructor
            · rw [List.nodup_append]
              refine ⟨hnd, List.nodup_singleton _, ?_⟩
              intro i hi hi2
              rw [List.mem_singleton] at hi2
              have := hlt i hi
              omega
            · intro i hi
              rw [List.mem_append, List.mem_singleton] at hi
              rcases hi with hi | hi
              · have := hlt i hi
                omega
              · omega
  | respond pat cid action =>
    simp only [ledgerStep, consentRespond]
    split
    · exact inv
    · unfold consentIdsUnique at inv ⊢
      simp only [saveConsent_ids]
      exact inv
  | revoke hosp cid =>
    simp only [ledgerStep, consentRevoke]
    split
    · exact inv
    · unfold consentIdsUnique at inv ⊢
      simp only [saveConsent_ids]
      exact inv

/-- Every ledger reached from an empty one has distinct consent ids. -/
theorem ledgerRun_ids_unique (isMobilePhone : String → Bool) (users : List User)
    (calls : List (Nat × LedgerOp)) :
    consentIdsUnique (ledgerRun isMobilePhone (Store.init users) calls) := by
  have key : ∀ (calls : List (Nat × LedgerOp)) (s : Store),
      (consentIdsUnique s ∧ ∀ i ∈ s.consents.map Consent.id, i < s.nextId) →
      consentIdsUnique (ledgerRun isMobilePhone s calls) := by
    intro calls
    induction calls with
    | nil => intro s inv; exact inv.1
    | cons call rest ih =>
      intro s inv
      obtain ⟨now, op⟩ := call
      exact ih _ (ledgerStep_ids isMobilePhone s now op inv)
  apply key
  simp [consentIdsUnique, Store.init]

/-! ## The consent state machine -/

/-- C1, evaluated on the code: Asha answers `deny` to her consent to City Care
that is already granted.  The handler succeeds (status 200), the consent becomes
denied, its `respondedAt` is overwritten and a notification goes to the
hospital: nothing rejects a response to a consent that is not pending. -/
theorem respond_to_granted_consent_succeeds :
    (consentRespond 50 (ledgerWith ConsentStatus.granted) asha 7 "deny").1.status = 200 ∧
    (consentRespond 50 (ledgerWith ConsentStatus.granted) asha 7 "deny").2.consents.map
      (fun c => (c.id, c.status, c.respondedAt)) = [(7, ConsentStatus.denied, some 50)] ∧
    (consentRespond 50 (ledgerWith ConsentStatus.granted) asha 7 "deny").2.notifications.map
      (fun n => n.userId) = [2] := by
  decide

/-- C2, evaluated on the code: from the empty ledger, the run `regrantCalls`
(request, deny, request, grant, then grant on the first consent) ends with two
consents of status granted for the pair (Asha, City Care). -/
theorem regrant_run_has_two_granted :
    (consentsOfPair (ledgerRun anyPhone sampleStore regrantCalls).consents 1 2
      ConsentStatus.granted).map (fun c => c.id) = [0, 1] := by
  decide

/-- C3: for every sequence of request, respond and revoke calls starting from
an empty ledger, every (patient, hospital) pair has at most one consent with
status pending in the state reached. -/
theorem pending_unique_per_pair (isMobilePhone : String → Bool) (users : List User)
    (calls : List (Nat × LedgerOp)) (p h : Nat) :
    (consentsOfPair (ledgerRun isMobilePhone (Store.init users) calls).consents p h
      ConsentStatus.pending).length ≤ 1 := by
  apply ledgerRun_pending
  intro p h
  simp [Store.init, consentsOfPair]

/-- C4, evaluated on the code: a denied and a revoked consent of Asha to City
Care both become granted again when Asha answers `grant`, without any new
request: the pair regains a granted consent on the old record. -/
theorem respond_reopens_terminal_consent :
    (consentRespond 50 (ledgerWith ConsentStatus.denied) asha 7 "grant").2.consents.map
      (fun c => (c.id, c.status)) = [(7, ConsentStatus.granted)] ∧
    (consentRespond 50 (ledgerWith ConsentStatus.revoked) asha 7 "grant").2.consents.map
      (fun c => (c.id, c.status)) = [(7, ConsentStatus.granted)] ∧
    (getPatientInfo (consentRespond 50 (ledgerWith ConsentStatus.revoked) asha 7 "grant").2
      cityCare 1).status = 200 := by
  decide

/-- C5 as stated fails: the ledger is empty, so the pair (Asha, City Care) has
no granted or pending consent, yet a request whose `patientName` is empty is
rejected by validation (status 400) and adds neither a consent nor a
notification. -/
theorem request_with_empty_name_adds_nothing :
    consentsOfPair sampleStore.consents 1 2 ConsentStatus.granted = [] ∧
    consentsOfPair sampleStore.consents 1 2 ConsentStatus.pending = [] ∧
    findPatientByPhone sampleStore.users "9000000001" = some asha ∧
    (consentRequest anyPhone 10 sampleStore cityCare "9000000001" "").1.status = 400 ∧
    (consentRequest anyPhone 10 sampleStore cityCare "9000000001" "").2.consents = [] ∧
    (consentRequest anyPhone 10 sampleStore cityCare "9000000001" "").2.notifications = [] := by
  decide

/-- C5, amended: for a phone number that belongs to the registered patient
`patient`, a request fails with status 400 and leaves the whole store unchanged
whenever the pair already has a granted or pending consent; otherwise, when the
request passes validation (the phone is accepted as a mobile number and the
name is not empty), it succeeds, appends exactly one consent, pending, for the
pair with the supplied name and phone, and appends exactly one notification,
addressed to the patient and pointing at the new consent. -/
theorem consentRequest_conflict_or_create (isMobilePhone : String → Bool) (now : Nat)
    (s : Store) (reqUser patient : User) (phone name : String)
    (hpat : findPatientByPhone s.users phone = some patient) :
    ((∃ c ∈ s.consents, c.patientId = patient.id ∧ c.hospitalId = reqUser.id ∧
        (c.status = ConsentStatus.granted ∨ c.status = ConsentStatus.pending)) →
      (consentRequest isMobilePhone now s reqUser phone name).1.status = 400 ∧
      (consentRequest isMobilePhone now s reqUser phone name).2 = s) ∧
    ((¬ ∃ c ∈ s.consents, c.patientId = patient.id ∧ c.hospitalId = reqUser.id ∧
        (c.status = ConsentStatus.granted ∨ c.status = ConsentStatus.pending)) →
      isMobilePhone phone = true → name ≠ "" →
      (consentRequest isMobilePhone now s reqUser phone name).1.status = 200 ∧
      ∃ c n,
        (consentRequest isMobilePhone now s reqUser phone name).2.consents =
          s.consents ++ [c] ∧
        c.status = ConsentStatus.pending ∧ c.patientId = patient.id ∧
        c.hospitalId = reqUser.id ∧ c.patientName = name ∧ c.patientPhone = phone ∧
        (consentRequest isMobilePhone now s reqUser phone name).2.notifications =
          s.notifications ++ [n] ∧
        n.userId = patient.id ∧ n.relatedId = c.id) := by
  constructor
  · rintro ⟨c, hc, hp, hh, hst⟩
    simp only [consentRequest, hpat]
    split
    · exact ⟨rfl, rfl⟩
    · split
      · exact ⟨rfl, rfl⟩
      · rename_i hgr
        split
        · exact ⟨rfl, rfl⟩
        · rename_i hpe
          exfalso
          rcases hst with hst | hst
          · have h1 := findConsentFor_eq_none hgr
            have h2 : c ∈ consentsOfPair s.consents patient.id reqUser.id
                ConsentStatus.granted := by
              simp [consentsOfPair, hc, hp, hh, hst]
            rw [h1] at h2
            exact List.not_mem_nil _ h2
          · have h1 := findConsentFor_eq_none hpe
            have h2 : c ∈ consentsOfPair s.consents patient.id reqUser.id
                ConsentStatus.pending := by
              simp [consentsOfPair, hc, hp, hh, hst]
            rw [h1] at h2
            exact List.not_mem_nil _ h2
  · intro hno hphone hname
    have hgr : findConsentFor s.consents patient.id reqUser.id ConsentStatus.granted = none := by
      rw [← Option.not_isSome_iff_eq_none, findConsentFor_isSome_iff]
      rintro ⟨c, hc, hp, hh, hst⟩
      exact hno ⟨c, hc, hp, hh, Or.inl hst⟩
    have hpe : findConsentFor s.consents patient.id reqUser.id ConsentStatus.pending = none := by
      rw [← Option.not_isSome_iff_eq_none, findConsentFor_isSome_iff]
      rintro ⟨c, hc, hp, hh, hst⟩
      exact hno ⟨c, hc, hp, hh, Or.inr hst⟩
    have hval : validatePhoneAndName isMobilePhone phone name = [] := by
      simp [validatePhoneAndName, hphone, hname]
    simp only [consentRequest, hpat, hgr, hpe, hval]
    refine ⟨by simp [Response.msg], _, _, rfl, rfl, rfl, rfl, rfl, rfl, rfl, rfl, rfl⟩

/-- C5, amended, at a concrete input: City Care requests access to Asha on an
empty ledger and the pending consent and the notification are created. -/
theorem consentRequest_conflict_or_create_witness :
    (consentRequest anyPhone 10 sampleStore cityCare "9000000001" "Asha").1.status = 200 ∧
    ∃ c n,
      (consentRequest anyPhone 10 sampleStore cityCare "9000000001" "Asha").2.consents =
        sampleStore.consents ++ [c] ∧
      c.status = ConsentStatus.pending ∧ c.patientId = asha.id ∧
      c.hospitalId = cityCare.id ∧ c.patientName = "Asha" ∧ c.patientPhone = "9000000001" ∧
      (consentRequest anyPhone 10 sampleStore cityCare "9000000001" "Asha").2.notifications =
        sampleStore.notifications ++ [n] ∧
      n.userId = asha.id ∧ n.relatedId = c.id :=
  (consentRequest_conflict_or_create anyPhone 10 sampleStore cityCare asha "9000000001" "Asha"
    (by decide)).2 (by decide) (by decide) (by decide)

/-- Two consents of a store with unique ids that share an id are the same
record. -/
theorem consent_eq_of_id {s : Store} (hids : consentIdsUnique s) {a b : Consent}
    (ha : a ∈ s.consents) (hb : b ∈ s.consents) (hid : a.id = b.id) : a = b :=
  List.inj_on_of_nodup_map hids ha hb hid

/-- The record at each position after `saveConsent`. -/
theorem saveConsent_getElem? (consents : List Consent) (doc : Consent) (i : Nat)
    (d : Consent) (hd : consents[i]? = some d) :
    (saveConsent consents doc)[i]? = some (if d.id = doc.id then doc else d) := by
  simp [saveConsent, hd]

/-- C6: revoke succeeds exactly when a consent with that id, of that hospital
and with status granted exists.  On success (ids being unique) the consent at
each position of the ledger is the old one, except the consent with that id,
whose status is revoked and whose revokedAt is the time of the call; one
notification is appended, addressed to that consent's patient; users and
admissions are untouched.  In every other case the reply is 404 and the store
is unchanged. -/
theorem consentRevoke_spec (now : Nat) (s : Store) (reqUser : User) (cid : Nat)
    (hids : consentIdsUnique s) :
    ((consentRevoke now s reqUser cid).1.status = 200 ↔
      ∃ c ∈ s.consents, c.id = cid ∧ c.hospitalId = reqUser.id ∧
        c.status = ConsentStatus.granted) ∧
    (∀ c ∈ s.consents, c.id = cid → c.hospitalId = reqUser.id →
      c.status = ConsentStatus.granted →
      (∀ (i : Nat) (d : Consent), s.consents[i]? = some d →
        (consentRevoke now s reqUser cid).2.consents[i]? =
          some (if d.id = cid then
            { d with status := ConsentStatus.revoked, revokedAt := some now } else d)) ∧
      (consentRevoke now s reqUser cid).2.consents.length = s.consents.length ∧
      (∃ n, (consentRevoke now s reqUser cid).2.notifications = s.notifications ++ [n] ∧
        n.userId = c.patientId ∧ n.relatedId = cid) ∧
      (consentRevoke now s reqUser cid).2.users = s.users ∧
      (consentRevoke now s reqUser cid).2.admissions = s.admissions) ∧
    ((consentRevoke now s reqUser cid).1.status ≠ 200 →
      (consentRevoke now s reqUser cid).1.status = 404 ∧
      (consentRevoke now s reqUser cid).2 = s) := by
  cases hfind : s.consents.find? (fun c => decide (c.id = cid) &&
      decide (c.hospitalId = reqUser.id) && decide (c.status = ConsentStatus.granted)) with
  | none =>
    have hno : ¬ ∃ c ∈ s.consents, c.id = cid ∧ c.hospitalId = reqUser.id ∧
        c.status = ConsentStatus.granted := by
      rintro ⟨c, hc, h1, h2, h3⟩
      rw [List.find?_eq_none] at hfind
      exact hfind c hc (by simp [h1, h2, h3])
    have hr : consentRevoke now s reqUser cid =
        (Response.msg 404 "Consent not found or already revoked", s) := by
      simp only [consentRevoke, hfind]
    rw [hr]
    refine ⟨?_, ?_, ?_⟩
    · constructor
      · intro h; simp [Response.msg] at h
      · intro h; exact absurd h hno
    · intro c hc h1 h2 h3
      exact absurd ⟨c, hc, h1, h2, h3⟩ hno
    · intro _; exact ⟨rfl, rfl⟩
  | some f =>
    have hf : f ∈ s.consents := List.mem_of_find?_eq_some hfind
    have hq := List.find?_some hfind
    simp only [Bool.and_eq_true, decide_eq_true_eq] at hq
    obtain ⟨⟨hfid, hfh⟩, hfst⟩ := hq
    have hr : consentRevoke now s reqUser cid =
        (Response.msg 200 "Access revoked successfully",
          { s with
            consents := saveConsent s.consents
              { f with status := ConsentStatus.revoked, revokedAt := some now },
            notifications := s.notifications ++
              [{ userId := f.patientId, type := "consent_revoked", title := "Access Revoked",
                 message := displayName reqUser ++
                   " has revoked access to your medical information",
                 relatedId := f.id }] }) := by
      simp only [consentRevoke, hfind]
    rw [hr]
    refine ⟨?_, ?_, ?_⟩
    · constructor
      · intro _; exact ⟨f, hf, hfid, hfh, hfst⟩
      · intro _; rfl
    · intro c hc h1 _ _
      have hcf : c = f := consent_eq_of_id hids hc hf (by rw [h1, hfid])
      subst hcf
      refine ⟨?_, ?_, ⟨_, rfl, rfl, ?_⟩, rfl, rfl⟩
      · intro i d hd
        show (saveConsent s.consents _)[i]? = _
        rw [saveConsent_getElem? _ _ i d hd]
        by_cases hdid : d.id = cid
        · have hdc : d = c :=
            consent_eq_of_id hids (List.getElem?_mem hd) hc (by rw [hdid, h1])
          subst hdc
          simp [hdid, h1]
        · have hne : ¬ d.id = c.id := by rw [h1]; exact hdid
          simp [hdid, hne]
      · show (saveConsent s.consents _).length = _
        simp [saveConsent]
      · exact h1
    · intro h; exact absurd rfl h

/-- C6 at a concrete input: City Care revokes its granted consent of Asha. -/
theorem consentRevoke_spec_witness :
    (consentRevoke 50 (ledgerWith ConsentStatus.granted) cityCare 7).1.status = 200 ∧
    (consentRevoke 50 (ledgerWith ConsentStatus.granted) cityCare 7).2.consents.map
      (fun c => (c.status, c.revokedAt)) = [(ConsentStatus.revoked, some 50)] ∧
    (consentRevoke 50 (ledgerWith ConsentStatus.pending) cityCare 7).1.status = 404 ∧
    (consentRevoke 50 (ledgerWith ConsentStatus.granted) lakeView 7).2 =
      ledgerWith ConsentStatus.granted :=
  have hids : ∀ st, consentIdsUnique (ledgerWith st) := fun st => by
    simp [consentIdsUnique, ledgerWith]
  ⟨(consentRevoke_spec 50 (ledgerWith ConsentStatus.granted) cityCare 7 (hids _)).1.2
      ⟨sampleConsent ConsentStatus.granted, by decide⟩,
    by decide,
    ((consentRevoke_spec 50 (ledgerWith ConsentStatus.pending) cityCare 7 (hids _)).2.2
      (by decide)).1,
    ((consentRevoke_spec 50 (ledgerWith ConsentStatus.granted) lakeView 7 (hids _)).2.2
      (by decide)).2⟩

/-- C7: when no consent has that id together with the responding patient's id,
respond replies 404 and returns the store as it was, so no consent changes and
no notification is added; in particular (ids being unique) a consent addressed
to another patient keeps its place and content whatever id and action the
patient sends. -/
theorem consentRespond_not_found (now : Nat) (s : Store) (reqUser : User) (cid : Nat)
    (action : String) (hids : consentIdsUnique s) :
    ((¬ ∃ c ∈ s.consents, c.id = cid ∧ c.patientId = reqUser.id) →
      consentRespond now s reqUser cid action =
        (Response.msg 404 "Consent request not found", s)) ∧
    (∀ (i : Nat) (d : Consent), s.consents[i]? = some d → d.patientId ≠ reqUser.id →
      (consentRespond now s reqUser cid action).2.consents[i]? = some d) := by
  cases hfind : s.consents.find? (fun c => decide (c.id = cid) &&
      decide (c.patientId = reqUser.id)) with
  | none =>
    have hr : consentRespond now s reqUser cid action =
        (Response.msg 404 "Consent request not found", s) := by
      simp only [consentRespond, hfind]
    rw [hr]
    exact ⟨fun _ => rfl, fun i d hd _ => hd⟩
  | some f =>
    have hf : f ∈ s.consents := List.mem_of_find?_eq_some hfind
    have hq := List.find?_some hfind
    simp only [Bool.and_eq_true, decide_eq_true_eq] at hq
    obtain ⟨hfid, hfp⟩ := hq
    constructor
    · intro hno
      exact absurd ⟨f, hf, hfid, hfp⟩ hno
    · intro i d hd hdp
      simp only [consentRespond, hfind]
      show (saveConsent s.consents _)[i]? = _
      rw [saveConsent_getElem? _ _ i d hd]
      have hne : ¬ d.id = f.id := by
        intro hid
        have hdf : d = f := consent_eq_of_id hids (List.getElem?_mem hd) hf hid
        exact hdp (by rw [hdf]; exact hfp)
      simp [hne]

/-- C7 at a concrete input: the hospital user City Care, who is not the patient
of consent 7, sends a response to it; the reply is 404 and nothing changes. -/
theorem consentRespond_not_found_witness :
    consentRespond 50 (ledgerWith ConsentStatus.pending) cityCare 7 "grant" =
      (Response.msg 404 "Consent request not found", ledgerWith ConsentStatus.pending) :=
  (consentRespond_not_found 50 (ledgerWith ConsentStatus.pending) cityCare 7 "grant"
    (by simp [consentIdsUnique, ledgerWith])).1 (by decide)

/-! ## The access resolver -/

/-- The reply of the access check for an existing patient, by the two grant
paths. -/
theorem getPatientInfo_status (s : Store) (reqUser : User) (pid : Nat)
    (hp : isExistingPatient s pid) :
    ((hasActiveAdmission s pid reqUser.id ∨ hasGrantedConsent s pid reqUser.id) →
      (getPatientInfo s reqUser pid).status = 200) ∧
    (¬ (hasActiveAdmission s pid reqUser.id ∨ hasGrantedConsent s pid reqUser.id) →
      getPatientInfo s reqUser pid =
        Response.msg 403 "Access denied. No consent or active admission") := by
  obtain ⟨u, hu, hrole⟩ := hp
  have huid : u.id = pid := findUserById_id hu
  have hadm := findActiveAdmission_isSome_iff s.admissions pid reqUser.id
  have hcon := findConsentFor_isSome_iff s.consents pid reqUser.id ConsentStatus.granted
  simp only [getPatientInfo, hu, hrole, huid, ne_eq, not_true_eq_false, if_false]
  constructor
  · intro h
    have hsome : ¬ ((findActiveAdmission s.admissions pid reqUser.id).isNone = true ∧
        (findConsentFor s.consents pid reqUser.id ConsentStatus.granted).isNone = true) := by
      rintro ⟨h1, h2⟩
      rw [Option.isNone_iff_eq_none] at h1 h2
      rcases h with h | h
      · have := hadm.mpr h
        rw [h1] at this
        exact absurd this (by simp)
      · have := hcon.mpr h
        rw [h2] at this
        exact absurd this (by simp)
    simp only [Bool.and_eq_true, hsome, if_false]
  · intro h
    have h1 : (findActiveAdmission s.admissions pid reqUser.id).isNone = true := by
      rw [Option.isNone_iff_eq_none, ← Option.not_isSome_iff_eq_none]
      intro hs
      exact h (Or.inl (hadm.mp hs))
    have h2 : (findConsentFor s.consents pid reqUser.id ConsentStatus.granted).isNone
        = true := by
      rw [Option.isNone_iff_eq_none, ← Option.not_isSome_iff_eq_none]
      intro hs
      exact h (Or.inr (hcon.mp hs))
    simp only [h1, h2, Bool.and_self, if_true]

/-- C8: for every hospital and every existing patient, the access check grants
access (status 200) if and only if the hospital has an active admission of that
patient or a consent with status granted for that patient; without either the
reply is 403, access denied.  Consents in another status, discharged admissions
and records of other hospitals are outside both conditions. -/
theorem access_iff_admission_or_consent (s : Store) (reqUser : User) (pid : Nat)
    (hp : isExistingPatient s pid) :
    ((getPatientInfo s reqUser pid).status = 200 ↔
      ((∃ a ∈ s.admissions, a.patientId = some pid ∧ a.hospitalId = reqUser.id ∧
          a.isActive = true) ∨
       (∃ c ∈ s.consents, c.patientId = pid ∧ c.hospitalId = reqUser.id ∧
          c.status = ConsentStatus.granted))) ∧
    (¬ ((∃ a ∈ s.admissions, a.patientId = some pid ∧ a.hospitalId = reqUser.id ∧
          a.isActive = true) ∨
        (∃ c ∈ s.consents, c.patientId = pid ∧ c.hospitalId = reqUser.id ∧
          c.status = ConsentStatus.granted)) →
      getPatientInfo s reqUser pid =
        Response.msg 403 "Access denied. No consent or active admission") := by
  have h := getPatientInfo_status s reqUser pid hp
  refine ⟨⟨?_, h.1⟩, h.2⟩
  intro h200
  by_contra hno
  have h403 := h.2 hno
  rw [h403] at h200
  simp [Response.msg] at h200

/-- C8 at concrete inputs: City Care, holding a granted consent of Asha, is
granted access; Lake View, which holds nothing, and City Care with only a
revoked consent are denied. -/
theorem access_iff_admission_or_consent_witness :
    (getPatientInfo (ledgerWith ConsentStatus.granted) cityCare 1).status = 200 ∧
    getPatientInfo (ledgerWith ConsentStatus.granted) lakeView 1 =
      Response.msg 403 "Access denied. No consent or active admission" ∧
    getPatientInfo (ledgerWith ConsentStatus.revoked) cityCare 1 =
      Response.msg 403 "Access denied. No consent or active admission" :=
  ⟨(access_iff_admission_or_consent (ledgerWith ConsentStatus.granted) cityCare 1
      ⟨asha, by decide, by decide⟩).1.2
      (Or.inr ⟨sampleConsent ConsentStatus.granted, by decide⟩),
   (access_iff_admission_or_consent (ledgerWith ConsentStatus.granted) lakeView 1
      ⟨asha, by decide, by decide⟩).2 (by decide),
   (access_iff_admission_or_consent (ledgerWith ConsentStatus.revoked) cityCare 1
      ⟨asha, by decide, by decide⟩).2 (by decide)⟩

/-- The record at each position after `saveAdmission`. -/
theorem mem_saveAdmission {admissions : List Admission} {doc d : Admission}
    (hd : d ∈ saveAdmission admissions doc) :
    d = doc ∨ (d ∈ admissions ∧ d.id ≠ doc.id) := by
  simp only [saveAdmission, List.mem_map] at hd
  obtain ⟨d0, hd0, heq⟩ := hd
  by_cases hid : d0.id = doc.id
  · simp only [hid, if_true] at heq
    exact Or.inl heq.symm
  · simp only [hid, if_false] at heq
    subst heq
    exact Or.inr ⟨hd0, hid⟩

/-- A consent of the ledger after `saveConsent` is the saved document or an old
consent with another id. -/
theorem mem_saveConsent {consents : List Consent} {doc d : Consent}
    (hd : d ∈ saveConsent consents doc) :
    d = doc ∨ (d ∈ consents ∧ d.id ≠ doc.id) := by
  simp only [saveConsent, List.mem_map] at hd
  obtain ⟨d0, hd0, heq⟩ := hd
  by_cases hid : d0.id = doc.id
  · simp only [hid, if_true] at heq
    exact Or.inl heq.symm
  · simp only [hid, if_false] at heq
    subst heq
    exact Or.inr ⟨hd0, hid⟩

/-- Access follows the latest state change on the next call when the pair has
one grant path at a time.
(1) After revoke succeeds on the pair's granted consent, with no active
admission and no other granted consent of the pair, the next access check is
denied.  (2) After the pair's active admission is discharged, with no granted
consent and no other active admission of the pair, the next access check is
denied.  (3) After the patient responds grant to the pair's pending consent,
the next access check is granted.  (4) After the hospital admits a registered
patient, the next access check is granted. -/
theorem access_follows_latest_change :
    (∀ (now : Nat) (s : Store) (reqUser : User) (cid pid : Nat),
      isExistingPatient s pid →
      ¬ hasActiveAdmission s pid reqUser.id →
      (∃ c ∈ s.consents, c.id = cid ∧ c.patientId = pid ∧ c.hospitalId = reqUser.id ∧
        c.status = ConsentStatus.granted) →
      (∀ c ∈ s.consents, c.patientId = pid → c.hospitalId = reqUser.id →
        c.status = ConsentStatus.granted → c.id = cid) →
      (consentRevoke now s reqUser cid).1.status = 200 ∧
      getPatientInfo (consentRevoke now s reqUser cid).2 reqUser pid =
        Response.msg 403 "Access denied. No consent or active admission") ∧
    (∀ (now : Nat) (s : Store) (reqUser : User) (aid pid : Nat),
      isExistingPatient s pid →
      ¬ hasGrantedConsent s pid reqUser.id →
      (∃ a ∈ s.admissions, a.id = aid ∧ a.patientId = some pid ∧
        a.hospitalId = reqUser.id ∧ a.isActive = true) →
      (∀ a ∈ s.admissions, a.patientId = some pid → a.hospitalId = reqUser.id →
        a.isActive = true → a.id = aid) →
      (dischargePatient now s reqUser aid).1.status = 200 ∧
      getPatientInfo (dischargePatient now s reqUser aid).2 reqUser pid =
        Response.msg 403 "Access denied. No consent or active admission") ∧
    (∀ (now : Nat) (s : Store) (patient hospital : User) (cid : Nat),
      isExistingPatient s patient.id →
      consentIdsUnique s →
      (∃ c ∈ s.consents, c.id = cid ∧ c.patientId = patient.id ∧
        c.hospitalId = hospital.id ∧ c.status = ConsentStatus.pending) →
      (consentRespond now s patient cid "grant").1.status = 200 ∧
      (getPatientInfo (consentRespond now s patient cid "grant").2 hospital
        patient.id).status = 200) ∧
    (∀ (isMobilePhone : String → Bool) (now : Nat) (s : Store) (reqUser patient : User)
      (phone name : String) (notes : Option String),
      findPatientByPhone s.users phone = some patient →
      isExistingPatient s patient.id →
      (admitPatient isMobilePhone now s reqUser phone name notes).1.status = 200 →
      (getPatientInfo (admitPatient isMobilePhone now s reqUser phone name notes).2 reqUser
        patient.id).status = 200) := by
  refine ⟨?_, ?_, ?_, ?_⟩
  · intro now s reqUser cid pid hp hadm ⟨c, hc, hcid, hcp, hch, hcs⟩ honly
    cases hfind : s.consents.find? (fun c => decide (c.id = cid) &&
        decide (c.hospitalId = reqUser.id) && decide (c.status = ConsentStatus.granted)) with
    | none =>
      rw [List.find?_eq_none] at hfind
      exact absurd (by simp [hcid, hch, hcs]) (hfind c hc)
    | some f =>
      have hq := List.find?_some hfind
      simp only [Bool.and_eq_true, decide_eq_true_eq] at hq
      obtain ⟨⟨hfid, _⟩, _⟩ := hq
      have hr : consentRevoke now s reqUser cid =
          (Response.msg 200 "Access revoked successfully",
            { s with
              consents := saveConsent s.consents
                { f with status := ConsentStatus.revoked, revokedAt := some now },
              notifications := s.notifications ++
                [{ userId := f.patientId, type := "consent_revoked",
                   title := "Access Revoked",
                   message := displayName reqUser ++
                     " has revoked access to your medical information",
                   relatedId := f.id }] }) := by
        simp only [consentRevoke, hfind]
      rw [hr]
      refine ⟨rfl, (getPatientInfo_status _ reqUser pid (by exact hp)).2 ?_⟩
      rintro (h | ⟨d, hd, hdp, hdh, hds⟩)
      · exact hadm h
      · rcases mem_saveConsent hd with hdoc | ⟨hmem, hne⟩
        · rw [hdoc] at hds
          exact absurd hds (by simp)
        · exact hne (by rw [honly d hmem hdp hdh hds]; exact hfid.symm)
  · intro now s reqUser aid pid hp hcon ⟨a, ha, haid, hap, hah, haa⟩ honly
    cases hfind : s.admissions.find? (fun a => decide (a.id = aid) &&
        decide (a.hospitalId = reqUser.id)) with
    | none =>
      rw [List.find?_eq_none] at hfind
      exact absurd (by simp [haid, hah]) (hfind a ha)
    | some f =>
      have hq := List.find?_some hfind
      simp only [Bool.and_eq_true, decide_eq_true_eq] at hq
      obtain ⟨hfid, _⟩ := hq
      have hr : dischargePatient now s reqUser aid =
          (Response.msg 200 "Patient discharged successfully",
            { s with
              admissions := saveAdmission s.admissions
                { f with isActive := false, dischargeDate := some now } }) := by
        simp only [dischargePatient, hfind]
      rw [hr]
      refine ⟨rfl, (getPatientInfo_status _ reqUser pid (by exact hp)).2 ?_⟩
      rintro (⟨d, hd, hdp, hdh, hda⟩ | h)
      · rcases mem_saveAdmission hd with hdoc | ⟨hmem, hne⟩
        · rw [hdoc] at hda
          exact absurd hda (by simp)
        · exact hne (by rw [honly d hmem hdp hdh hda]; exact hfid.symm)
      · exact hcon h
  · intro now s patient hospital cid hp hids ⟨c, hc, hcid, hcp, hch, hcs⟩
    cases hfind : s.consents.find? (fun c => decide (c.id = cid) &&
        decide (c.patientId = patient.id)) with
    | none =>
      rw [List.find?_eq_none] at hfind
      exact absurd (by simp [hcid, hcp]) (hfind c hc)
    | some f =>
      have hf : f ∈ s.consents := List.mem_of_find?_eq_some hfind
      have hq := List.find?_some hfind
      simp only [Bool.and_eq_true, decide_eq_true_eq] at hq
      have hfc : f = c := consent_eq_of_id hids hf hc (by rw [hq.1, hcid])
      subst hfc
      simp only [consentRespond, hfind]
      refine ⟨rfl, (getPatientInfo_status _ hospital patient.id (by exact hp)).1 (Or.inr ?_)⟩
      refine ⟨{ f with status := ConsentStatus.granted, respondedAt := some now }, ?_,
        hcp, hch, rfl⟩
      simp only [saveConsent, List.mem_map]
      exact ⟨f, hc, by simp⟩
  · intro isMobilePhone now s reqUser patient phone name notes hpat hp h200
    simp only [admitPatient, hpat] at h200 ⊢
    split at h200
    · simp at h200
    · split at h200
      · simp [Response.msg] at h200
      · rename_i hval _ hnone
        simp only [hval, if_false, hnone]
        refine (getPatientInfo_status _ reqUser patient.id (by exact hp)).1 (Or.inl ?_)
        refine ⟨_, List.mem_append_right _ (List.mem_singleton_self _), rfl, rfl, rfl⟩

/-- The four cases at concrete inputs: City Care loses access to Asha after
revoking its only granted consent and after discharging her only admission, and
gains it after Asha grants the pending consent and after admitting her. -/
theorem access_follows_latest_change_witness :
    getPatientInfo (consentRevoke 50 (ledgerWith ConsentStatus.granted) cityCare 7).2
      cityCare 1 = Response.msg 403 "Access denied. No consent or active admission" ∧
    getPatientInfo (dischargePatient 60 admittedStore cityCare 0).2 cityCare 1 =
      Response.msg 403 "Access denied. No consent or active admission" ∧
    (getPatientInfo (consentRespond 50 (ledgerWith ConsentStatus.pending) asha 7 "grant").2
      cityCare 1).status = 200 ∧
    (getPatientInfo (admitPatient anyPhone 40 sampleStore cityCare "9000000001" "Asha" none).2
      cityCare 1).status = 200 :=
  ⟨(access_follows_latest_change.1 50 (ledgerWith ConsentStatus.granted) cityCare 7 1
      ⟨asha, by decide, by decide⟩ (by decide) (by decide) (by decide)).2,
   (access_follows_latest_change.2.1 60 admittedStore cityCare 0 1
      ⟨asha, by decide, by decide⟩ (by decide) (by decide) (by decide)).2,
   (access_follows_latest_change.2.2.1 50 (ledgerWith ConsentStatus.pending) asha cityCare 7
      ⟨asha, by decide, by decide⟩ (by decide) (by decide)).2,
   access_follows_latest_change.2.2.2 anyPhone 40 sampleStore cityCare asha "9000000001"
      "Asha" none (by decide) ⟨asha, by decide, by decide⟩ (by decide)⟩

/-- C9, evaluated on the code: after the run `regrantCalls` Asha is not admitted
at City Care, which holds the granted consents 0 and 1 of her.  City Care
revokes consent 0, the one the access check shows: the call replies 200 and the
consent becomes revoked, yet the next access check of City Care for Asha still
replies 200, through consent 1. -/
theorem revoke_keeps_access_after_regrant :
    ¬ hasActiveAdmission (ledgerRun anyPhone sampleStore regrantCalls) 1 cityCare.id ∧
    (getPatientInfo (ledgerRun anyPhone sampleStore regrantCalls) cityCare 1).status = 200 ∧
    (getPatientInfo (ledgerRun anyPhone sampleStore regrantCalls) cityCare 1).info.map
      (fun i => i.consentId) = some (some 0) ∧
    (consentRevoke 60 (ledgerRun anyPhone sampleStore regrantCalls) cityCare 0).1.status =
      200 ∧
    (consentRevoke 60 (ledgerRun anyPhone sampleStore regrantCalls) cityCare 0).2.consents.map
      (fun c => (c.id, c.status)) =
      [(0, ConsentStatus.revoked), (1, ConsentStatus.granted)] ∧
    (getPatientInfo (consentRevoke 60 (ledgerRun anyPhone sampleStore regrantCalls)
      cityCare 0).2 cityCare 1).status = 200 := by
  decide

/-- C10 as stated fails: City Care has neither an active admission nor a
granted consent for patient id 1 in either store, yet the access check replies
403 where the patient exists and 404 where the patient does not, so the failure
tells the two cases apart. -/
theorem access_failure_reveals_patient :
    ¬ hasActiveAdmission sampleStore 1 cityCare.id ∧
    ¬ hasGrantedConsent sampleStore 1 cityCare.id ∧
    ¬ hasActiveAdmission storeWithoutAsha 1 cityCare.id ∧
    ¬ hasGrantedConsent storeWithoutAsha 1 cityCare.id ∧
    findUserById sampleStore.users 1 = some asha ∧
    findUserById storeWithoutAsha.users 1 = none ∧
    (getPatientInfo sampleStore cityCare 1).status = 403 ∧
    (getPatientInfo storeWithoutAsha cityCare 1).status = 404 ∧
    getPatientInfo sampleStore cityCare 1 ≠ getPatientInfo storeWithoutAsha cityCare 1 := by
  decide

/-- C10, amended: for every hospital that has neither an active admission nor a
granted consent for a patient id, the access operation fails and returns no
patient data; the reply is 403 "Access denied. No consent or active admission"
when a patient with that id exists and 404 "Patient not found" when no user with
that id exists or the user is not a patient. -/
theorem access_failure_reply (s : Store) (reqUser : User) (pid : Nat)
    (hadm : ¬ hasActiveAdmission s pid reqUser.id)
    (hcon : ¬ hasGrantedConsent s pid reqUser.id) :
    (isExistingPatient s pid →
      getPatientInfo s reqUser pid =
        Response.msg 403 "Access denied. No consent or active admission") ∧
    (¬ isExistingPatient s pid →
      getPatientInfo s reqUser pid = Response.msg 404 "Patient not found") ∧
    (getPatientInfo s reqUser pid).status ≠ 200 ∧
    (getPatientInfo s reqUser pid).info = none := by
  have hex : isExistingPatient s pid →
      getPatientInfo s reqUser pid =
        Response.msg 403 "Access denied. No consent or active admission" := fun hp =>
    (getPatientInfo_status s reqUser pid hp).2 (fun h => h.elim hadm hcon)
  have hnex : ¬ isExistingPatient s pid →
      getPatientInfo s reqUser pid = Response.msg 404 "Patient not found" := by
    intro hp
    cases hu : findUserById s.users pid with
    | none => simp only [getPatientInfo, hu]
    | some u =>
      have hrole : u.role ≠ Role.patient := fun hr => hp ⟨u, hu, hr⟩
      simp only [getPatientInfo, hu, hrole, ne_eq, not_false_eq_true, if_true]
  refine ⟨hex, hnex, ?_, ?_⟩
  · by_cases hp : isExistingPatient s pid
    · rw [hex hp]; simp [Response.msg]
    · rw [hnex hp]; simp [Response.msg]
  · by_cases hp : isExistingPatient s pid
    · rw [hex hp]; rfl
    · rw [hnex hp]; rfl

/-- C10, amended, at concrete inputs: the two replies City Care gets for patient
id 1, with and without the patient Asha in the store. -/
theorem access_failure_reply_witness :
    getPatientInfo sampleStore cityCare 1 =
      Response.msg 403 "Access denied. No consent or active admission" ∧
    getPatientInfo storeWithoutAsha cityCare 1 = Response.msg 404 "Patient not found" :=
  ⟨(access_failure_reply sampleStore cityCare 1 (by decide) (by decide)).1
      ⟨asha, by decide, by decide⟩,
   (access_failure_reply storeWithoutAsha cityCare 1 (by decide) (by decide)).2.1
      (by
        rintro ⟨u, hu, _⟩
        have hnone : findUserById storeWithoutAsha.users 1 = none := by decide
        rw [hnone] at hu
        exact Option.noConfusion hu)⟩

/-! ## Lemmas on characters, `trim` and the time pattern -/

theorem digit_not_space {c : Char} (h : isAsciiDigit c = true) : isJsSpace c = false := by
  simp only [isAsciiDigit, Bool.and_eq_true, decide_eq_true_eq] at h
  simp only [isJsSpace, Bool.or_eq_false_iff, Bool.and_eq_false_iff, decide_eq_false_iff_not]
  omega

theorem digit_ascii {c : Char} (h : isAsciiDigit c = true) : c.toNat < 128 := by
  simp only [isAsciiDigit, Bool.and_eq_true, decide_eq_true_eq] at h
  omega

theorem digit_toLower {c : Char} (h : isAsciiDigit c = true) : c.toLower = c := by
  simp only [isAsciiDigit, Bool.and_eq_true, decide_eq_true_eq] at h
  simp only [Char.toLower]
  have : ¬ (c.toNat ≥ 65 ∧ c.toNat ≤ 90) := by omega
  simp [this]

theorem space_toLower {c : Char} (h : isJsSpace c = true) : c.toLower = c := by
  have hn : ¬ (c.toNat ≥ 65 ∧ c.toNat ≤ 90) := by
    simp only [isJsSpace, Bool.or_eq_true, Bool.and_eq_true, decide_eq_true_eq] at h
    omega
  simp [Char.toLower, hn]

/-- A text of white space only trims to the empty text. -/
theorem jsTrim_of_spaces {t : String} (h : ∀ c ∈ t.data, isJsSpace c = true) :
    jsTrim t = "" := by
  have hd : t.data.dropWhile isJsSpace = [] := List.dropWhile_eq_nil_iff.mpr h
  simp [jsTrim, hd]

/-- The trimmed form of a text that starts with a character that is not white
space starts with that character. -/
theorem jsTrim_head {t : String} {a : Char} {rest : List Char}
    (ht : t.data = a :: rest) (ha : isJsSpace a = false) :
    ∃ tail, (jsTrim t).data = a :: tail := by
  have hd : t.data.dropWhile isJsSpace = a :: rest := by
    rw [ht, List.dropWhile_cons_of_neg (by simp [ha])]
  have hpre : (a :: rest).rdropWhile isJsSpace <+: a :: rest := List.rdropWhile_prefix _ _
  have hne : (a :: rest).rdropWhile isJsSpace ≠ [] := by
    intro hnil
    rw [List.rdropWhile_eq_nil_iff] at hnil
    have := hnil a (List.mem_cons_self _ _)
    rw [ha] at this
    exact Bool.noConfusion this
  simp only [jsTrim, hd]
  cases hr : (a :: rest).rdropWhile isJsSpace with
  | nil => exact absurd hr hne
  | cons b tail =>
    rw [hr] at hpre
    obtain ⟨u, hu⟩ := hpre
    simp only [List.cons_append, List.cons.injEq] at hu
    exact ⟨tail, by rw [hu.1]⟩

theorem string_ne_empty_of_data {t : String} {a : Char} {rest : List Char}
    (ht : t.data = a :: rest) : t ≠ "" := by
  intro h
  rw [h] at ht
  exact List.noConfusion ht

theorem matchSuffix_spaces {ws : List Char} (hws : ∀ c ∈ ws, isJsSpace c = true) :
    matchSuffix ws = some none := by
  have hd : ws.dropWhile isJsSpace = [] := List.dropWhile_eq_nil_iff.mpr hws
  simp only [matchSuffix, hd]

theorem matchSuffix_ampm {ws : List Char} (hws : ∀ c ∈ ws, isJsSpace c = true) {a m : Char}
    (ha : a = 'a' ∨ a = 'A' ∨ a = 'p' ∨ a = 'P') (hm : m = 'm' ∨ m = 'M') :
    matchSuffix (ws ++ [a, m]) = some (some (String.mk [a, m])) := by
  have hns : isJsSpace a = false := by
    rcases ha with h | h | h | h <;> subst h <;> decide
  have hd : (ws ++ [a, m]).dropWhile isJsSpace = [a, m] := by
    rw [List.dropWhile_append_of_pos hws, List.dropWhile_cons_of_neg (by simp [hns])]
  have hcond : ((a = 'a' || a = 'A' || a = 'p' || a = 'P') && (m = 'm' || m = 'M')) = true := by
    rcases ha with h | h | h | h <;> rcases hm with h2 | h2 <;> subst h <;> subst h2 <;> decide
  simp only [matchSuffix, hd, hcond, if_true]

theorem matchTimePattern_one {t : String} {a c d : Char} {tail : List Char}
    (ht : t.data = a :: ':' :: c :: d :: tail) (ha : isAsciiDigit a = true)
    (hc : isAsciiDigit c = true) (hd : isAsciiDigit d = true) :
    matchTimePattern t = (matchSuffix tail).map
      (fun ampm => { hours := String.mk [a], minutes := String.mk [c, d], ampm := ampm }) := by
  have hcolon : isAsciiDigit ':' = false := by decide
  simp only [matchTimePattern, ht, ha, hcolon, if_true, matchAfterHours, hc, hd,
    Bool.and_self, Bool.false_eq_true, if_false]

theorem matchTimePattern_two {t : String} {a b c d : Char} {tail : List Char}
    (ht : t.data = a :: b :: ':' :: c :: d :: tail) (ha : isAsciiDigit a = true)
    (hb : isAsciiDigit b = true) (hc : isAsciiDigit c = true) (hd : isAsciiDigit d = true) :
    matchTimePattern t = (matchSuffix tail).map
      (fun ampm => { hours := String.mk [a, b], minutes := String.mk [c, d], ampm := ampm }) := by
  simp only [matchTimePattern, ht, ha, hb, if_true, matchAfterHours, hc, hd, Bool.and_self]

/-- A text that matches the time pattern starts with a digit. -/
theorem matchTimePattern_head {t : String} {m : TimeMatch} (hm : matchTimePattern t = some m) :
    ∃ a rest, t.data = a :: rest ∧ isAsciiDigit a = true := by
  unfold matchTimePattern at hm
  split at hm
  · rename_i a b rest hdata
    by_cases ha : isAsciiDigit a = true
    · exact ⟨a, b :: rest, hdata, ha⟩
    · simp [ha] at hm
  · exact Option.noConfusion hm

/-- The result of `parseTiming` on a text that matches the time pattern. -/
theorem parseTiming_of_match (unicodeLower : String → String) {t : String} {m : TimeMatch}
    (hm : matchTimePattern t = some m) :
    parseTiming unicodeLower (some t) =
      [Slot.time (padStart2 (toString
        (adjustHours (m.ampm.map (toLowerCase unicodeLower)) (parseInt m.hours))) ++ ":" ++
          m.minutes)] := by
  obtain ⟨a, rest, hdata, ha⟩ := matchTimePattern_head hm
  have hne : t ≠ "" := string_ne_empty_of_data hdata
  obtain ⟨tail, htrim⟩ := jsTrim_head hdata (digit_not_space ha)
  have hne2 : jsTrim t ≠ "" := string_ne_empty_of_data htrim
  simp only [parseTiming, hne, hne2, decide_False, Bool.or_self, Bool.false_eq_true, if_false, hm]

theorem matchTimePattern_text {t : String} {hs : List Char} {c d : Char} {tail : List Char}
    {ampm : Option String} (ht : t.data = hs ++ ':' :: c :: d :: tail)
    (hhs : (∃ a, hs = [a] ∧ isAsciiDigit a = true) ∨
      (∃ a b, hs = [a, b] ∧ isAsciiDigit a = true ∧ isAsciiDigit b = true))
    (hc : isAsciiDigit c = true) (hd : isAsciiDigit d = true)
    (htail : matchSuffix tail = some ampm) :
    matchTimePattern t =
      some { hours := String.mk hs, minutes := String.mk [c, d], ampm := ampm } := by
  rcases hhs with ⟨a, rfl, ha⟩ | ⟨a, b, rfl, ha, hb⟩
  · rw [matchTimePattern_one (by simpa using ht) ha hc hd, htail]
    rfl
  · rw [matchTimePattern_two (by simpa using ht) ha hb hc hd, htail]
    rfl

/-- The two digits of a minute below 100, as `padStart` writes them. -/
theorem padStart2_digits (m : Nat) (hm : m < 60) :
    ∃ c d, padStart2 (toString m) = String.mk [c, d] ∧ isAsciiDigit c = true ∧
      isAsciiDigit d = true := by
  refine ⟨Char.ofNat (48 + m / 10), Char.ofNat (48 + m % 10), ?_, ?_, ?_⟩ <;>
    interval_cases m <;> decide

/-- The digits of an hour up to 23 written with or without a leading zero. -/
theorem hourText_digits (h : Nat) (hh : h ≤ 23) (hourText : String)
    (hText : hourText = toString h ∨ hourText = padStart2 (toString h)) :
    parseInt hourText = h ∧
    ((∃ a, hourText.data = [a] ∧ isAsciiDigit a = true) ∨
     (∃ a b, hourText.data = [a, b] ∧ isAsciiDigit a = true ∧ isAsciiDigit b = true)) := by
  rcases hText with rfl | rfl
  · by_cases h10 : h < 10
    · refine ⟨?_, Or.inl ⟨Char.ofNat (48 + h), ?_, ?_⟩⟩ <;> interval_cases h <;> decide
    · refine ⟨?_, Or.inr ⟨Char.ofNat (48 + h / 10), Char.ofNat (48 + h % 10), ?_, ?_, ?_⟩⟩ <;>
        interval_cases h <;> decide
  · refine ⟨?_, Or.inr ⟨Char.ofNat (48 + h / 10), Char.ofNat (48 + h % 10), ?_, ?_, ?_⟩⟩ <;>
      interval_cases h <;> decide

/-- The slot of a text `hours:minutes`, white space, optional suffix, once the
suffix part is known to match. -/
theorem parseTiming_clock_text (unicodeLower : String → String) (h m : Nat)
    (hourText : String) (hm : m < 60) (hh : h ≤ 23)
    (hText : hourText = toString h ∨ hourText = padStart2 (toString h))
    (t : String) (tail : List Char) (ampm : Option String)
    (ht : t.data = hourText.data ++ ':' :: (padStart2 (toString m)).data ++ tail)
    (htail : matchSuffix tail = some ampm) :
    parseTiming unicodeLower (some t) =
      [Slot.time (padStart2 (toString
        (adjustHours (ampm.map (toLowerCase unicodeLower)) h)) ++ ":" ++
          padStart2 (toString m))] := by
  obtain ⟨c, d, hmm, hc, hd⟩ := padStart2_digits m hm
  obtain ⟨hparse, hdigits⟩ := hourText_digits h hh hourText hText
  have hdata : t.data = hourText.data ++ ':' :: c :: d :: tail := by
    rw [ht, hmm]
    simp
  have hmatch := matchTimePattern_text hdata hdigits hc hd htail
  rw [parseTiming_of_match unicodeLower hmatch, hmm]
  have hhours : parseInt (String.mk hourText.data) = h := hparse
  simp only [hhours]

/-- C11: for every hour `h` written with one or two digits, every minute below
60 written with two digits and every run of white space, `parseTiming` returns
exactly one slot: with no suffix and `h` from 0 to 23 the hour is `h`; with
`pm` in any letter case and `h` from 1 to 12 the hour is `h + 12`, and 12 for
`h = 12`; with `am` the hour is `h`, and 00 for `h = 12`.  The hour is padded
to two digits and the minutes are those of the text. -/
theorem parseTiming_clock_time (unicodeLower : String → String) (h m : Nat)
    (hourText ws : String) (hm : m < 60)
    (hText : hourText = toString h ∨ hourText = padStart2 (toString h))
    (hws : ∀ c ∈ ws.data, isJsSpace c = true) :
    (h ≤ 23 →
      parseTiming unicodeLower (some (hourText ++ ":" ++ padStart2 (toString m) ++ ws)) =
        [Slot.time (padStart2 (toString h) ++ ":" ++ padStart2 (toString m))]) ∧
    (1 ≤ h → h ≤ 12 → ∀ suffix ∈ ["pm", "PM", "Pm", "pM"],
      parseTiming unicodeLower
          (some (hourText ++ ":" ++ padStart2 (toString m) ++ ws ++ suffix)) =
        [Slot.time (padStart2 (toString (if h = 12 then 12 else h + 12)) ++ ":" ++
          padStart2 (toString m))]) ∧
    (1 ≤ h → h ≤ 12 → ∀ suffix ∈ ["am", "AM", "Am", "aM"],
      parseTiming unicodeLower
          (some (hourText ++ ":" ++ padStart2 (toString m) ++ ws ++ suffix)) =
        [Slot.time (padStart2 (toString (if h = 12 then 0 else h)) ++ ":" ++
          padStart2 (toString m))]) := by
  refine ⟨?_, ?_, ?_⟩
  · intro hh
    rw [parseTiming_clock_text unicodeLower h m hourText hm hh hText _ ws.data none
      (by simp [String.data_append]) (matchSuffix_spaces hws)]
    simp [adjustHours]
  · intro h1 h12 suffix hsuf
    have hlow : toLowerCase unicodeLower suffix = "pm" := by
      simp only [List.mem_cons, List.mem_singleton, List.mem_nil_iff, or_false] at hsuf
      rcases hsuf with rfl | rfl | rfl | rfl <;> rfl
    have htail : matchSuffix (ws.data ++ suffix.data) = some (some suffix) := by
      simp only [List.mem_cons, List.mem_singleton, List.mem_nil_iff, or_false] at hsuf
      rcases hsuf with rfl | rfl | rfl | rfl
      · exact matchSuffix_ampm hws (Or.inr (Or.inr (Or.inl rfl))) (Or.inl rfl)
      · exact matchSuffix_ampm hws (Or.inr (Or.inr (Or.inr rfl))) (Or.inr rfl)
      · exact matchSuffix_ampm hws (Or.inr (Or.inr (Or.inr rfl))) (Or.inl rfl)
      · exact matchSuffix_ampm hws (Or.inr (Or.inr (Or.inl rfl))) (Or.inr rfl)
    rw [parseTiming_clock_text unicodeLower h m hourText hm (by omega) hText _
      (ws.data ++ suffix.data) (some suffix)
      (by simp [String.data_append]) htail]
    by_cases h12' : h = 12
    · simp [adjustHours, hlow, h12']
    · have : ¬ (h + 12 = 12) := by omega
      simp [adjustHours, hlow, h12', this]
  · intro h1 h12 suffix hsuf
    have hlow : toLowerCase unicodeLower suffix = "am" := by
      simp only [List.mem_cons, List.mem_singleton, List.mem_nil_iff, or_false] at hsuf
      rcases hsuf with rfl | rfl | rfl | rfl <;> rfl
    have htail : matchSuffix (ws.data ++ suffix.data) = some (some suffix) := by
      simp only [List.mem_cons, List.mem_singleton, List.mem_nil_iff, or_false] at hsuf
      rcases hsuf with rfl | rfl | rfl | rfl
      · exact matchSuffix_ampm hws (Or.inl rfl) (Or.inl rfl)
      · exact matchSuffix_ampm hws (Or.inr (Or.inl rfl)) (Or.inr rfl)
      · exact matchSuffix_ampm hws (Or.inr (Or.inl rfl)) (Or.inl rfl)
      · exact matchSuffix_ampm hws (Or.inl rfl) (Or.inr rfl)
    rw [parseTiming_clock_text unicodeLower h m hourText hm (by omega) hText _
      (ws.data ++ suffix.data) (some suffix)
      (by simp [String.data_append]) htail]
    by_cases h12' : h = 12
    · simp [adjustHours, hlow, h12']
    · simp [adjustHours, hlow, h12']

/-- C11 at concrete inputs: `9:30 PM` gives 21:30, `12:05am` gives 00:05 and
`12:05 pm` stays 12:05, `7:15` gives 07:15. -/
theorem parseTiming_clock_time_witness :
    parseTiming id (some "9:30 PM") = [Slot.time "21:30"] ∧
    parseTiming id (some "12:05am") = [Slot.time "00:05"] ∧
    parseTiming id (some "12:05 pm") = [Slot.time "12:05"] ∧
    parseTiming id (some "7:15") = [Slot.time "07:15"] :=
  ⟨(parseTiming_clock_time id 9 30 "9" " " (by decide) (Or.inl (by decide))
      (by decide)).2.1 (by decide) (by decide) "PM" (by decide),
   (parseTiming_clock_time id 12 5 "12" "" (by decide) (Or.inl (by decide))
      (by decide)).2.2 (by decide) (by decide) "am" (by decide),
   (parseTiming_clock_time id 12 5 "12" " " (by decide) (Or.inl (by decide))
      (by decide)).2.1 (by decide) (by decide) "pm" (by decide),
   (parseTiming_clock_time id 7 15 "7" "" (by decide) (Or.inl (by decide))
      (by decide)).1 (by decide)⟩

/-- C13: for a timing that is absent, empty or made of white space only,
`parseTiming` returns exactly the three slots 09:00, 14:00, 21:00, in that
order. -/
theorem parseTiming_blank (unicodeLower : String → String) :
    parseTiming unicodeLower none =
      [Slot.time "09:00", Slot.time "14:00", Slot.time "21:00"] ∧
    parseTiming unicodeLower (some "") =
      [Slot.time "09:00", Slot.time "14:00", Slot.time "21:00"] ∧
    ∀ t : String, (∀ c ∈ t.data, isJsSpace c = true) →
      parseTiming unicodeLower (some t) =
        [Slot.time "09:00", Slot.time "14:00", Slot.time "21:00"] := by
  refine ⟨rfl, rfl, ?_⟩
  intro t ht
  have htrim := jsTrim_of_spaces ht
  simp only [parseTiming, htrim, decide_True, Bool.or_true, if_true]
  rfl

/-- A text that is empty or trims to the empty text still does so after
lowercasing. -/
theorem jsTrim_toLowerCase_blank (unicodeLower : String → String) {t : String}
    (h : jsTrim t = "") : jsTrim (toLowerCase unicodeLower t) = "" := by
  have hall : ∀ c ∈ t.data, isJsSpace c = true := by
    have hr : (t.data.dropWhile isJsSpace).rdropWhile isJsSpace = [] := by
      have := congrArg String.data h
      simpa [jsTrim] using this
    rw [List.rdropWhile_eq_nil_iff] at hr
    rw [← List.dropWhile_eq_nil_iff]
    cases hd : t.data.dropWhile isJsSpace with
    | nil => rfl
    | cons a rest =>
      exfalso
      have h1 : isJsSpace a = true := hr a (by rw [hd]; exact List.mem_cons_self _ _)
      have h2 := List.head?_dropWhile_not isJsSpace t.data
      rw [hd] at h2
      simp [h1] at h2
  have hcond : t.data.all (fun c => decide (c.toNat < 128) || isJsSpace c) = true := by
    rw [List.all_eq_true]
    intro c hc
    simp [hall c hc]
  have hmap : t.data.map Char.toLower = t.data := by
    conv_rhs => rw [← List.map_id t.data]
    apply List.map_congr_left
    intro c hc
    exact space_toLower (hall c hc)
  have hlow : toLowerCase unicodeLower t = t := by
    simp only [toLowerCase, hcond, if_true, hmap]
  rw [hlow, h]

/-- What a match of the tail `\s*(am|pm)?$` says about the characters. -/
theorem matchSuffix_inv {tail : List Char} {ampm : Option String}
    (h : matchSuffix tail = some ampm) :
    ∃ ws, (∀ c ∈ ws, isJsSpace c = true) ∧
      ((tail = ws ∧ ampm = none) ∨
       (∃ a m, tail = ws ++ [a, m] ∧ (a = 'a' ∨ a = 'A' ∨ a = 'p' ∨ a = 'P') ∧
          (m = 'm' ∨ m = 'M') ∧ ampm = some (String.mk [a, m]))) := by
  refine ⟨tail.takeWhile isJsSpace, fun c hc => List.mem_takeWhile_imp hc, ?_⟩
  have hsplit := List.takeWhile_append_dropWhile isJsSpace tail
  unfold matchSuffix at h
  split at h
  · rename_i hd
    left
    rw [hd, List.append_nil] at hsplit
    exact ⟨hsplit.symm, by simpa using h.symm⟩
  · rename_i a m hd
    right
    by_cases hc : ((a = 'a' || a = 'A' || a = 'p' || a = 'P') && (m = 'm' || m = 'M')) = true
    · simp only [hc, if_true, Option.some.injEq] at h
      rw [hd] at hsplit
      simp only [Bool.and_eq_true, Bool.or_eq_true, decide_eq_true_eq] at hc
      refine ⟨a, m, hsplit.symm, ?_, hc.2, h.symm⟩
      rcases hc.1 with ((h1 | h1) | h1) | h1
      · exact Or.inl h1
      · exact Or.inr (Or.inl h1)
      · exact Or.inr (Or.inr (Or.inl h1))
      · exact Or.inr (Or.inr (Or.inr h1))
    · simp [hc] at h
  · exact Option.noConfusion h

/-- What a match of the time pattern says about the text: one or two hour
digits, a colon, two minute digits, and a tail matched by `\s*(am|pm)?$`. -/
theorem matchTimePattern_inv {t : String} {m : TimeMatch} (h : matchTimePattern t = some m) :
    ∃ hs c d tail, t.data = hs ++ ':' :: c :: d :: tail ∧
      ((∃ a, hs = [a] ∧ isAsciiDigit a = true) ∨
       (∃ a b, hs = [a, b] ∧ isAsciiDigit a = true ∧ isAsciiDigit b = true)) ∧
      isAsciiDigit c = true ∧ isAsciiDigit d = true ∧
      matchSuffix tail = some m.ampm ∧ m.hours = String.mk hs ∧
      m.minutes = String.mk [c, d] := by
  have after : ∀ (hs rest : List Char), matchAfterHours hs rest = some m →
      ∃ c d tail, rest = ':' :: c :: d :: tail ∧ isAsciiDigit c = true ∧
        isAsciiDigit d = true ∧ matchSuffix tail = some m.ampm ∧ m.hours = String.mk hs ∧
        m.minutes = String.mk [c, d] := by
    intro hs rest hr
    unfold matchAfterHours at hr
    split at hr
    · rename_i c d tail
      by_cases hcd : (isAsciiDigit c && isAsciiDigit d) = true
      · simp only [hcd, if_true, Option.map_eq_some'] at hr
        obtain ⟨ap, hap, hm⟩ := hr
        simp only [Bool.and_eq_true] at hcd
        subst hm
        exact ⟨c, d, tail, rfl, hcd.1, hcd.2, hap, rfl, rfl⟩
      · simp [hcd] at hr
    · exact Option.noConfusion hr
  unfold matchTimePattern at h
  split at h
  · rename_i a b rest hdata
    by_cases ha : isAsciiDigit a = true
    · by_cases hb : isAsciiDigit b = true
      · simp only [ha, hb, if_true] at h
        obtain ⟨c, d, tail, hrest, hc, hd, hsuf, hh, hmin⟩ := after _ _ h
        refine ⟨[a, b], c, d, tail, ?_, Or.inr ⟨a, b, rfl, ha, hb⟩, hc, hd, hsuf, hh, hmin⟩
        rw [hdata, hrest]
        rfl
      · simp only [ha, hb, if_true, Bool.false_eq_true, if_false] at h
        obtain ⟨c, d, tail, hrest, hc, hd, hsuf, hh, hmin⟩ := after _ _ h
        refine ⟨[a], c, d, tail, ?_, Or.inl ⟨a, rfl, ha⟩, hc, hd, hsuf, hh, hmin⟩
        rw [hdata, hrest]
        rfl
    · simp [ha] at h
  · exact Option.noConfusion h

/-- Every character of a text that matches the time pattern is ASCII or white
space, so `toLowerCase` lowers it letter by letter. -/
theorem matchTimePattern_chars {t : String} {m : TimeMatch} (h : matchTimePattern t = some m) :
    t.data.all (fun c => decide (c.toNat < 128) || isJsSpace c) = true := by
  obtain ⟨hs, c, d, tail, hdata, hhs, hc, hd, hsuf, _, _⟩ := matchTimePattern_inv h
  obtain ⟨ws, hws, htail⟩ := matchSuffix_inv hsuf
  have hletter : ∀ a : Char, (a = 'a' ∨ a = 'A' ∨ a = 'p' ∨ a = 'P') → a.toNat < 128 := by
    intro a ha
    rcases ha with h | h | h | h <;> subst h <;> decide
  have hm : ∀ a : Char, (a = 'm' ∨ a = 'M') → a.toNat < 128 := by
    intro a ha
    rcases ha with h | h <;> subst h <;> decide
  rw [List.all_eq_true]
  intro x hx
  rw [hdata] at hx
  simp only [Bool.or_eq_true, decide_eq_true_eq]
  simp only [List.mem_append, List.mem_cons] at hx
  rcases hx with hx | hx | hx | hx | hx
  · left
    rcases hhs with ⟨a, rfl, ha⟩ | ⟨a, b, rfl, ha, hb⟩
    · simp only [List.mem_singleton] at hx
      subst hx
      exact digit_ascii ha
    · simp only [List.mem_cons, List.mem_singleton, List.mem_nil_iff, or_false] at hx
      rcases hx with rfl | rfl
      · exact digit_ascii ha
      · exact digit_ascii hb
  · left; subst hx; decide
  · left; subst hx; exact digit_ascii hc
  · left; subst hx; exact digit_ascii hd
  · rcases htail with ⟨rfl, _⟩ | ⟨a, mm, rfl, ha, hmm, _⟩
    · right; exact hws x hx
    · simp only [List.mem_append, List.mem_cons, List.mem_singleton, List.mem_nil_iff,
        or_false] at hx
      rcases hx with hx | rfl | rfl
      · right; exact hws x hx
      · left; exact hletter _ ha
      · left; exact hm _ hmm

/-- The lowercased, trimmed form of a text that matches the time pattern starts
with a digit. -/
theorem matchTimePattern_key_head (unicodeLower : String → String) {t : String}
    {m : TimeMatch} (h : matchTimePattern t = some m) :
    ∃ a tail, (jsTrim (toLowerCase unicodeLower t)).data = a :: tail ∧
      isAsciiDigit a = true := by
  obtain ⟨a, rest, hdata, ha⟩ := matchTimePattern_head h
  have hlow : toLowerCase unicodeLower t = String.mk (t.data.map Char.toLower) := by
    simp only [toLowerCase, matchTimePattern_chars h, if_true]
  have hd2 : (toLowerCase unicodeLower t).data = a :: rest.map Char.toLower := by
    rw [hlow, hdata]
    simp [digit_toLower ha]
  obtain ⟨tail, htail⟩ := jsTrim_head hd2 (digit_not_space ha)
  exact ⟨a, tail, htail, ha⟩

/-- The result of `parseTiming` on a text whose lowercased, trimmed form is a
non-empty key that does not start with a digit: the value of `timeMap[key]`
when there is one, the three default slots otherwise. -/
theorem parseTiming_of_key (unicodeLower : String → String) {t key : String} {k : Char}
    {rest : List Char} (hkey : jsTrim (toLowerCase unicodeLower t) = key)
    (hk : key.data = k :: rest) (hkd : isAsciiDigit k = false) :
    parseTiming unicodeLower (some t) =
      match timeMapGet key with
      | some value => [value]
      | none => defaultSlots := by
  have hkne : key ≠ "" := string_ne_empty_of_data hk
  have hne2 : jsTrim t ≠ "" := by
    intro hb
    rw [jsTrim_toLowerCase_blank unicodeLower hb] at hkey
    exact hkne hkey.symm
  have hne : t ≠ "" := by
    intro hb
    apply hne2
    rw [hb]
    rfl
  have hnomatch : matchTimePattern t = none := by
    cases hm : matchTimePattern t with
    | none => rfl
    | some m =>
      exfalso
      obtain ⟨a, tail, hdata, ha⟩ := matchTimePattern_key_head unicodeLower hm
      rw [hkey, hk] at hdata
      simp only [List.cons.injEq] at hdata
      rw [hdata.1, ha] at hkd
      exact Bool.noConfusion hkd
  simp only [parseTiming, hne, hne2, decide_False, Bool.or_self, Bool.false_eq_true, if_false,
    hnomatch, hkey]

/-- The result of `parseTiming` on a text that is not blank, does not match the
time pattern and whose lowercased, trimmed form names no property of `timeMap`:
the three default slots. -/
theorem parseTiming_unrecognized (unicodeLower : String → String) {t : String}
    (hne : t ≠ "") (hne2 : jsTrim t ≠ "") (hnomatch : matchTimePattern t = none)
    (hkey : timeMapGet (jsTrim (toLowerCase unicodeLower t)) = none) :
    parseTiming unicodeLower (some t) = defaultSlots := by
  simp only [parseTiming, hne, hne2, decide_False, Bool.or_self, Bool.false_eq_true, if_false,
    hnomatch, hkey]

/-- C14: for every text whose lowercased, trimmed form is one of the seven
vocabulary words, `parseTiming` returns exactly one slot, the time of that word:
morning 09:00, afternoon 14:00, evening 20:00, night 21:00, breakfast 08:00,
lunch 13:00, dinner 20:00. -/
theorem parseTiming_vocabulary (unicodeLower : String → String) (t word slot : String)
    (hw : (word, slot) ∈ [("morning", "09:00"), ("afternoon", "14:00"),
      ("evening", "20:00"), ("night", "21:00"), ("breakfast", "08:00"),
      ("lunch", "13:00"), ("dinner", "20:00")])
    (ht : jsTrim (toLowerCase unicodeLower t) = word) :
    parseTiming unicodeLower (some t) = [Slot.time slot] := by
  simp only [List.mem_cons, List.mem_singleton, List.mem_nil_iff, or_false,
    Prod.mk.injEq] at hw
  rcases hw with ⟨rfl, rfl⟩ | ⟨rfl, rfl⟩ | ⟨rfl, rfl⟩ | ⟨rfl, rfl⟩ | ⟨rfl, rfl⟩ |
    ⟨rfl, rfl⟩ | ⟨rfl, rfl⟩
  all_goals
    rw [parseTiming_of_key unicodeLower ht rfl (by decide)]
    rfl

/-- C14 at concrete inputs: `Morning` gives 09:00 and ` DINNER ` gives 20:00. -/
theorem parseTiming_vocabulary_witness :
    parseTiming id (some "Morning") = [Slot.time "09:00"] ∧
    parseTiming id (some " DINNER ") = [Slot.time "20:00"] :=
  ⟨parseTiming_vocabulary id "Morning" "morning" "09:00" (by decide) (by decide),
   parseTiming_vocabulary id " DINNER " "dinner" "20:00" (by decide) (by decide)⟩

/-- C15, evaluated on the code: the text `constructor` is not blank, does not
match the time pattern and is none of the seven vocabulary words, yet
`parseTiming` does not return the three default slots: the lookup
`timeMap[timingLower]` finds the property `constructor` that the object literal
inherits from `Object.prototype`, and its value is returned as the only slot.
The text `whenever` does give the three defaults. -/
theorem parseTiming_constructor_not_default (unicodeLower : String → String) :
    jsTrim "constructor" ≠ "" ∧
    matchTimePattern "constructor" = none ∧
    jsTrim (toLowerCase unicodeLower "constructor") = "constructor" ∧
    timeMap.lookup "constructor" = none ∧
    parseTiming unicodeLower (some "constructor") = [Slot.inherited "constructor"] ∧
    parseTiming unicodeLower (some "constructor") ≠
      [Slot.time "09:00", Slot.time "14:00", Slot.time "21:00"] ∧
    parseTiming unicodeLower (some "whenever") =
      [Slot.time "09:00", Slot.time "14:00", Slot.time "21:00"] := by
  have hp : parseTiming unicodeLower (some "constructor") = [Slot.inherited "constructor"] :=
    rfl
  refine ⟨by decide, by decide, rfl, by decide, hp, ?_, rfl⟩
  rw [hp]
  decide

/-- Every string that `timeMap[key]` yields is a well-formed time. -/
theorem timeMapGet_time {key s : String} (h : timeMapGet key = some (Slot.time s)) :
    isClockTime s = true := by
  unfold timeMapGet at h
  split at h
  · rename_i slot hl
    simp only [Option.some.injEq, Slot.time.injEq] at h
    subst h
    rw [List.lookup_eq_some_iff] at hl
    obtain ⟨l1, l2, hl, _⟩ := hl
    have hmem : (key, slot) ∈ timeMap := by
      rw [hl]
      exact List.mem_append_right _ (List.mem_cons_self _ _)
    simp only [timeMap, List.mem_cons, List.mem_singleton, List.mem_nil_iff, or_false,
      Prod.mk.injEq] at hmem
    rcases hmem with ⟨_, rfl⟩ | ⟨_, rfl⟩ | ⟨_, rfl⟩ | ⟨_, rfl⟩ | ⟨_, rfl⟩ | ⟨_, rfl⟩ |
      ⟨_, rfl⟩ <;> decide
  · split at h
    · simp at h
    · exact Option.noConfusion h

/-- The two digits `padStart` writes for a number below 100. -/
theorem padStart2_two (n : Nat) (hn : n ≤ 99) :
    ∃ x y, (padStart2 (toString n)).data = [x, y] ∧ isAsciiDigit x = true ∧
      isAsciiDigit y = true ∧ parseInt (String.mk [x, y]) = n := by
  refine ⟨Char.ofNat (48 + n / 10), Char.ofNat (48 + n % 10), ?_, ?_, ?_, ?_⟩ <;>
    interval_cases n <;> decide

/-- A number from 100 to 111 is written with three characters. -/
theorem padStart2_three (n : Nat) (h1 : 100 ≤ n) (h2 : n ≤ 111) :
    ∃ x y z, (padStart2 (toString n)).data = [x, y, z] := by
  refine ⟨'1', Char.ofNat (48 + n / 10 % 10), Char.ofNat (48 + n % 10), ?_⟩
  interval_cases n <;> decide

theorem parseInt_hours_le {hs : List Char}
    (hhs : (∃ a, hs = [a] ∧ isAsciiDigit a = true) ∨
      (∃ a b, hs = [a, b] ∧ isAsciiDigit a = true ∧ isAsciiDigit b = true)) :
    parseInt (String.mk hs) ≤ 99 := by
  rcases hhs with ⟨a, rfl, ha⟩ | ⟨a, b, rfl, ha, hb⟩
  · simp only [isAsciiDigit, Bool.and_eq_true, decide_eq_true_eq] at ha
    simp only [parseInt, List.foldl_cons, List.foldl_nil]
    omega
  · simp only [isAsciiDigit, Bool.and_eq_true, decide_eq_true_eq] at ha hb
    simp only [parseInt, List.foldl_cons, List.foldl_nil]
    omega

theorem adjustHours_le (ampm : Option String) (hours : Nat) :
    adjustHours ampm hours ≤ hours + 12 := by
  simp only [adjustHours]
  split <;> split <;> omega

/-- Whether the text `hours:minutes` that `parseTiming` builds is a well-formed
time. -/
theorem isClockTime_built (hours : Nat) (hh : hours ≤ 111) (c d : Char)
    (hc : isAsciiDigit c = true) (hd : isAsciiDigit d = true) :
    isClockTime (padStart2 (toString hours) ++ ":" ++ String.mk [c, d]) = true ↔
      hours ≤ 23 ∧ parseInt (String.mk [c, d]) ≤ 59 := by
  by_cases h99 : hours ≤ 99
  · obtain ⟨x, y, hdata, hx, hy, hparse⟩ := padStart2_two hours h99
    have hfull : (padStart2 (toString hours) ++ ":" ++ String.mk [c, d]).data =
        [x, y, ':', c, d] := by
      simp [String.data_append, hdata]
    simp only [isClockTime, hfull, hx, hy, hc, hd, hparse, Bool.and_self, Bool.true_and,
      Bool.and_eq_true, decide_eq_true_eq]
  · obtain ⟨x, y, z, hdata⟩ := padStart2_three hours (by omega) hh
    have hfull : (padStart2 (toString hours) ++ ":" ++ String.mk [c, d]).data =
        [x, y, z, ':', c, d] := by
      simp [String.data_append, hdata]
    have hfalse : isClockTime (padStart2 (toString hours) ++ ":" ++ String.mk [c, d]) = false := by
      unfold isClockTime
      rw [hfull]
      split
      · rename_i heq
        simp at heq
      · rfl
    rw [hfalse]
    constructor
    · intro h; exact Bool.noConfusion h
    · intro h; omega

/-- C12 as stated fails: the text `25:99` matches the time pattern and
`parseTiming` returns it as the slot without a range check; `25:99` is not a
well-formed 24-hour time.  With `pm` the hour can even take three digits. -/
theorem parseTiming_out_of_range_slot :
    parseTiming id (some "25:99") = [Slot.time "25:99"] ∧
    isClockTime "25:99" = false ∧
    parseTiming id (some "13:00 pm") = [Slot.time "25:00"] ∧
    parseTiming id (some "99:00pm") = [Slot.time "111:00"] := by
  decide

/-- C12, amended: every string slot that `parseTiming` returns for an input that
does not match the time pattern is a well-formed 24-hour time `HH:MM`; for a
text that matches the pattern the single slot is the hour of the text, adjusted
for am and pm and padded to two digits, a colon and the two minute digits of the
text, with no range check, so that it is a well-formed time exactly when the
adjusted hour is at most 23 and the minutes are at most 59. -/
theorem parseTiming_slot_form (unicodeLower : String → String) (timing : Option String) :
    ((∀ t, timing = some t → matchTimePattern t = none) →
      ∀ s, Slot.time s ∈ parseTiming unicodeLower timing → isClockTime s = true) ∧
    (∀ t m, timing = some t → matchTimePattern t = some m →
      parseTiming unicodeLower timing =
        [Slot.time (padStart2 (toString
          (adjustHours (m.ampm.map (toLowerCase unicodeLower)) (parseInt m.hours))) ++ ":" ++
            m.minutes)] ∧
      (isClockTime (padStart2 (toString
          (adjustHours (m.ampm.map (toLowerCase unicodeLower)) (parseInt m.hours))) ++ ":" ++
            m.minutes) = true ↔
        adjustHours (m.ampm.map (toLowerCase unicodeLower)) (parseInt m.hours) ≤ 23 ∧
          parseInt m.minutes ≤ 59)) := by
  have hdef : ∀ s, Slot.time s ∈ defaultSlots → isClockTime s = true := by
    intro s hs
    simp only [defaultSlots, List.mem_cons, List.mem_singleton, List.mem_nil_iff, or_false,
      Slot.time.injEq] at hs
    rcases hs with rfl | rfl | rfl <;> decide
  constructor
  · intro hno s hs
    cases timing with
    | none => exact hdef s hs
    | some t =>
      have hnomatch := hno t rfl
      simp only [parseTiming, hnomatch] at hs
      split at hs
      · exact hdef s hs
      · split at hs
        · rename_i value hval
          simp only [List.mem_singleton] at hs
          subst hs
          exact timeMapGet_time hval
        · exact hdef s hs
  · intro t m ht hm
    subst ht
    obtain ⟨hs, c, d, tail, _, hhs, hc, hd, _, hhours, hmin⟩ := matchTimePattern_inv hm
    refine ⟨parseTiming_of_match unicodeLower hm, ?_⟩
    rw [hmin]
    apply isClockTime_built _ _ c d hc hd
    have h1 := adjustHours_le (m.ampm.map (toLowerCase unicodeLower)) (parseInt m.hours)
    have h2 : parseInt m.hours ≤ 99 := by
      rw [hhours]
      exact parseInt_hours_le hhs
    omega

/-- C12, amended, at concrete inputs: the slot of `9:30 PM` is well-formed, and
so is every slot of the unmatched text `whenever`. -/
theorem parseTiming_slot_form_witness :
    isClockTime "21:30" = true ∧
    (∀ s, Slot.time s ∈ parseTiming id (some "whenever") → isClockTime s = true) :=
  ⟨((parseTiming_slot_form id (some "9:30 PM")).2 "9:30 PM"
      { hours := "9", minutes := "30", ampm := some "PM" } rfl (by decide)).2.2 (by decide),
   (parseTiming_slot_form id (some "whenever")).1
      (fun t ht => by
        have : t = "whenever" := by simpa using ht.symm
        subst this
        decide)⟩

/-! ## Reminder generation -/

/-- A loop that pushes one element per item builds the mapped list. -/
theorem foldl_push_eq_map {α β : Type} (f : α → β) (xs : List α) (acc : List β) :
    xs.foldl (fun acc x => acc ++ [f x]) acc = acc ++ xs.map f := by
  induction xs generalizing acc with
  | nil => simp
  | cons x rest ih => simp [ih]

/-- A loop that appends one block per item builds the concatenation of the
blocks. -/
theorem foldl_append_eq_flatMap {α β : Type} (f : α → List β) (xs : List α)
    (acc : List β) :
    xs.foldl (fun acc x => acc ++ f x) acc = acc ++ xs.flatMap f := by
  induction xs generalizing acc with
  | nil => simp
  | cons x rest ih => simp [ih, List.flatMap_cons]

/-- The reminders built for a prescription, as one list comprehension. -/
theorem reminderSpecs_eq (unicodeLower : String → String) (patientId : Nat)
    (familyMemberId : Option Nat) (p : Prescription) :
    reminderSpecs unicodeLower patientId familyMemberId p =
      p.medicines.flatMap (fun medicine =>
        (parseTiming unicodeLower medicine.timing).map (fun slot =>
          { patientId := patientId, familyMemberId := familyMemberId,
            prescriptionId := p.id, medicineName := medicine.name,
            dosage := medicine.dosage, reminderTime := slot, startDate := p.date,
            endDate := addDays p.date medicine.duration, isActive := true })) := by
  unfold reminderSpecs
  simp only [foldl_push_eq_map]
  rw [foldl_append_eq_flatMap]
  simp

/-- The documents stored for a list of specs, position by position. -/
theorem reminderDocs_spec (castInherited : String → Option String) :
    ∀ (specs : List ReminderSpec) (firstId : Nat) (docs : List MedicineReminder),
      reminderDocs castInherited firstId specs = some docs →
      docs.length = specs.length ∧
      ∀ (i : Nat) (spec : ReminderSpec), specs[i]? = some spec →
        ∃ time endDate, castSlot castInherited spec.reminderTime = some time ∧
          spec.endDate = some endDate ∧
          docs[i]? = some (MedicineReminder.ofSpec (firstId + i) spec time endDate) := by
  intro specs
  induction specs with
  | nil =>
    intro firstId docs h
    simp only [reminderDocs, Option.some.injEq] at h
    subst h
    exact ⟨rfl, fun i spec hi => by simp at hi⟩
  | cons spec rest ih =>
    intro firstId docs h
    simp only [reminderDocs] at h
    split at h
    · rename_i text endDate restDocs hcast hend hrest
      simp only [Option.some.injEq] at h
      subst h
      obtain ⟨hlen, hpos⟩ := ih (firstId + 1) restDocs hrest
      refine ⟨by simp [hlen], ?_⟩
      intro i sp hi
      cases i with
      | zero =>
        simp only [List.getElem?_cons_zero, Option.some.injEq] at hi
        subst hi
        exact ⟨text, endDate, hcast, hend, by simp⟩
      | succ j =>
        simp only [List.getElem?_cons_succ] at hi
        obtain ⟨time, e, htime, he, hdoc⟩ := hpos j sp hi
        refine ⟨time, e, htime, he, ?_⟩
        simp only [List.getElem?_cons_succ, hdoc]
        congr 2
        omega
    · exact Option.noConfusion h

/-- The insert is accepted when the cast of every slot succeeds and every end
date is a valid date. -/
theorem reminderDocs_isSome (castInherited : String → Option String) :
    ∀ (specs : List ReminderSpec) (firstId : Nat),
      (∀ spec ∈ specs, (castSlot castInherited spec.reminderTime).isSome = true ∧
        spec.endDate.isSome = true) →
      (reminderDocs castInherited firstId specs).isSome = true := by
  intro specs
  induction specs with
  | nil =>
    intro firstId _
    rfl
  | cons spec rest ih =>
    intro firstId h
    have hrest := ih (firstId + 1) (fun sp hsp => h sp (List.mem_cons_of_mem _ hsp))
    obtain ⟨h1, h2⟩ := h spec (List.mem_cons_self _ _)
    obtain ⟨text, htext⟩ := Option.isSome_iff_exists.1 h1
    obtain ⟨endDate, hend⟩ := Option.isSome_iff_exists.1 h2
    obtain ⟨docs, hdocs⟩ := Option.isSome_iff_exists.1 hrest
    simp only [reminderDocs, htext, hend, hdocs]
    rfl

/-- An end date inside the range of a `Date` is the start date plus the
duration in days. -/
theorem addDays_of_le (t days : Nat) (h : t + days * msPerDay ≤ maxTime) :
    addDays t days = some (t + days * msPerDay) := by
  simp only [addDays, if_pos h]

/-- C20 as stated fails: the prescription `endlessPrescription` has one medicine
with the slot `night` and a duration of 100 000 000 days, which the validators
accept.  The `endDate` of the one reminder built is the Invalid Date, not a date
`duration` days after `startDate`, and the insert is rejected, so no reminder is
created. -/
theorem reminder_end_date_invalid :
    validateMedicines true "Medicine timing is required" endlessPrescription.medicines = [] ∧
    (reminderSpecs id 1 none endlessPrescription).map
      (fun spec => (spec.reminderTime, spec.startDate, spec.endDate)) =
      [(Slot.time "21:00", newYear2024 + 37800000, none)] ∧
    createMedicineReminders id rejectInherited sampleStore 1 none endlessPrescription =
      none := by
  decide

/-- C20, amended: for every prescription whose end dates are inside the range of
a `Date` (prescription date plus duration days at most `maxTime`),
`createMedicineReminders` builds exactly one reminder for each pair of a
medicine and a slot of `parseTiming(medicine.timing)`, in medicine order and
then slot order, so the number of reminders is the sum of the medicines' slot
counts.  Each reminder carries the patient id, the prescription id, the
medicine's name and dosage, the slot as `reminderTime`, `startDate` equal to the
prescription date, `endDate` exactly `duration` days later and `isActive` true.
The insert is accepted when the cast of every slot succeeds, and an accepted
insert appends these reminders to the collection, in the same order. -/
theorem createMedicineReminders_spec (unicodeLower : String → String)
    (castInherited : String → Option String) (s : Store) (patientId : Nat)
    (familyMemberId : Option Nat) (p : Prescription)
    (hrange : ∀ medicine ∈ p.medicines, p.date + medicine.duration * msPerDay ≤ maxTime) :
    reminderSpecs unicodeLower patientId familyMemberId p =
      p.medicines.flatMap (fun medicine =>
        (parseTiming unicodeLower medicine.timing).map (fun slot =>
          { patientId := patientId, familyMemberId := familyMemberId,
            prescriptionId := p.id, medicineName := medicine.name,
            dosage := medicine.dosage, reminderTime := slot, startDate := p.date,
            endDate := some (p.date + medicine.duration * msPerDay), isActive := true })) ∧
    (reminderSpecs unicodeLower patientId familyMemberId p).length =
      (p.medicines.map (fun medicine =>
        (parseTiming unicodeLower medicine.timing).length)).sum ∧
    ((∀ spec ∈ reminderSpecs unicodeLower patientId familyMemberId p,
        (castSlot castInherited spec.reminderTime).isSome = true) →
      ∃ s', createMedicineReminders unicodeLower castInherited s patientId familyMemberId p =
        some s') ∧
    (∀ s', createMedicineReminders unicodeLower castInherited s patientId familyMemberId p =
        some s' →
      ∃ docs, s'.reminders = s.reminders ++ docs ∧
        docs.length = (reminderSpecs unicodeLower patientId familyMemberId p).length ∧
        ∀ (i : Nat) (spec : ReminderSpec),
          (reminderSpecs unicodeLower patientId familyMemberId p)[i]? = some spec →
          ∃ time endDate, castSlot castInherited spec.reminderTime = some time ∧
            spec.endDate = some endDate ∧
            docs[i]? = some
              { id := s.nextId + i, patientId := spec.patientId,
                familyMemberId := spec.familyMemberId,
                prescriptionId := spec.prescriptionId, medicineName := spec.medicineName,
                dosage := spec.dosage, reminderTime := time, startDate := spec.startDate,
                endDate := endDate, isActive := spec.isActive, completed := false,
                lastSent := none }) := by
  have heq : reminderSpecs unicodeLower patientId familyMemberId p =
      p.medicines.flatMap (fun medicine =>
        (parseTiming unicodeLower medicine.timing).map (fun slot =>
          { patientId := patientId, familyMemberId := familyMemberId,
            prescriptionId := p.id, medicineName := medicine.name,
            dosage := medicine.dosage, reminderTime := slot, startDate := p.date,
            endDate := some (p.date + medicine.duration * msPerDay),
            isActive := true })) := by
    rw [reminderSpecs_eq]
    apply List.flatMap_congr
    intro medicine hmed
    rw [addDays_of_le _ _ (hrange medicine hmed)]
  refine ⟨heq, ?_, ?_, ?_⟩
  · rw [reminderSpecs_eq, List.length_flatMap]
    congr 1
    apply List.map_congr_left
    intro medicine _
    simp
  · intro hcast
    have hsome := reminderDocs_isSome castInherited
      (reminderSpecs unicodeLower patientId familyMemberId p) s.nextId (by
        intro spec hspec
        refine ⟨hcast spec hspec, ?_⟩
        rw [heq, List.mem_flatMap] at hspec
        obtain ⟨medicine, _, hin⟩ := hspec
        rw [List.mem_map] at hin
        obtain ⟨slot, _, rfl⟩ := hin
        rfl)
    obtain ⟨docs, hdocs⟩ := Option.isSome_iff_exists.1 hsome
    refine ⟨{ s with reminders := s.reminders ++ docs,
                     nextId := s.nextId + docs.length }, ?_⟩
    simp only [createMedicineReminders, hdocs, Option.map_some']
  · intro s' hs'
    simp only [createMedicineReminders, Option.map_eq_some'] at hs'
    obtain ⟨docs, hdocs, rfl⟩ := hs'
    obtain ⟨hlen, hpos⟩ := reminderDocs_spec castInherited _ _ _ hdocs
    exact ⟨docs, rfl, hlen, hpos⟩

/-- C20, amended, at a concrete input: the sample prescription, dated
2024-01-01 10:30 with one medicine at night for 5 days, gets one reminder from
2024-01-01 10:30 to 2024-01-06 10:30, and the insert is accepted. -/
theorem createMedicineReminders_spec_witness :
    reminderSpecs id 1 none samplePrescription = [sampleSpec] ∧
    ∃ s', createMedicineReminders id rejectInherited sampleStore 1 none samplePrescription =
      some s' :=
  have h := createMedicineReminders_spec id rejectInherited sampleStore 1 none
    samplePrescription (by decide)
  ⟨h.1.trans (by decide), h.2.2.1 (by decide)⟩

/-! ## The validity window of a reminder -/

/-- The local midnight of a date is the start of its calendar day. -/
theorem startOfDay_eq (t : Nat) : startOfDay t = dayOf t * msPerDay := by
  simp only [startOfDay, dayOf, msPerDay]
  omega

/-- The fields of a reminder built for a prescription. -/
theorem reminderSpecs_fields (unicodeLower : String → String) (patientId : Nat)
    (familyMemberId : Option Nat) (p : Prescription) (spec : ReminderSpec)
    (hspec : spec ∈ reminderSpecs unicodeLower patientId familyMemberId p) :
    ∃ medicine ∈ p.medicines, spec.startDate = p.date ∧
      spec.endDate = addDays p.date medicine.duration ∧ spec.isActive = true ∧
      spec.reminderTime ∈ parseTiming unicodeLower medicine.timing := by
  rw [reminderSpecs_eq, List.mem_flatMap] at hspec
  obtain ⟨medicine, hmed, hin⟩ := hspec
  rw [List.mem_map] at hin
  obtain ⟨slot, hslot, rfl⟩ := hin
  exact ⟨medicine, hmed, rfl, rfl, rfl, hslot⟩

/-- C16 as stated fails: the sample prescription is dated 2024-01-01 (made at
10:30) with a duration of 5 days, and a tick at the reminder's slot 21:00 on
2024-01-06, the day after the fifth day, selects the reminder as due and sends
the message. -/
theorem reminder_due_on_day_six :
    createMedicineReminders id rejectInherited sampleStore 1 none samplePrescription =
      some reminderStore ∧
    dayOf (nightOf 6) = dayOf samplePrescription.date + 5 ∧
    currentTime (nightOf 6) = "21:00" ∧
    isDue (nightOf 6) sampleReminder = true ∧
    (reminderTick none (nightOf 6) reminderStore).1.map (fun a => a.reminderId) = [0] := by
  decide

/-- C16, amended: the validity window is end-inclusive on calendar days.  For
every reminder built from a prescription dated D (at any time of day) and a
medicine of duration d of at least one day, and stored with its end date, a
tick at the reminder's time slot on calendar day D + d selects the reminder as
due, because the due test compares the local midnight of the tick's day with an
`endDate` that keeps the time of day and uses `endDate >= today`; a tick on any
later day never selects it. -/
theorem window_end_inclusive (unicodeLower : String → String) (patientId : Nat)
    (familyMemberId : Option Nat) (p : Prescription) (spec : ReminderSpec)
    (hspec : spec ∈ reminderSpecs unicodeLower patientId familyMemberId p) :
    ∃ medicine ∈ p.medicines, spec.startDate = p.date ∧
      spec.endDate = addDays p.date medicine.duration ∧
      ∀ (id now endDate : Nat), spec.endDate = some endDate → 1 ≤ medicine.duration →
        (dayOf now = dayOf p.date + medicine.duration →
          isDue now (MedicineReminder.ofSpec id spec (currentTime now) endDate) = true) ∧
        (dayOf p.date + medicine.duration < dayOf now →
          ∀ time, isDue now (MedicineReminder.ofSpec id spec time endDate) = false) := by
  obtain ⟨medicine, hmed, hstart, hend, hactive, _⟩ :=
    reminderSpecs_fields unicodeLower patientId familyMemberId p spec hspec
  refine ⟨medicine, hmed, hstart, hend, ?_⟩
  intro id now endDate hsome hd
  have hval : endDate = p.date + medicine.duration * msPerDay := by
    rw [hend] at hsome
    simp only [addDays] at hsome
    split at hsome
    · exact (Option.some.inj hsome).symm
    · exact Option.noConfusion hsome
  constructor
  · intro hday
    have h1 : spec.startDate ≤ startOfDay now := by
      rw [startOfDay_eq, hstart, hday]
      simp only [dayOf, msPerDay]
      omega
    have h2 : endDate ≥ startOfDay now := by
      rw [startOfDay_eq, hval, hday]
      simp only [dayOf, msPerDay]
      omega
    simp [isDue, MedicineReminder.ofSpec, hactive, h1, h2]
  · intro hday time
    have h2 : ¬ endDate ≥ startOfDay now := by
      rw [startOfDay_eq, hval]
      simp only [dayOf, msPerDay] at hday ⊢
      omega
    simp [isDue, MedicineReminder.ofSpec, h2]

/-- C16, amended, at a concrete input: the sample reminder, built for a
prescription of 2024-01-01 with a duration of 5 days, is due at 21:00 on
2024-01-06 and not on 2024-01-07. -/
theorem window_end_inclusive_witness :
    sampleSpec ∈ reminderSpecs id 1 none samplePrescription ∧
    isDue (nightOf 6) (MedicineReminder.ofSpec 0 sampleSpec (currentTime (nightOf 6))
      (newYear2024 + 5 * msPerDay + 37800000)) = true ∧
    isDue (nightOf 7) (MedicineReminder.ofSpec 0 sampleSpec "21:00"
      (newYear2024 + 5 * msPerDay + 37800000)) = false := by
  have hmem : sampleSpec ∈ reminderSpecs id 1 none samplePrescription := by decide
  obtain ⟨medicine, hmed, _, _, h⟩ :=
    window_end_inclusive id 1 none samplePrescription sampleSpec hmem
  have hm : medicine.duration = 5 := by
    simp only [samplePrescription, List.mem_singleton] at hmed
    rw [hmed]
  rw [hm] at h
  exact ⟨hmem, (h 0 (nightOf 6) _ rfl (by decide)).1 (by decide),
    (h 0 (nightOf 7) _ rfl (by decide)).2 (by decide) "21:00"⟩

/-- A reminder whose start date is not a local midnight is not due on the
calendar day of its start date, whatever the time of the tick. -/
theorem not_due_on_start_day (r : MedicineReminder) (now : Nat)
    (hday : dayOf now = dayOf r.startDate) (hT : r.startDate % msPerDay ≠ 0) :
    isDue now r = false := by
  have h1 : ¬ r.startDate ≤ startOfDay now := by
    rw [startOfDay_eq, hday]
    simp only [dayOf, msPerDay] at hT ⊢
    omega
  simp [isDue, h1]

/-- C17, evaluated on the code: the sample prescription is made on 2024-01-01
at 10:30 with a duration of 5 days and the slot 21:00; the reminder is active
and not completed.  The tick at 21:00 on 2024-01-01, the first day, does not
select it (its `startDate`, 10:30, is after the midnight the tick compares it
with) and sends nothing; the ticks at 21:00 on the days 2 to 5 do select it. -/
theorem reminder_not_due_on_first_day :
    createMedicineReminders id rejectInherited sampleStore 1 none samplePrescription =
      some reminderStore ∧
    sampleReminder.isActive = true ∧ sampleReminder.completed = false ∧
    dayOf (nightOf 1) = dayOf samplePrescription.date ∧
    currentTime (nightOf 1) = sampleReminder.reminderTime ∧
    isDue (nightOf 1) sampleReminder = false ∧
    (reminderTick none (nightOf 1) reminderStore).1 = [] ∧
    isDue (nightOf 2) sampleReminder = true ∧ isDue (nightOf 3) sampleReminder = true ∧
    isDue (nightOf 4) sampleReminder = true ∧ isDue (nightOf 5) sampleReminder = true := by
  decide

/-! ## The dispatcher tick -/

/-- The SMS calls of the loop of a tick: one per selected reminder that
`attemptFor` gives a call for, in order. -/
theorem tick_calls (twilio : Option (String → String → Bool)) (now : Nat)
    (users : List User) (ds : List MedicineReminder)
    (acc : List SmsAttempt × List MedicineReminder) :
    (ds.foldl (tickStep twilio now users) acc).1 =
      acc.1 ++ ds.filterMap (attemptFor twilio now users) := by
  induction ds generalizing acc with
  | nil => simp
  | cons d rest ih =>
    rw [List.foldl_cons, ih, List.filterMap_cons]
    unfold tickStep attemptFor
    cases hu : findUserById users d.patientId with
    | none => simp
    | some patient =>
      by_cases hsent : Option.map startOfDay d.lastSent ≠ some (startOfDay now)
      · by_cases hphone : patient.phone ≠ ""
        · simp [hsent, hphone]
        · simp [hsent, hphone]
      · simp [hsent]

/-- The reminder collection after one pass of the loop. -/
theorem tickStep_reminders (twilio : Option (String → String → Bool)) (now : Nat)
    (users : List User) (acc : List SmsAttempt × List MedicineReminder)
    (d : MedicineReminder) :
    (tickStep twilio now users acc d).2 =
      if shouldAttempt now (findUserById users d.patientId) d = true then
        saveReminder acc.2 { d with lastSent := some now }
      else acc.2 := by
  unfold tickStep shouldAttempt
  cases hu : findUserById users d.patientId with
  | none => simp
  | some patient =>
    by_cases hsent : Option.map startOfDay d.lastSent ≠ some (startOfDay now)
    · simp [hsent]
    · simp [hsent]

/-- The record at each position after `saveReminder`. -/
theorem saveReminder_getElem? (reminders : List MedicineReminder) (doc : MedicineReminder)
    (i : Nat) (x : MedicineReminder) (hx : reminders[i]? = some x) :
    (saveReminder reminders doc)[i]? = some (if x.id = doc.id then doc else x) := by
  simp [saveReminder, hx]

/-- A position whose reminder has the id of none of the processed reminders is
left as it was. -/
theorem tick_untouched (twilio : Option (String → String → Bool)) (now : Nat)
    (users : List User) (ds : List MedicineReminder) :
    ∀ (acc : List SmsAttempt × List MedicineReminder) (i : Nat) (x : MedicineReminder),
      acc.2[i]? = some x → (∀ d ∈ ds, d.id ≠ x.id) →
      (ds.foldl (tickStep twilio now users) acc).2[i]? = some x := by
  induction ds with
  | nil => intro acc i x hx _; exact hx
  | cons d rest ih =>
    intro acc i x hx hne
    rw [List.foldl_cons]
    apply ih
    · rw [tickStep_reminders]
      split
      · rw [saveReminder_getElem? _ _ i x hx]
        have : ¬ x.id = d.id := fun h => hne d (List.mem_cons_self _ _) h.symm
        simp [this]
      · exact hx
    · intro d' hd'
      exact hne d' (List.mem_cons_of_mem _ hd')

/-- The record at each position after the loop of a tick over reminders with
distinct ids. -/
theorem tick_position (twilio : Option (String → String → Bool)) (now : Nat)
    (users : List User) (ds : List MedicineReminder) :
    ∀ (acc : List SmsAttempt × List MedicineReminder) (i : Nat) (x : MedicineReminder),
      (ds.map MedicineReminder.id).Nodup →
      acc.2[i]? = some x → (∀ d ∈ ds, d.id = x.id → d = x) →
      (ds.foldl (tickStep twilio now users) acc).2[i]? =
        some (if x ∈ ds ∧ shouldAttempt now (findUserById users x.patientId) x = true then
          { x with lastSent := some now } else x) := by
  induction ds with
  | nil => intro acc i x _ hx _; simpa using hx
  | cons d rest ih =>
    intro acc i x hnd hx heq
    rw [List.map_cons, List.nodup_cons] at hnd
    obtain ⟨hnotin, hnd'⟩ := hnd
    rw [List.foldl_cons]
    by_cases hid : d.id = x.id
    · have hdx : d = x := heq d (List.mem_cons_self _ _) hid
      subst hdx
      have hrest : ∀ d' ∈ rest, d'.id ≠ d.id := by
        intro d' hd' h
        exact hnotin (by rw [← h]; exact List.mem_map_of_mem _ hd')
      by_cases hatt : shouldAttempt now (findUserById users d.patientId) d = true
      · have hpos : (tickStep twilio now users acc d).2[i]? =
            some { d with lastSent := some now } := by
          rw [tickStep_reminders, if_pos hatt, saveReminder_getElem? _ _ i d hx]
          simp
        rw [tick_untouched twilio now users rest _ i _ hpos (by simpa using hrest)]
        simp [hatt]
      · have hpos : (tickStep twilio now users acc d).2[i]? = some d := by
          rw [tickStep_reminders, if_neg hatt]
          exact hx
        rw [tick_untouched twilio now users rest _ i _ hpos hrest]
        simp [hatt]
    · have hpos : (tickStep twilio now users acc d).2[i]? = some x := by
        rw [tickStep_reminders]
        split
        · rw [saveReminder_getElem? _ _ i x hx]
          have : ¬ x.id = d.id := fun h => hid h.symm
          simp [this]
        · exact hx
      rw [ih _ i x hnd' hpos (fun d' hd' h => heq d' (List.mem_cons_of_mem _ hd') h)]
      have hne : x ≠ d := fun h => hid (by rw [h])
      simp [hne]

/-- Two reminders of a store with unique ids that share an id are the same
record. -/
theorem reminder_eq_of_id {s : Store} (hids : reminderIdsUnique s) {a b : MedicineReminder}
    (ha : a ∈ s.reminders) (hb : b ∈ s.reminders) (hid : a.id = b.id) : a = b :=
  List.inj_on_of_nodup_map hids ha hb hid

/-- The store after a tick, position by position: a reminder is marked as sent
exactly when the query selects it and the loop attempts it. -/
theorem reminderTick_position (twilio : Option (String → String → Bool)) (now : Nat)
    (s : Store) (hids : reminderIdsUnique s) (i : Nat) (x : MedicineReminder)
    (hx : s.reminders[i]? = some x) :
    (reminderTick twilio now s).2.reminders[i]? =
      some (if isDue now x = true ∧
          shouldAttempt now (findUserById s.users x.patientId) x = true then
        { x with lastSent := some now } else x) := by
  have hxmem : x ∈ s.reminders := List.getElem?_mem hx
  have hsub : (s.reminders.filter (isDue now)).Sublist s.reminders := List.filter_sublist _
  have hnd : ((s.reminders.filter (isDue now)).map MedicineReminder.id).Nodup :=
    List.Nodup.sublist (List.Sublist.map _ hsub) hids
  have h := tick_position twilio now s.users (s.reminders.filter (isDue now))
    ([], s.reminders) i x hnd hx
    (fun d hd hid => reminder_eq_of_id hids (List.mem_of_mem_filter hd) hxmem hid)
  simp only [reminderTick]
  rw [h]
  simp only [List.mem_filter, hxmem, true_and]

theorem attemptFor_id {twilio : Option (String → String → Bool)} {now : Nat}
    {users : List User} {d : MedicineReminder} {a : SmsAttempt}
    (h : attemptFor twilio now users d = some a) : a.reminderId = d.id := by
  unfold attemptFor at h
  split at h
  · exact Option.noConfusion h
  · split at h
    · simp only [Option.some.injEq] at h
      rw [← h]
    · exact Option.noConfusion h

/-- A call is made for a reminder only when the loop attempts it. -/
theorem attemptFor_shouldAttempt {twilio : Option (String → String → Bool)} {now : Nat}
    {users : List User} {d : MedicineReminder} {a : SmsAttempt}
    (h : attemptFor twilio now users d = some a) :
    shouldAttempt now (findUserById users d.patientId) d = true := by
  unfold attemptFor at h
  unfold shouldAttempt
  split at h
  · exact Option.noConfusion h
  · rename_i patient hu
    split at h
    · rename_i hc
      simp [hu, hc.1]
    · exact Option.noConfusion h

/-- No call is made for a reminder already sent on the day of the tick. -/
theorem attemptFor_sent_today (twilio : Option (String → String → Bool)) {now t : Nat}
    (users : List User) {d : MedicineReminder} (hsent : d.lastSent = some t)
    (hday : dayOf t = dayOf now) :
    attemptFor twilio now users d = none ∧
      shouldAttempt now (findUserById users d.patientId) d = false := by
  have hs : Option.map startOfDay d.lastSent = some (startOfDay now) := by
    rw [hsent, Option.map_some', startOfDay_eq, startOfDay_eq, hday]
  constructor
  · unfold attemptFor
    split
    · rfl
    · simp [hs]
  · simp [shouldAttempt, hs]

/-- The calls made for one reminder id by a loop over reminders with distinct
ids. -/
theorem calls_for_id (twilio : Option (String → String → Bool)) (now : Nat)
    (users : List User) (id : Nat) (ds : List MedicineReminder)
    (hnd : (ds.map MedicineReminder.id).Nodup) :
    (ds.filterMap (attemptFor twilio now users)).filter
        (fun a => decide (a.reminderId = id)) =
      match ds.find? (fun d => decide (d.id = id)) with
      | some d => (attemptFor twilio now users d).toList
      | none => [] := by
  induction ds with
  | nil => simp
  | cons d rest ih =>
    rw [List.map_cons, List.nodup_cons] at hnd
    obtain ⟨hnotin, hnd'⟩ := hnd
    have ih' := ih hnd'
    by_cases hid : d.id = id
    · have hnone : rest.find? (fun d => decide (d.id = id)) = none := by
        rw [List.find?_eq_none]
        intro d' hd' h
        simp only [decide_eq_true_eq] at h
        exact hnotin (by rw [hid, ← h]; exact List.mem_map_of_mem _ hd')
      rw [hnone] at ih'
      simp only [List.find?_cons, hid, decide_True]
      cases ha : attemptFor twilio now users d with
      | none => simp [List.filterMap_cons, ha, ih']
      | some a =>
        have haid : a.reminderId = id := by rw [attemptFor_id ha, hid]
        simp [List.filterMap_cons, ha, List.filter_cons, haid, ih']
    · simp only [List.find?_cons, hid, decide_False]
      cases ha : attemptFor twilio now users d with
      | none => simp [List.filterMap_cons, ha, ih']
      | some a =>
        have haid : ¬ a.reminderId = id := by rw [attemptFor_id ha]; exact hid
        simp [List.filterMap_cons, ha, List.filter_cons, haid, ih']

/-- The reminder the query of a tick finds for an id of the store. -/
theorem find_due (now : Nat) (s : Store) (hids : reminderIdsUnique s) (x : MedicineReminder)
    (hx : x ∈ s.reminders) :
    (s.reminders.filter (isDue now)).find? (fun d => decide (d.id = x.id)) =
      if isDue now x = true then some x else none := by
  by_cases hdue : isDue now x = true
  · rw [if_pos hdue]
    cases hf : (s.reminders.filter (isDue now)).find? (fun d => decide (d.id = x.id)) with
    | none =>
      rw [List.find?_eq_none] at hf
      exact absurd (by simp) (hf x (List.mem_filter.mpr ⟨hx, hdue⟩))
    | some y =>
      have hy := List.mem_of_find?_eq_some hf
      have hyid := List.find?_some hf
      simp only [decide_eq_true_eq] at hyid
      rw [reminder_eq_of_id hids (List.mem_of_mem_filter hy) hx hyid]
  · rw [if_neg hdue, List.find?_eq_none]
    intro d hd hdid
    simp only [decide_eq_true_eq] at hdid
    have hdx : d = x := reminder_eq_of_id hids (List.mem_of_mem_filter hd) hx hdid
    rw [hdx] at hd
    exact hdue (List.mem_filter.mp hd).2

/-- The calls a tick makes for a reminder of the store. -/
theorem reminderTick_calls_for (twilio : Option (String → String → Bool)) (now : Nat)
    (s : Store) (hids : reminderIdsUnique s) (x : MedicineReminder) (hx : x ∈ s.reminders) :
    (reminderTick twilio now s).1.filter (fun a => decide (a.reminderId = x.id)) =
      if isDue now x = true then (attemptFor twilio now s.users x).toList else [] := by
  have hsub : (s.reminders.filter (isDue now)).Sublist s.reminders := List.filter_sublist _
  have hnd : ((s.reminders.filter (isDue now)).map MedicineReminder.id).Nodup :=
    List.Nodup.sublist (List.Sublist.map _ hsub) hids
  simp only [reminderTick, tick_calls, List.nil_append]
  rw [calls_for_id twilio now s.users x.id _ hnd, find_due now s hids x hx]
  by_cases hdue : isDue now x = true
  · simp only [hdue, if_true]
  · simp only [hdue, if_false, Bool.false_eq_true]

/-- Saving a loaded reminder keeps the list of ids. -/
theorem saveReminder_ids (reminders : List MedicineReminder) (doc : MedicineReminder) :
    (saveReminder reminders doc).map MedicineReminder.id =
      reminders.map MedicineReminder.id := by
  simp only [saveReminder, List.map_map]
  apply List.map_congr_left
  intro r _
  by_cases h : r.id = doc.id <;> simp [h]

/-- A tick keeps the users and the list of reminder ids. -/
theorem reminderTick_frame (twilio : Option (String → String → Bool)) (now : Nat)
    (s : Store) :
    (reminderTick twilio now s).2.users = s.users ∧
    (reminderTick twilio now s).2.reminders.map MedicineReminder.id =
      s.reminders.map MedicineReminder.id := by
  refine ⟨rfl, ?_⟩
  have key : ∀ (ds : List MedicineReminder) (acc : List SmsAttempt × List MedicineReminder),
      (ds.foldl (tickStep twilio now s.users) acc).2.map MedicineReminder.id =
        acc.2.map MedicineReminder.id := by
    intro ds
    induction ds with
    | nil => intro acc; rfl
    | cons d rest ih =>
      intro acc
      rw [List.foldl_cons, ih, tickStep_reminders]
      split
      · exact saveReminder_ids _ _
      · rfl
  exact key _ _

theorem reminderTick_ids_unique (twilio : Option (String → String → Bool)) (now : Nat)
    (s : Store) (hids : reminderIdsUnique s) :
    reminderIdsUnique (reminderTick twilio now s).2 := by
  unfold reminderIdsUnique at hids ⊢
  rw [(reminderTick_frame twilio now s).2]
  exact hids

/-- A reminder already sent on a calendar day gets no call from any further tick
of that day and stays as it is. -/
theorem runTicks_sent_today (twilio : Option (String → String → Bool)) (day : Nat)
    (times : List Nat) :
    ∀ (s : Store) (i : Nat) (x : MedicineReminder) (t : Nat),
      reminderIdsUnique s → s.reminders[i]? = some x → x.lastSent = some t →
      dayOf t = day → (∀ u ∈ times, dayOf u = day) →
      (runTicks twilio s times).1.filter (fun a => decide (a.reminderId = x.id)) = [] ∧
      (runTicks twilio s times).2.reminders[i]? = some x ∧
      reminderIdsUnique (runTicks twilio s times).2 ∧
      (runTicks twilio s times).2.users = s.users := by
  induction times with
  | nil =>
    intro s i x t hids hx _ _ _
    exact ⟨rfl, hx, hids, rfl⟩
  | cons now rest ih =>
    intro s i x t hids hx hsent hday hall
    have hnow : dayOf t = dayOf now := by
      rw [hday, hall now (List.mem_cons_self _ _)]
    obtain ⟨hnone, hshould⟩ := attemptFor_sent_today twilio s.users hsent hnow
    have hcalls := reminderTick_calls_for twilio now s hids x (List.getElem?_mem hx)
    rw [hnone] at hcalls
    have hpos := reminderTick_position twilio now s hids i x hx
    rw [hshould] at hpos
    simp only [Bool.false_eq_true, and_false, if_false] at hpos
    obtain ⟨h1, h2, h3, h4⟩ := ih (reminderTick twilio now s).2 i x t
      (reminderTick_ids_unique twilio now s hids) hpos hsent hday
      (fun u hu => hall u (List.mem_cons_of_mem _ hu))
    refine ⟨?_, h2, h3, ?_⟩
    · simp only [runTicks, List.filter_append, h1, List.append_nil]
      rw [hcalls]
      split <;> rfl
    · simp only [runTicks]
      rw [h4]
      rfl

/-- In a run of ticks that all fall on one calendar day, at most one SMS call is
made for any reminder id. -/
theorem runTicks_at_most_once (twilio : Option (String → String → Bool)) (day : Nat)
    (times : List Nat) :
    ∀ (s : Store) (id : Nat), reminderIdsUnique s → (∀ u ∈ times, dayOf u = day) →
      ((runTicks twilio s times).1.filter (fun a => decide (a.reminderId = id))).length ≤ 1 := by
  induction times with
  | nil => intro s id _ _; simp [runTicks]
  | cons now rest ih =>
    intro s id hids hall
    have hrest : ∀ u ∈ rest, dayOf u = day := fun u hu => hall u (List.mem_cons_of_mem _ hu)
    have ih' := ih (reminderTick twilio now s).2 id (reminderTick_ids_unique twilio now s hids)
      hrest
    simp only [runTicks, List.filter_append, List.length_append]
    by_cases hex : ∃ x ∈ s.reminders, x.id = id
    · obtain ⟨x, hx, hxid⟩ := hex
      subst hxid
      rw [reminderTick_calls_for twilio now s hids x hx]
      by_cases hdue : isDue now x = true
      · cases ha : attemptFor twilio now s.users x with
        | none =>
          simp only [hdue, if_true, ha, Option.toList, List.length_nil]
          omega
        | some a =>
          obtain ⟨i, hi⟩ := List.mem_iff_getElem?.mp hx
          have hpos := reminderTick_position twilio now s hids i x hi
          rw [if_pos ⟨hdue, attemptFor_shouldAttempt ha⟩] at hpos
          have hnone := (runTicks_sent_today twilio day rest (reminderTick twilio now s).2 i
            { x with lastSent := some now } now (reminderTick_ids_unique twilio now s hids)
            hpos rfl (hall now (List.mem_cons_self _ _)) hrest).1
          simp only [hdue, if_true, ha, Option.toList, List.length_cons, List.length_nil]
          have hzero : ((runTicks twilio (reminderTick twilio now s).2 rest).1.filter
              (fun a => decide (a.reminderId = x.id))).length = 0 := by
            rw [hnone]
            rfl
          omega
      · simp only [hdue, if_false, Bool.false_eq_true, List.length_nil]
        omega
    · have hnone : (reminderTick twilio now s).1.filter
          (fun a => decide (a.reminderId = id)) = [] := by
        have hsub : (s.reminders.filter (isDue now)).Sublist s.reminders :=
          List.filter_sublist _
        have hnd : ((s.reminders.filter (isDue now)).map MedicineReminder.id).Nodup :=
          List.Nodup.sublist (List.Sublist.map _ hsub) hids
        simp only [reminderTick, tick_calls, List.nil_append]
        rw [calls_for_id twilio now s.users id _ hnd]
        have hf : (s.reminders.filter (isDue now)).find? (fun d => decide (d.id = id)) =
            none := by
          rw [List.find?_eq_none]
          intro d hd hdid
          simp only [decide_eq_true_eq] at hdid
          exact hex ⟨d, List.mem_of_mem_filter hd, hdid⟩
        rw [hf]
      rw [hnone]
      simp only [List.length_nil]
      omega

/-- C18: let a reminder be due at the time of a tick, not yet sent that day, its
patient populated and with a phone.  That tick makes exactly one SMS call for it,
whether or not the delivery succeeds; every further tick on the same calendar
day makes none; and a tick at the same slot on the following calendar day, still
inside the window, makes exactly one more.  In any run of ticks on one calendar
day, at most one call is made for any reminder. -/
theorem one_attempt_per_day (twilio : Option (String → String → Bool)) (s : Store)
    (r : MedicineReminder) (patient : User) (now next : Nat) (later : List Nat)
    (hids : reminderIdsUnique s) (hr : r ∈ s.reminders) (hdue : isDue now r = true)
    (hpat : findUserById s.users r.patientId = some patient) (hphone : patient.phone ≠ "")
    (hfresh : r.lastSent.map startOfDay ≠ some (startOfDay now))
    (hlater : ∀ t ∈ later, dayOf t = dayOf now)
    (hnext : dayOf next = dayOf now + 1) (hslot : currentTime next = currentTime now)
    (hwin : startOfDay next ≤ r.endDate) :
    ((reminderTick twilio now s).1.filter
      (fun a => decide (a.reminderId = r.id))).length = 1 ∧
    (runTicks twilio (reminderTick twilio now s).2 later).1.filter
      (fun a => decide (a.reminderId = r.id)) = [] ∧
    ((reminderTick twilio next
        (runTicks twilio (reminderTick twilio now s).2 later).2).1.filter
      (fun a => decide (a.reminderId = r.id))).length = 1 ∧
    (∀ (s0 : Store) (times : List Nat) (id : Nat), reminderIdsUnique s0 →
      (∀ t ∈ times, dayOf t = dayOf now) →
      ((runTicks twilio s0 times).1.filter
        (fun a => decide (a.reminderId = id))).length ≤ 1) := by
  have hatt : ∀ (t : Nat) (x : MedicineReminder), x.id = r.id → x.patientId = r.patientId →
      Option.map startOfDay x.lastSent ≠ some (startOfDay t) →
      ∃ a, attemptFor twilio t s.users x = some a := by
    intro t x _ hxp hxs
    simp only [attemptFor, hxp, hpat]
    rw [if_pos ⟨hxs, hphone⟩]
    exact ⟨_, rfl⟩
  obtain ⟨i, hi⟩ := List.mem_iff_getElem?.mp hr
  have hshould : shouldAttempt now (findUserById s.users r.patientId) r = true := by
    simp [shouldAttempt, hpat, hfresh]
  have hpos := reminderTick_position twilio now s hids i r hi
  rw [if_pos ⟨hdue, hshould⟩] at hpos
  have hids1 := reminderTick_ids_unique twilio now s hids
  obtain ⟨hnone, hpos2, hids2, husers2⟩ := runTicks_sent_today twilio (dayOf now) later
    (reminderTick twilio now s).2 i { r with lastSent := some now } now hids1 hpos rfl rfl
    hlater
  refine ⟨?_, hnone, ?_, fun s0 times id h0 hall =>
    runTicks_at_most_once twilio (dayOf now) times s0 id h0 hall⟩
  · rw [reminderTick_calls_for twilio now s hids r hr, if_pos hdue]
    obtain ⟨a, ha⟩ := hatt now r rfl rfl hfresh
    rw [ha]
    rfl
  · have hmem : ({ r with lastSent := some now } : MedicineReminder) ∈
        (runTicks twilio (reminderTick twilio now s).2 later).2.reminders :=
      List.getElem?_mem hpos2
    have hdue2 : isDue next { r with lastSent := some now } = true := by
      simp only [isDue, Bool.and_eq_true, decide_eq_true_eq, Bool.not_eq_true'] at hdue ⊢
      obtain ⟨⟨⟨⟨h1, h2⟩, h3⟩, h4⟩, _⟩ := hdue
      refine ⟨⟨⟨⟨h1, h2⟩, by rw [hslot]; exact h3⟩, ?_⟩, hwin⟩
      rw [startOfDay_eq] at h4 ⊢
      rw [hnext]
      simp only [msPerDay] at h4 ⊢
      omega
    have hfresh2 : Option.map startOfDay
        ({ r with lastSent := some now } : MedicineReminder).lastSent ≠
          some (startOfDay next) := by
      simp only [Option.map_some', ne_eq, Option.some.injEq, startOfDay_eq, hnext, msPerDay]
      omega
    have hcalls := reminderTick_calls_for twilio next _ hids2 _ hmem
    rw [if_pos hdue2, husers2] at hcalls
    have husers1 : (reminderTick twilio now s).2.users = s.users := rfl
    rw [husers1] at hcalls
    obtain ⟨a, ha⟩ := hatt next { r with lastSent := some now } rfl rfl hfresh2
    rw [ha] at hcalls
    have hcalls' : (reminderTick twilio next
        (runTicks twilio (reminderTick twilio now s).2 later).2).1.filter
          (fun a => decide (a.reminderId = r.id)) = [a] := hcalls
    rw [hcalls']
    rfl

/-- C18 at a concrete input: the sample reminder is sent once by the tick at
21:00 on 2024-01-02 although the delivery fails, not again by two further ticks
that day, and once more by the tick at 21:00 on 2024-01-03. -/
theorem one_attempt_per_day_witness :
    ((reminderTick failingTwilio (nightOf 2) reminderStore).1.filter
      (fun a => decide (a.reminderId = 0))).length = 1 ∧
    (runTicks failingTwilio (reminderTick failingTwilio (nightOf 2) reminderStore).2
      [nightOf 2 + 30000, nightOf 2 + 3600000]).1.filter
      (fun a => decide (a.reminderId = 0)) = [] ∧
    ((reminderTick failingTwilio (nightOf 3)
        (runTicks failingTwilio (reminderTick failingTwilio (nightOf 2) reminderStore).2
          [nightOf 2 + 30000, nightOf 2 + 3600000]).2).1.filter
      (fun a => decide (a.reminderId = 0))).length = 1 :=
  have h := one_attempt_per_day failingTwilio reminderStore sampleReminder asha (nightOf 2)
    (nightOf 3) [nightOf 2 + 30000, nightOf 2 + 3600000] (by decide) (by decide) (by decide)
    (by decide) (by decide) (by decide) (by decide) (by decide) (by decide) (by decide)
  ⟨h.1, h.2.1, h.2.2.1⟩

/-- C19: the store a tick leaves and the SMS calls it makes (reminder, number,
message) do not depend on the outcome of any delivery.  Whatever deliveries
fail, every reminder that the query selects and the loop attempts gets its
`lastSent` set to the time of the tick, every other reminder is unchanged, and
an SMS call is made for every such reminder whose patient has a phone. -/
theorem tick_isolates_failures (twilio twilio' : Option (String → String → Bool))
    (now : Nat) (s : Store) (hids : reminderIdsUnique s) :
    (reminderTick twilio now s).2 = (reminderTick twilio' now s).2 ∧
    (reminderTick twilio now s).1.map (fun a => (a.reminderId, a.recipient, a.body)) =
      (reminderTick twilio' now s).1.map (fun a => (a.reminderId, a.recipient, a.body)) ∧
    (∀ (i : Nat) (r : MedicineReminder), s.reminders[i]? = some r →
      (reminderTick twilio now s).2.reminders[i]? =
        some (if isDue now r = true ∧
            shouldAttempt now (findUserById s.users r.patientId) r = true then
          { r with lastSent := some now } else r)) ∧
    (∀ r ∈ s.reminders, isDue now r = true →
      ∀ patient, findUserById s.users r.patientId = some patient →
      r.lastSent.map startOfDay ≠ some (startOfDay now) → patient.phone ≠ "" →
      ∃ a ∈ (reminderTick twilio now s).1, a.reminderId = r.id ∧
        a.recipient = patient.phone ∧ a.body = reminderMessage r) := by
  have hstore : ∀ (ds : List MedicineReminder)
      (acc acc' : List SmsAttempt × List MedicineReminder), acc.2 = acc'.2 →
      (ds.foldl (tickStep twilio now s.users) acc).2 =
        (ds.foldl (tickStep twilio' now s.users) acc').2 := by
    intro ds
    induction ds with
    | nil => intro acc acc' h; exact h
    | cons d rest ih =>
      intro acc acc' h
      rw [List.foldl_cons, List.foldl_cons]
      apply ih
      rw [tickStep_reminders, tickStep_reminders, h]
  have hcall : ∀ d : MedicineReminder,
      (attemptFor twilio now s.users d).map (fun a => (a.reminderId, a.recipient, a.body)) =
        (attemptFor twilio' now s.users d).map
          (fun a => (a.reminderId, a.recipient, a.body)) := by
    intro d
    unfold attemptFor
    split
    · rfl
    · split <;> rfl
  refine ⟨?_, ?_, fun i r hr => reminderTick_position twilio now s hids i r hr, ?_⟩
  · simp only [reminderTick]
    rw [hstore _ _ ([], s.reminders) rfl]
  · simp only [reminderTick, tick_calls, List.nil_append]
    generalize s.reminders.filter (isDue now) = ds
    induction ds with
    | nil => rfl
    | cons d rest ih =>
      have hd := hcall d
      rw [List.filterMap_cons, List.filterMap_cons]
      cases h1 : attemptFor twilio now s.users d with
      | none =>
        cases h2 : attemptFor twilio' now s.users d with
        | none => simpa using ih
        | some b => rw [h1, h2] at hd; exact Option.noConfusion hd
      | some a =>
        cases h2 : attemptFor twilio' now s.users d with
        | none => rw [h1, h2] at hd; exact Option.noConfusion hd
        | some b =>
          rw [h1, h2] at hd
          simp only [Option.map_some', Option.some.injEq] at hd
          simp only [List.map_cons, hd, ih]
  · intro r hr hdue patient hpat hfresh hphone
    have hcalls := reminderTick_calls_for twilio now s hids r hr
    rw [if_pos hdue] at hcalls
    have hatt : attemptFor twilio now s.users r =
        some { reminderId := r.id, recipient := patient.phone, body := reminderMessage r,
               delivered := sendSMS twilio patient.phone (reminderMessage r) } := by
      simp only [attemptFor, hpat]
      rw [if_pos ⟨hfresh, hphone⟩]
    have hin : ∀ a, attemptFor twilio now s.users r = some a →
        a ∈ (reminderTick twilio now s).1 := by
      intro a ha
      rw [ha] at hcalls
      have hmem : a ∈ (reminderTick twilio now s).1.filter
          (fun a => decide (a.reminderId = r.id)) := by
        rw [hcalls]
        exact List.mem_singleton_self _
      exact List.mem_of_mem_filter hmem
    exact ⟨_, hin _ hatt, rfl, rfl, rfl⟩

/-- C19 at a concrete input: with a Twilio client whose every delivery fails, the
tick at 21:00 on 2024-01-02 still makes the calls for both reminders of Asha and
marks both as sent, exactly as a tick whose deliveries succeed. -/
theorem tick_isolates_failures_witness :
    (reminderTick failingTwilio (nightOf 2) twoReminderStore).2 =
      (reminderTick none (nightOf 2) twoReminderStore).2 ∧
    (reminderTick failingTwilio (nightOf 2) twoReminderStore).1.map
      (fun a => (a.reminderId, a.delivered)) = [(0, false), (1, false)] ∧
    (reminderTick failingTwilio (nightOf 2) twoReminderStore).2.reminders.map
      (fun r => r.lastSent) = [some (nightOf 2), some (nightOf 2)] :=
  ⟨(tick_isolates_failures failingTwilio none (nightOf 2) twoReminderStore (by decide)).1,
   by decide, by decide⟩

/-! ## The time pattern and the dispatcher's clock -/

/-- The text `hours:minutes` built by `padStart` determines the hours and the
minutes. -/
theorem clock_text_injective {h m h' m' : Nat} (hh : h ≤ 99) (hm : m ≤ 99) (hh' : h' ≤ 99)
    (hm' : m' ≤ 99)
    (heq : padStart2 (toString h) ++ ":" ++ padStart2 (toString m) =
      padStart2 (toString h') ++ ":" ++ padStart2 (toString m')) :
    h = h' ∧ m = m' := by
  obtain ⟨x, y, hxy, _, _, hp⟩ := padStart2_two h hh
  obtain ⟨c, d, hcd, _, _, hq⟩ := padStart2_two m hm
  obtain ⟨x', y', hxy', _, _, hp'⟩ := padStart2_two h' hh'
  obtain ⟨c', d', hcd', _, _, hq'⟩ := padStart2_two m' hm'
  have hdata := congrArg String.data heq
  simp only [String.data_append, hxy, hcd, hxy', hcd'] at hdata
  have hlist : [x, y, ':', c, d] = [x', y', ':', c', d'] := by simpa using hdata
  simp only [List.cons.injEq, and_true, true_and] at hlist
  obtain ⟨h1, h2, h3, h4⟩ := hlist
  constructor
  · rw [← hp, ← hp', h1, h2]
  · rw [← hq, ← hq', h3, h4]

theorem getHours_le (now : Nat) : getHours now ≤ 23 := by
  simp only [getHours, msPerDay]
  omega

theorem getMinutes_le (now : Nat) : getMinutes now ≤ 59 := by
  simp only [getMinutes]
  omega

/-- C29: for every hour `h` from 0 to 23 and minute `m` from 0 to 59, the single
slot that `parseTiming` returns for the text `h:mm`, the hour written with or
without a leading zero, is the string `currentTime` that the dispatcher computes
at any moment whose hour is `h` and whose minute is `m`; and the `currentTime`
of a tick is that slot only for a tick of that hour and minute. -/
theorem currentTime_matches_slot (unicodeLower : String → String) (h m : Nat)
    (hourText : String) (hh : h ≤ 23) (hm : m ≤ 59)
    (hText : hourText = toString h ∨ hourText = padStart2 (toString h)) :
    (∀ now, getHours now = h → getMinutes now = m →
      parseTiming unicodeLower (some (hourText ++ ":" ++ padStart2 (toString m))) =
        [Slot.time (currentTime now)]) ∧
    (∀ now, Slot.time (currentTime now) ∈
        parseTiming unicodeLower (some (hourText ++ ":" ++ padStart2 (toString m))) ↔
      getHours now = h ∧ getMinutes now = m) := by
  have hslot : parseTiming unicodeLower
      (some (hourText ++ ":" ++ padStart2 (toString m))) =
      [Slot.time (padStart2 (toString h) ++ ":" ++ padStart2 (toString m))] := by
    rw [parseTiming_clock_text unicodeLower h m hourText (by omega) hh hText _ [] none
      (by simp [String.data_append]) (matchSuffix_spaces (by simp))]
    simp [adjustHours]
  constructor
  · intro now h1 h2
    rw [hslot, currentTime, h1, h2]
  · intro now
    rw [hslot, List.mem_singleton, Slot.time.injEq, currentTime]
    constructor
    · intro heq
      have hle := getHours_le now
      have mle := getMinutes_le now
      exact clock_text_injective (by omega) (by omega) (by omega) (by omega) heq
    · rintro ⟨h1, h2⟩
      rw [h1, h2]

/-- C29 at a concrete input: the texts `7:05` and `07:05` give the slot that the
dispatcher computes at 07:05 on 2024-01-01, and not the one it computes a minute
later. -/
theorem currentTime_matches_slot_witness :
    parseTiming id (some "7:05") = [Slot.time (currentTime (newYear2024 + 25500000))] ∧
    parseTiming id (some "07:05") = [Slot.time (currentTime (newYear2024 + 25500000))] ∧
    ¬ (Slot.time (currentTime (newYear2024 + 25560000)) ∈ parseTiming id (some "7:05")) :=
  ⟨(currentTime_matches_slot id 7 5 "7" (by decide) (by decide) (Or.inl (by decide))).1
      (newYear2024 + 25500000) (by decide) (by decide),
   (currentTime_matches_slot id 7 5 "07" (by decide) (by decide) (Or.inr (by decide))).1
      (newYear2024 + 25500000) (by decide) (by decide),
   fun hmem =>
    absurd (((currentTime_matches_slot id 7 5 "7" (by decide) (by decide)
      (Or.inl (by decide))).2 (newYear2024 + 25560000)).mp hmem).2 (by decide)⟩

/-- The trimmed form of a text that starts with white space followed by a
character that is not white space starts with that character. -/
theorem jsTrim_head_after_spaces {t : String} {ws : List Char} {a : Char} {rest : List Char}
    (ht : t.data = ws ++ a :: rest) (hws : ∀ c ∈ ws, isJsSpace c = true)
    (ha : isJsSpace a = false) :
    ∃ tail, (jsTrim t).data = a :: tail := by
  have hd : (String.mk (a :: rest)).data = a :: rest := rfl
  obtain ⟨tail, htail⟩ := jsTrim_head hd ha
  refine ⟨tail, ?_⟩
  have hdrop : t.data.dropWhile isJsSpace = (a :: rest).dropWhile isJsSpace := by
    rw [ht, List.dropWhile_append_of_pos hws]
  simp only [jsTrim, hdrop]
  simpa [jsTrim] using htail

/-- A key that starts with a digit names no property of `timeMap`, own or
inherited. -/
theorem timeMapGet_digit_key {key : String} {a : Char} {rest : List Char}
    (hk : key.data = a :: rest) (ha : isAsciiDigit a = true) : timeMapGet key = none := by
  have hne : ∀ w ∈ ["morning", "afternoon", "evening", "night", "breakfast", "lunch",
      "dinner"] ++ objectPrototypeProperties, key ≠ w := by
    intro w hw heq
    have hw2 : ∀ w ∈ ["morning", "afternoon", "evening", "night", "breakfast", "lunch",
        "dinner"] ++ objectPrototypeProperties,
        w.data.head?.map isAsciiDigit = some false := by decide
    have := hw2 w hw
    rw [← heq, hk] at this
    simp [ha] at this
  have hlook : timeMap.lookup key = none := by
    rw [List.lookup_eq_none_iff]
    intro p hp
    simp only [timeMap, List.mem_cons, List.mem_singleton, List.mem_nil_iff, or_false] at hp
    have hkey : key ≠ p.1 := by
      apply hne
      rcases hp with rfl | rfl | rfl | rfl | rfl | rfl | rfl <;> decide
    simp only [bne_iff_ne, ne_eq]
    exact fun h => hkey h
  have hnot : key ∉ objectPrototypeProperties := by
    intro hin
    exact hne key (List.mem_append_right _ hin) rfl
  simp only [timeMapGet, hlook, hnot, if_false]

/-- C30: the time pattern is matched against the untrimmed text.  For every text
`t` that matches the pattern and every non-empty text `w` of white space,
`parseTiming` of `w` followed by `t` returns the three default slots 09:00,
14:00, 21:00, while `parseTiming` of `t` alone returns a single slot. -/
theorem parseTiming_leading_space (unicodeLower : String → String) (w t : String)
    (m : TimeMatch) (hm : matchTimePattern t = some m) (hw : w ≠ "")
    (hws : ∀ c ∈ w.data, isJsSpace c = true) :
    parseTiming unicodeLower (some (w ++ t)) =
      [Slot.time "09:00", Slot.time "14:00", Slot.time "21:00"] ∧
    ∃ slot, parseTiming unicodeLower (some t) = [Slot.time slot] := by
  refine ⟨?_, _, parseTiming_of_match unicodeLower hm⟩
  obtain ⟨a, rest, hdata, ha⟩ := matchTimePattern_head hm
  have hfull : (w ++ t).data = w.data ++ a :: rest := by
    rw [String.data_append, hdata]
  obtain ⟨b, wrest, hwdata⟩ : ∃ b wrest, w.data = b :: wrest := by
    cases hd : w.data with
    | nil => exact absurd (String.ext hd) hw
    | cons b wrest => exact ⟨b, wrest, rfl⟩
  have hb : isJsSpace b = true := hws b (by rw [hwdata]; exact List.mem_cons_self _ _)
  have hne : w ++ t ≠ "" := by
    intro h
    have := congrArg String.data h
    rw [hfull] at this
    simp at this
  obtain ⟨tail, htrim⟩ := jsTrim_head_after_spaces hfull hws (digit_not_space ha)
  have hne2 : jsTrim (w ++ t) ≠ "" := string_ne_empty_of_data htrim
  have hnomatch : matchTimePattern (w ++ t) = none := by
    have hbd : isAsciiDigit b = false := by
      cases hd : isAsciiDigit b with
      | false => rfl
      | true => rw [digit_not_space hd] at hb; exact Bool.noConfusion hb
    unfold matchTimePattern
    rw [hfull, hwdata]
    cases wrest with
    | nil => simp [hbd]
    | cons c wrest' => simp [hbd]
  have hall : (w ++ t).data.all (fun c => decide (c.toNat < 128) || isJsSpace c) = true := by
    rw [String.data_append, List.all_append, Bool.and_eq_true]
    refine ⟨?_, matchTimePattern_chars hm⟩
    rw [List.all_eq_true]
    intro c hc
    simp [hws c hc]
  have hlow : (toLowerCase unicodeLower (w ++ t)).data =
      w.data ++ a :: rest.map Char.toLower := by
    have hwmap : w.data.map Char.toLower = w.data := by
      conv_rhs => rw [← List.map_id w.data]
      apply List.map_congr_left
      intro c hc
      exact space_toLower (hws c hc)
    have hl : toLowerCase unicodeLower (w ++ t) =
        String.mk ((w ++ t).data.map Char.toLower) := by
      simp only [toLowerCase, hall, if_true]
    rw [hl, hfull]
    simp only [List.map_append, List.map_cons, digit_toLower ha, hwmap]
  obtain ⟨ktail, hkey⟩ := jsTrim_head_after_spaces hlow hws (digit_not_space ha)
  have hget := timeMapGet_digit_key hkey ha
  rw [parseTiming_unrecognized unicodeLower hne hne2 hnomatch hget]
  rfl

/-- C30 at a concrete input: ` 9:30` gives the three defaults although `9:30`
gives the slot 09:30. -/
theorem parseTiming_leading_space_witness :
    parseTiming id (some " 9:30") =
      [Slot.time "09:00", Slot.time "14:00", Slot.time "21:00"] ∧
    parseTiming id (some "9:30") = [Slot.time "09:30"] :=
  ⟨(parseTiming_leading_space id " " "9:30" { hours := "9", minutes := "30", ampm := none }
      (by decide) (by decide) (by decide)).1, by decide⟩

/-! ## Reminder routes and the respond action -/

/-- C26, evaluated on the code: Asha answers her pending consent with the action
`approve`, which is neither `grant` nor `deny`.  The route declares the
validator `isIn(['grant', 'deny'])` but the handler never reads the validation
result: the call succeeds (status 200), the consent becomes denied and a
notification goes to the hospital. -/
theorem respond_with_other_action_succeeds :
    (consentRespond 50 (ledgerWith ConsentStatus.pending) asha 7 "approve").1.status = 200 ∧
    (consentRespond 50 (ledgerWith ConsentStatus.pending) asha 7 "approve").2.consents.map
      (fun c => (c.id, c.status, c.respondedAt)) = [(7, ConsentStatus.denied, some 50)] ∧
    (consentRespond 50 (ledgerWith ConsentStatus.pending) asha 7 "approve").2.notifications.map
      (fun n => (n.userId, n.title)) = [(2, "Consent Denied")] := by
  decide

/-- C25: when every reminder with the given id belongs to another patient, both
`complete` and `toggle` reply 404 and return the store as it was; and (ids being
unique) whatever id the actor sends, every reminder of another patient keeps its
place and content. -/
theorem reminder_routes_owner_only (s : Store) (actor : User) (id : Nat)
    (hids : reminderIdsUnique s) :
    ((∀ r ∈ s.reminders, r.id = id → r.patientId ≠ actor.id) →
      completeReminder s actor id = (Response.msg 404 "Reminder not found", s) ∧
      toggleReminder s actor id = (Response.msg 404 "Reminder not found", s)) ∧
    (∀ (i : Nat) (r : MedicineReminder), s.reminders[i]? = some r →
      r.patientId ≠ actor.id →
      (completeReminder s actor id).2.reminders[i]? = some r ∧
      (toggleReminder s actor id).2.reminders[i]? = some r) := by
  cases hfind : s.reminders.find? (fun r => decide (r.id = id) &&
      decide (r.patientId = actor.id)) with
  | none =>
    have h1 : completeReminder s actor id = (Response.msg 404 "Reminder not found", s) := by
      simp only [completeReminder, hfind]
    have h2 : toggleReminder s actor id = (Response.msg 404 "Reminder not found", s) := by
      simp only [toggleReminder, hfind]
    rw [h1, h2]
    exact ⟨fun _ => ⟨rfl, rfl⟩, fun i r hr _ => ⟨hr, hr⟩⟩
  | some f =>
    have hf : f ∈ s.reminders := List.mem_of_find?_eq_some hfind
    have hq := List.find?_some hfind
    simp only [Bool.and_eq_true, decide_eq_true_eq] at hq
    obtain ⟨hfid, hfp⟩ := hq
    constructor
    · intro hno
      exact absurd hfp (hno f hf hfid)
    · intro i r hr hrp
      have hne : ¬ r.id = f.id := by
        intro hid
        have hrf : r = f := reminder_eq_of_id hids (List.getElem?_mem hr) hf hid
        exact hrp (by rw [hrf]; exact hfp)
      constructor
      · simp only [completeReminder, hfind]
        show (saveReminder s.reminders _)[i]? = _
        rw [saveReminder_getElem? _ _ i r hr]
        simp [hne]
      · simp only [toggleReminder, hfind]
        show (saveReminder s.reminders _)[i]? = _
        rw [saveReminder_getElem? _ _ i r hr]
        simp [hne]

/-- C25 at a concrete input: City Care, which is not the patient of reminder 0,
calls complete and toggle on it; both reply 404 and nothing changes. -/
theorem reminder_routes_owner_only_witness :
    completeReminder reminderStore cityCare 0 =
      (Response.msg 404 "Reminder not found", reminderStore) ∧
    toggleReminder reminderStore cityCare 0 =
      (Response.msg 404 "Reminder not found", reminderStore) :=
  (reminder_routes_owner_only reminderStore cityCare 0 (by decide)).1 (by decide)

/-- A completed reminder is never selected by the query of a tick. -/
theorem isDue_completed (now : Nat) (r : MedicineReminder) (h : r.completed = true) :
    isDue now r = false := by
  simp [isDue, h]

/-- C24, evaluated on the code: Asha completes her reminder 0, which makes it
completed and inactive; her toggle call on the completed reminder then succeeds
and sets `isActive` back to true, because the toggle handler does not read
`completed`.  The field `completed` stays true and the tick at 21:00 on
2024-01-02 sends nothing for the reminder. -/
theorem toggle_reactivates_completed_reminder :
    (completeReminder reminderStore asha 0).2.reminders.map
      (fun r => (r.id, r.completed, r.isActive)) = [(0, true, false)] ∧
    (toggleReminder (completeReminder reminderStore asha 0).2 asha 0).1.status = 200 ∧
    (toggleReminder (completeReminder reminderStore asha 0).2 asha 0).2.reminders.map
      (fun r => (r.id, r.completed, r.isActive)) = [(0, true, true)] ∧
    (reminderTick none (nightOf 2)
      (toggleReminder (completeReminder reminderStore asha 0).2 asha 0).2).1 = [] := by
  decide

/-! ## Emergency beds -/

/-- When the occupancy query of the admit handler finds nothing, the bed has no
active emergency patient. -/
theorem activeInBed_eq_nil_of_find {patients : List EmergencyPatient} {h : Nat} {bed : String}
    (hf : patients.find? (fun e => decide (e.bedNumber = bed) && decide (e.hospitalId = h) &&
      e.isActive) = none) :
    activeInBed patients h bed = [] := by
  simp only [activeInBed, List.filter_eq_nil_iff]
  intro e he
  exact List.find?_eq_none.1 hf e he

/-- One emergency admission call keeps every bed at no more than one active
patient. -/
theorem bedStep_active (generateTemporaryId : Nat → String → Nat → String) (s : Store)
    (now : Nat) (op : BedOp)
    (inv : ∀ h bed, (activeInBed s.emergencyPatients h bed).length ≤ 1) :
    ∀ h bed, (activeInBed (bedStep generateTemporaryId s now op).emergencyPatients h
      bed).length ≤ 1 := by
  intro h bed
  cases op with
  | admission hosp bedNumber notes =>
    simp only [bedStep, admitEmergencyPatient]
    split
    · exact inv h bed
    · split
      · exact inv h bed
      · rename_i hnone
        have hnil := activeInBed_eq_nil_of_find hnone
        simp only [activeInBed, List.filter_append, List.length_append] at hnil ⊢
        by_cases hp : jsTrim bedNumber = bed ∧ hosp.id = h
        · obtain ⟨h1, h2⟩ := hp
          subst h1 h2
          rw [hnil]
          simp only [List.length_nil, zero_add]
          exact le_trans (List.length_filter_le _ _) (by simp)
        · have hinv := inv h bed
          simp only [activeInBed] at hinv
          have hdec : (decide (jsTrim bedNumber = bed) && decide (hosp.id = h)) = false := by
            simpa using hp
          simp only [List.filter_cons, hdec, Bool.false_and, List.filter_nil]
          simpa using hinv
  | discharge hosp id =>
    simp only [bedStep, dischargeEmergencyPatient]
    split
    · exact inv h bed
    · refine le_trans (length_filter_map_le _ _ ?_ _) (inv h bed)
      intro x hq
      rename_i found _
      by_cases hx : x.id = found.id
      · simp [hx] at hq
      · simp [hx]

/-- A run of emergency admission calls keeps every bed at no more than one
active patient. -/
theorem bedRun_active (generateTemporaryId : Nat → String → Nat → String)
    (calls : List (Nat × BedOp)) :
    ∀ s : Store,
      (∀ h bed, (activeInBed s.emergencyPatients h bed).length ≤ 1) →
      ∀ h bed, (activeInBed (bedRun generateTemporaryId s calls).emergencyPatients h
        bed).length ≤ 1 := by
  induction calls with
  | nil => intro s inv; exact inv
  | cons call rest ih =>
    intro s inv
    obtain ⟨now, op⟩ := call
    exact ih _ (bedStep_active generateTemporaryId s now op inv)

/-- C22: let `occupant` be an active emergency patient of the hospital in the
bed `jsTrim bedNumber`.  (1) An admit to that bed replies 400 and returns the
store as it was.  (2) When the bed number is not empty and every active patient
of the bed has the occupant's id, then the discharge of the occupant replies
200, and an admit to the same bed made afterwards replies 200 and adds exactly
one new record, which is active and in that bed.  (3) In every state reached
from the empty store by admit and discharge calls, each bed of each hospital
has at most one active emergency patient. -/
theorem one_active_patient_per_bed (generateTemporaryId : Nat → String → Nat → String)
    (s : Store) (reqUser : User) (bedNumber : String) (notes : Option String)
    (now later : Nat) (occupant : EmergencyPatient)
    (hmem : occupant ∈ s.emergencyPatients)
    (hhosp : occupant.hospitalId = reqUser.id)
    (hbed : occupant.bedNumber = jsTrim bedNumber)
    (hactive : occupant.isActive = true) :
    ((admitEmergencyPatient generateTemporaryId now s reqUser bedNumber notes).1.status = 400 ∧
      (admitEmergencyPatient generateTemporaryId now s reqUser bedNumber notes).2 = s) ∧
    (bedNumber ≠ "" →
      (∀ e ∈ s.emergencyPatients, e.hospitalId = reqUser.id →
        e.bedNumber = jsTrim bedNumber → e.isActive = true → e.id = occupant.id) →
      (dischargeEmergencyPatient now s reqUser occupant.id).1.status = 200 ∧
      (admitEmergencyPatient generateTemporaryId later
        (dischargeEmergencyPatient now s reqUser occupant.id).2 reqUser bedNumber
        notes).1.status = 200 ∧
      ∃ added : EmergencyPatient,
        (admitEmergencyPatient generateTemporaryId later
          (dischargeEmergencyPatient now s reqUser occupant.id).2 reqUser bedNumber
          notes).2.emergencyPatients =
          (dischargeEmergencyPatient now s reqUser occupant.id).2.emergencyPatients ++
            [added] ∧
        added.isActive = true ∧ added.bedNumber = jsTrim bedNumber ∧
        added.hospitalId = reqUser.id ∧ added.admissionDate = later ∧
        added.id = s.nextId) ∧
    (∀ (users : List User) (calls : List (Nat × BedOp)) (h : Nat) (bed : String),
      (activeInBed (bedRun generateTemporaryId (Store.init users) calls).emergencyPatients h
        bed).length ≤ 1) := by
  refine ⟨?_, ?_, ?_⟩
  · by_cases hb : bedNumber = ""
    · simp [admitEmergencyPatient, hb]
    · cases hfind : s.emergencyPatients.find? (fun e =>
          decide (e.bedNumber = jsTrim bedNumber) && decide (e.hospitalId = reqUser.id) &&
          e.isActive) with
      | none =>
        have hq := List.find?_eq_none.1 hfind occupant hmem
        simp [hhosp, hbed, hactive] at hq
      | some f =>
        simp [admitEmergencyPatient, hb, hfind, Response.msg]
  · intro hb hone
    cases hfind : s.emergencyPatients.find? (fun e => decide (e.id = occupant.id) &&
        decide (e.hospitalId = reqUser.id)) with
    | none =>
      have hq := List.find?_eq_none.1 hfind occupant hmem
      simp [hhosp] at hq
    | some f =>
      have hd : dischargeEmergencyPatient now s reqUser occupant.id =
          (Response.msg 200 "Emergency patient discharged successfully",
            { s with emergencyPatients := (saveEmergencyPatient s.emergencyPatients
                { f with isActive := false, dischargeDate := some now }) }) := by
        simp only [dischargeEmergencyPatient, hfind]
      have hfq := List.find?_some hfind
      simp only [Bool.and_eq_true, decide_eq_true_eq] at hfq
      have hfree : (saveEmergencyPatient s.emergencyPatients
          ({ f with isActive := false, dischargeDate := some now })).find? (fun e =>
            decide (e.bedNumber = jsTrim bedNumber) && decide (e.hospitalId = reqUser.id) &&
            e.isActive) = none := by
        rw [List.find?_eq_none]
        intro x hx
        simp only [saveEmergencyPatient, List.mem_map] at hx
        obtain ⟨y, hy, hxy⟩ := hx
        by_cases hid : y.id = f.id
        · simp only [hid, if_true] at hxy
          subst hxy
          simp
        · simp only [hid, if_false] at hxy
          subst hxy
          intro hq
          simp only [Bool.and_eq_true, decide_eq_true_eq] at hq
          exact hid ((hone y hy hq.1.2 hq.1.1 hq.2).trans hfq.1.symm)
      rw [hd]
      refine ⟨rfl, ?_, ?_⟩
      · simp only [admitEmergencyPatient, hb, if_false, hfree]
        rfl
      · simp only [admitEmergencyPatient, hb, if_false, hfree]
        exact ⟨_, rfl, rfl, rfl, rfl, rfl, rfl⟩
  · intro users calls h bed
    exact bedRun_active generateTemporaryId calls (Store.init users)
      (fun h bed => by simp [activeInBed, Store.init]) h bed

/-- C22 at a concrete input: City Care has an active patient in bed 12; a second
admit to " 12 " is refused, and after the discharge of the patient the admit
succeeds. -/
theorem one_active_patient_per_bed_witness :
    (admitEmergencyPatient sampleTemporaryId 20 bedStore cityCare " 12 " none).1.status = 400 ∧
    (admitEmergencyPatient sampleTemporaryId 40
      (dischargeEmergencyPatient 30 bedStore cityCare 0).2 cityCare " 12 "
      none).1.status = 200 ∧
    ((admitEmergencyPatient sampleTemporaryId 40
      (dischargeEmergencyPatient 30 bedStore cityCare 0).2 cityCare " 12 "
      none).2.emergencyPatients.map
        (fun e => (e.id, e.bedNumber, e.isActive))) =
      [(0, "12", false), (1, "12", true)] :=
  have h := one_active_patient_per_bed sampleTemporaryId bedStore cityCare " 12 " none 30 40
    { id := 0, temporaryId := "2-12-10", bedNumber := "12", hospitalId := 2, notes := "",
      isActive := true, admissionDate := 10, dischargeDate := none }
    (by decide) (by decide) (by decide) (by decide)
  ⟨(by decide), (h.2.1 (by decide) (by decide)).2.1, by decide⟩

/-! ## Creating a prescription -/

/-- The function `parseTiming` always returns at least one slot. -/
theorem parseTiming_length_pos (unicodeLower : String → String) (timing : Option String) :
    0 < (parseTiming unicodeLower timing).length := by
  unfold parseTiming
  split
  · decide
  · split
    · decide
    · simp only []
      split
      · simp
      · split
        · simp
        · decide

/-- Every reminder built for a prescription carries the patient id it was built
for and the id of the prescription. -/
theorem reminderSpecs_ids (unicodeLower : String → String) (patientId : Nat)
    (familyMemberId : Option Nat) (p : Prescription) (spec : ReminderSpec)
    (hspec : spec ∈ reminderSpecs unicodeLower patientId familyMemberId p) :
    spec.patientId = patientId ∧ spec.prescriptionId = p.id := by
  rw [reminderSpecs_eq, List.mem_flatMap] at hspec
  obtain ⟨medicine, _, hin⟩ := hspec
  rw [List.mem_map] at hin
  obtain ⟨slot, _, rfl⟩ := hin
  exact ⟨rfl, rfl⟩

/-- A prescription with a medicine gets at least one reminder. -/
theorem reminderSpecs_length_pos (unicodeLower : String → String) (patientId : Nat)
    (familyMemberId : Option Nat) (p : Prescription) (h : p.medicines ≠ []) :
    0 < (reminderSpecs unicodeLower patientId familyMemberId p).length := by
  rw [reminderSpecs_eq]
  cases hm : p.medicines with
  | nil => exact absurd hm h
  | cons m rest =>
    simp only [List.flatMap_cons, List.length_append, List.length_map]
    have := parseTiming_length_pos unicodeLower m.timing
    omega

/-- Every stored reminder document comes from one of the specs, keeps its patient
id and prescription id, and has an id from `firstId` on. -/
theorem reminderDocs_mem (castInherited : String → Option String) :
    ∀ (specs : List ReminderSpec) (firstId : Nat) (docs : List MedicineReminder),
      reminderDocs castInherited firstId specs = some docs →
      ∀ r ∈ docs, ∃ spec ∈ specs, r.patientId = spec.patientId ∧
        r.prescriptionId = spec.prescriptionId ∧ firstId ≤ r.id := by
  intro specs
  induction specs with
  | nil =>
    intro firstId docs h r hr
    simp only [reminderDocs, Option.some.injEq] at h
    subst h
    simp at hr
  | cons spec rest ih =>
    intro firstId docs h r hr
    simp only [reminderDocs] at h
    split at h
    · rename_i text endDate restDocs hcast hend hrest
      simp only [Option.some.injEq] at h
      subst h
      rcases List.mem_cons.1 hr with hr | hr
      · subst hr
        exact ⟨spec, List.mem_cons_self _ _, rfl, rfl, le_refl _⟩
      · obtain ⟨sp, hsp, h1, h2, h3⟩ := ih (firstId + 1) restDocs hrest r hr
        exact ⟨sp, List.mem_cons_of_mem _ hsp, h1, h2, by omega⟩
    · exact Option.noConfusion h

/-- A medicine list that passes the validators is not empty. -/
theorem validateMedicines_nonempty (timingRequired : Bool) (timingMessage : String)
    (medicines : List Medicine)
    (h : validateMedicines timingRequired timingMessage medicines = []) :
    medicines ≠ [] := by
  intro hm
  subst hm
  simp [validateMedicines] at h

/-- C23 as stated fails: City Care creates a prescription for the phone number
9000000009, which no patient has registered.  The call succeeds and the stored
prescription has neither a patient id nor an emergency patient id. -/
theorem prescription_without_any_patient_id :
    (createPrescription anyPhone id rejectInherited 100 sampleStore cityCare
      unregisteredRequest).1.status = 200 ∧
    (createPrescription anyPhone id rejectInherited 100 sampleStore cityCare
      unregisteredRequest).2.prescriptions.map
        (fun p => (p.id, p.patientPhone, p.patientId, p.emergencyPatientId)) =
      [(0, "9000000009", none, none)] := by
  decide

/-- C23, amended: whenever `POST /prescriptions` stores a prescription, it adds
exactly one, which never has both a patient id and an emergency patient id.  For
an emergency request it has the emergency patient id of the request, no patient
id and the emergency flag; for a regular request it has no emergency patient id
and its patient id is that of the registered patient with the request's phone
number, or none when no patient has registered that number. -/
theorem prescription_association (isMobilePhone : String → Bool)
    (unicodeLower : String → String) (castInherited : String → Option String) (now : Nat)
    (s : Store) (reqUser : User) (body : PrescriptionRequest)
    (hnew : (createPrescription isMobilePhone unicodeLower castInherited now s reqUser
      body).2.prescriptions ≠ s.prescriptions) :
    ∃ p : Prescription,
      (createPrescription isMobilePhone unicodeLower castInherited now s reqUser
        body).2.prescriptions = s.prescriptions ++ [p] ∧
      p.id = s.nextId ∧ p.hospitalId = reqUser.id ∧
      ¬ (p.patientId.isSome = true ∧ p.emergencyPatientId.isSome = true) ∧
      (∀ eid, body.emergencyPatientId = some eid →
        p.emergencyPatientId = some eid ∧ p.patientId = none ∧
        p.isEmergencyPatient = true) ∧
      (body.emergencyPatientId = none →
        p.emergencyPatientId = none ∧ p.isEmergencyPatient = false ∧
        p.patientId = (findPatientByPhone s.users (body.patientPhone.getD "")).map
          (fun u => u.id)) := by
  by_cases herr : validateCreatePrescription isMobilePhone body ≠ []
  · simp only [createPrescription, if_pos herr] at hnew
    exact absurd rfl hnew
  · cases hb : body.emergencyPatientId with
    | some eid =>
      cases hfind : s.emergencyPatients.find? (fun e => decide (e.id = eid) &&
          decide (e.hospitalId = reqUser.id) && e.isActive) with
      | none =>
        simp only [createPrescription, if_neg herr, hb, hfind] at hnew
        exact absurd rfl hnew
      | some e =>
        have he := List.find?_some hfind
        simp only [Bool.and_eq_true, decide_eq_true_eq] at he
        simp only [createPrescription, if_neg herr, hb, hfind]
        refine ⟨_, rfl, rfl, rfl, ?_, ?_, ?_⟩
        · simp
        · intro eid' h'
          simp only [Option.some.injEq] at h'
          subst h'
          exact ⟨by simp [he.1.1], rfl, rfl⟩
        · intro h'
          exact Option.noConfusion h'
    | none =>
      by_cases hreq : body.patientPhone.getD "" = "" ∨ body.patientName.getD "" = ""
      · simp only [createPrescription, if_neg herr, hb, if_pos hreq] at hnew
        exact absurd rfl hnew
      · cases hpat : findPatientByPhone s.users (body.patientPhone.getD "") with
        | none =>
          simp only [createPrescription, if_neg herr, hb, if_neg hreq, hpat]
          refine ⟨_, rfl, rfl, rfl, ?_, ?_, ?_⟩
          · simp
          · intro eid' h'
            exact Option.noConfusion h'
          · intro _
            exact ⟨rfl, rfl, rfl⟩
        | some u =>
          simp only [createPrescription, if_neg herr, hb, if_neg hreq, hpat, Option.map_some']
          split
          · refine ⟨_, rfl, rfl, rfl, ?_, ?_, ?_⟩
            · simp
            · intro eid' h'
              exact Option.noConfusion h'
            · intro _
              exact ⟨rfl, rfl, rfl⟩
          · rename_i w hrem
            simp only [createMedicineReminders, Option.map_eq_some'] at hrem
            obtain ⟨docs, _, hw⟩ := hrem
            subst hw
            refine ⟨_, rfl, rfl, rfl, ?_, ?_, ?_⟩
            · simp
            · intro eid' h'
              exact Option.noConfusion h'
            · intro _
              exact ⟨rfl, rfl, rfl⟩

/-- C23, amended, at concrete inputs: the prescription for the registered
patient Asha carries her id and no emergency id; the prescription for the
emergency patient of bed 12 carries the emergency id and no patient id. -/
theorem prescription_association_witness :
    (∃ p : Prescription,
      (createPrescription anyPhone id rejectInherited 100 sampleStore cityCare
        ashaRequest).2.prescriptions = sampleStore.prescriptions ++ [p] ∧
      p.patientId = some 1 ∧ p.emergencyPatientId = none) ∧
    (∃ p : Prescription,
      (createPrescription anyPhone id rejectInherited 100 bedStore cityCare
        emergencyRequest).2.prescriptions = bedStore.prescriptions ++ [p] ∧
      p.patientId = none ∧ p.emergencyPatientId = some 0) :=
  ⟨(prescription_association anyPhone id rejectInherited 100 sampleStore cityCare
      ashaRequest (by decide)).elim
      (fun p hp => ⟨p, hp.1, hp.2.2.2.2.2 (by decide) |>.2.2.trans (by decide),
        (hp.2.2.2.2.2 (by decide)).1⟩),
   (prescription_association anyPhone id rejectInherited 100 bedStore cityCare
      emergencyRequest (by decide)).elim
      (fun p hp => ⟨p, hp.1, (hp.2.2.2.2.1 0 (by decide)).2.1,
        (hp.2.2.2.2.1 0 (by decide)).1⟩)⟩

/-- The number of reminders built for a prescription is the sum of the slot
counts of its medicines. -/
theorem reminderSpecs_length (unicodeLower : String → String) (patientId : Nat)
    (familyMemberId : Option Nat) (p : Prescription) :
    (reminderSpecs unicodeLower patientId familyMemberId p).length =
      (p.medicines.map (fun m => (parseTiming unicodeLower m.timing).length)).sum := by
  rw [reminderSpecs_eq, List.length_flatMap]
  congr 1
  apply List.map_congr_left
  intro m _
  simp

/-- C27: for a create-prescription call that replies 200: (1) when the request
names an emergency patient, or no registered patient has the request's phone
number, the reminders and the notifications are left as they were; (2) when the
request is a regular one and a registered patient has the phone number, the
call appends the reminders of the new prescription to the collection (at least
one; as many as the slots of the medicines; all for that patient and that
prescription) and appends one notification for that patient. -/
theorem reminders_only_for_registered_patient (isMobilePhone : String → Bool)
    (unicodeLower : String → String) (castInherited : String → Option String) (now : Nat)
    (s : Store) (reqUser : User) (body : PrescriptionRequest)
    (hok : (createPrescription isMobilePhone unicodeLower castInherited now s reqUser
      body).1.status = 200) :
    ((body.emergencyPatientId ≠ none ∨
        findPatientByPhone s.users (body.patientPhone.getD "") = none) →
      (createPrescription isMobilePhone unicodeLower castInherited now s reqUser
        body).2.reminders = s.reminders ∧
      (createPrescription isMobilePhone unicodeLower castInherited now s reqUser
        body).2.notifications = s.notifications) ∧
    (body.emergencyPatientId = none →
      ∀ patient : User,
        findPatientByPhone s.users (body.patientPhone.getD "") = some patient →
        ∃ (docs : List MedicineReminder) (note : Notification),
          (createPrescription isMobilePhone unicodeLower castInherited now s reqUser
            body).2.reminders = s.reminders ++ docs ∧
          docs.length =
            (body.medicines.map (fun m => (parseTiming unicodeLower m.timing).length)).sum ∧
          0 < docs.length ∧
          (∀ r ∈ docs, r.patientId = patient.id ∧ r.prescriptionId = s.nextId) ∧
          (createPrescription isMobilePhone unicodeLower castInherited now s reqUser
            body).2.notifications = s.notifications ++ [note] ∧
          note.userId = patient.id ∧ note.relatedId = s.nextId ∧
          note.title = "New Prescription") := by
  by_cases herr : validateCreatePrescription isMobilePhone body ≠ []
  · simp only [createPrescription, if_pos herr] at hok
    exact absurd hok (by decide)
  · have hmed : body.medicines ≠ [] := by
      have hnil : validateCreatePrescription isMobilePhone body = [] := by
        simpa using herr
      simp only [validateCreatePrescription, List.append_eq_nil] at hnil
      exact validateMedicines_nonempty _ _ _ hnil.2
    cases hb : body.emergencyPatientId with
    | some eid =>
      refine ⟨fun _ => ?_, fun h => Option.noConfusion h⟩
      simp only [createPrescription, if_neg herr, hb]
      split <;> exact ⟨rfl, rfl⟩
    | none =>
      by_cases hreq : body.patientPhone.getD "" = "" ∨ body.patientName.getD "" = ""
      · simp only [createPrescription, if_neg herr, hb, if_pos hreq] at hok
        exact absurd hok (by decide)
      · cases hpat : findPatientByPhone s.users (body.patientPhone.getD "") with
        | none =>
          refine ⟨fun _ => ?_, fun _ patient h => Option.noConfusion h⟩
          simp [createPrescription, if_neg herr, hb, if_neg hreq, hpat]
        | some u =>
          refine ⟨fun h => ?_, fun _ patient h => ?_⟩
          · rcases h with h | h
            · exact absurd rfl h
            · exact Option.noConfusion h
          · simp only [Option.some.injEq] at h
            subst h
            simp only [createPrescription, if_neg herr, hb, if_neg hreq, hpat,
              Option.map_some'] at hok ⊢
            split at hok
            · simp [Response.msg] at hok
            · rename_i w hrem
              simp only [hrem]
              simp only [createMedicineReminders, Option.map_eq_some'] at hrem
              obtain ⟨docs, hdocs, hw⟩ := hrem
              subst hw
              have hlen := (reminderDocs_spec castInherited _ _ _ hdocs).1
              refine ⟨docs, _, rfl, ?_, ?_, ?_, rfl, rfl, rfl, rfl⟩
              · rw [hlen, reminderSpecs_length]
              · rw [hlen]
                exact reminderSpecs_length_pos _ _ _ _ hmed
              · intro r hr
                obtain ⟨spec, hspec, h1, h2, _⟩ := reminderDocs_mem castInherited _ _ _ hdocs r hr
                have hids := reminderSpecs_ids _ _ _ _ _ hspec
                exact ⟨h1.trans hids.1, h2.trans hids.2⟩

/-- C27 at concrete inputs: the prescription for the registered patient Asha
adds one reminder and one notification; the prescriptions for an unregistered
phone number and for the emergency patient of bed 12 add none. -/
theorem reminders_only_for_registered_patient_witness :
    ((createPrescription anyPhone id rejectInherited 100 sampleStore cityCare
        ashaRequest).2.reminders.map (fun r => (r.patientId, r.prescriptionId, r.reminderTime)) =
        [(1, 0, "21:00")] ∧
      (createPrescription anyPhone id rejectInherited 100 sampleStore cityCare
        ashaRequest).2.notifications.map (fun n => (n.userId, n.title)) =
        [(1, "New Prescription")]) ∧
    ((createPrescription anyPhone id rejectInherited 100 sampleStore cityCare
        unregisteredRequest).2.reminders = sampleStore.reminders ∧
      (createPrescription anyPhone id rejectInherited 100 sampleStore cityCare
        unregisteredRequest).2.notifications = sampleStore.notifications) ∧
    ((createPrescription anyPhone id rejectInherited 100 bedStore cityCare
        emergencyRequest).2.reminders = bedStore.reminders ∧
      (createPrescription anyPhone id rejectInherited 100 bedStore cityCare
        emergencyRequest).2.notifications = bedStore.notifications) :=
  ⟨by decide,
   (reminders_only_for_registered_patient anyPhone id rejectInherited 100 sampleStore
      cityCare unregisteredRequest (by decide)).1 (Or.inr (by decide)),
   (reminders_only_for_registered_patient anyPhone id rejectInherited 100 bedStore
      cityCare emergencyRequest (by decide)).1 (Or.inl (by decide))⟩

/-! ## Updating a prescription -/

/-- C21: let the hospital's prescription `found` with id `pid` be linked to the
patient `patientId`, and let the update reply 200 with the store `after`.  Then
the reminders of `after` are the former reminders of other prescriptions, in
their order, followed by the documents `docs` stored for the reminders built
from the new medicine list; the reminders of `after` with the prescription id
`pid` are exactly `docs`; the reminders of other prescriptions are unchanged;
and, the ids of the former reminders being below the id counter, no former
reminder of the prescription is left. -/
theorem update_regenerates_reminders (unicodeLower : String → String)
    (castInherited : String → Option String) (s : Store) (reqUser : User) (pid : Nat)
    (medicines : List Medicine) (notes : Option String) (resp : Response) (after : Store)
    (found : Prescription) (patientId : Nat)
    (hfind : s.prescriptions.find? (fun p => decide (p.id = pid) &&
      decide (p.hospitalId = reqUser.id)) = some found)
    (hpat : found.patientId = some patientId)
    (hres : updatePrescription unicodeLower castInherited s reqUser pid medicines notes =
      (resp, after))
    (hok : resp.status = 200) :
    ∃ docs : List MedicineReminder,
      reminderDocs castInherited s.nextId
        (reminderSpecs unicodeLower patientId found.familyMemberId
          { found with medicines := medicines }) = some docs ∧
      after.reminders =
        s.reminders.filter (fun r => !decide (r.prescriptionId = pid)) ++ docs ∧
      (∀ r ∈ docs, r.prescriptionId = pid ∧ r.patientId = patientId ∧ s.nextId ≤ r.id) ∧
      after.reminders.filter (fun r => decide (r.prescriptionId = pid)) = docs ∧
      after.reminders.filter (fun r => !decide (r.prescriptionId = pid)) =
        s.reminders.filter (fun r => !decide (r.prescriptionId = pid)) ∧
      ((∀ r ∈ s.reminders, r.id < s.nextId) →
        ∀ r ∈ s.reminders, r.prescriptionId = pid → r ∉ after.reminders) := by
  have hfq := List.find?_some hfind
  simp only [Bool.and_eq_true, decide_eq_true_eq] at hfq
  have hid : found.id = pid := hfq.1
  by_cases herr : validateMedicines true "Medicine timing is required" medicines ≠ []
  · simp only [updatePrescription, if_pos herr, Prod.mk.injEq] at hres
    rw [← hres.1] at hok
    simp at hok
  · simp only [updatePrescription, if_neg herr, hfind, hpat] at hres
    split at hres
    · simp only [Prod.mk.injEq] at hres
      rw [← hres.1] at hok
      simp [Response.msg] at hok
    · rename_i w hrem
      simp only [Prod.mk.injEq] at hres
      obtain ⟨_, hw⟩ := hres
      subst hw
      simp only [createMedicineReminders, Option.map_eq_some'] at hrem
      obtain ⟨docs, hdocs, hw⟩ := hrem
      subst hw
      have hdocs2 : reminderDocs castInherited s.nextId
          (reminderSpecs unicodeLower patientId found.familyMemberId
            { found with medicines := medicines }) = some docs := by
        rw [← hdocs]
        congr 1
      have hfields : ∀ r ∈ docs, r.prescriptionId = pid ∧ r.patientId = patientId ∧
          s.nextId ≤ r.id := by
        intro r hr
        obtain ⟨spec, hspec, h1, h2, h3⟩ := reminderDocs_mem castInherited _ _ _ hdocs2 r hr
        have hids := reminderSpecs_ids _ _ _ _ _ hspec
        exact ⟨(h2.trans hids.2).trans hid, h1.trans hids.1, h3⟩
      have hdocsAll : docs.filter (fun r => decide (r.prescriptionId = pid)) = docs := by
        rw [List.filter_eq_self]
        intro r hr
        simpa using (hfields r hr).1
      have hdocsNone : docs.filter (fun r => !decide (r.prescriptionId = pid)) = [] := by
        rw [List.filter_eq_nil_iff]
        intro r hr
        simpa using (hfields r hr).1
      have hrem : (s.reminders.filter (fun r => !decide (r.prescriptionId = found.id))) =
          s.reminders.filter (fun r => !decide (r.prescriptionId = pid)) := by
        rw [hid]
      refine ⟨docs, hdocs2, ?_, hfields, ?_, ?_, ?_⟩
      · show s.reminders.filter _ ++ docs = _
        rw [hrem]
      · show (s.reminders.filter _ ++ docs).filter _ = _
        rw [hrem, List.filter_append, hdocsAll, List.filter_filter]
        simp
      · show (s.reminders.filter _ ++ docs).filter _ = _
        rw [hrem, List.filter_append, hdocsNone, List.filter_filter]
        simp
      · intro hfresh r hr hrp hin
        have hin2 : r ∈ s.reminders.filter (fun r => !decide (r.prescriptionId = pid)) ++
            docs := by
          rw [← hrem]
          exact hin
        rcases List.mem_append.1 hin2 with h | h
        · have := (List.mem_filter.1 h).2
          simp [hrp] at this
        · have := (hfields r h).2.2
          have := hfresh r hr
          omega

/-- C21 at a concrete input: City Care replaces the medicine of prescription 40
by paracetamol in the morning; the former reminder of the prescription is gone
and the reminders of the prescription are those of the new medicine. -/
theorem update_regenerates_reminders_witness :
    (updatePrescription id rejectInherited revokedStore cityCare 40 [paracetamol]
      none).2.reminders.map
        (fun r => (r.id, r.prescriptionId, r.medicineName, r.reminderTime)) =
      [(41, 40, "Paracetamol", "09:00")] ∧
    sampleReminder ∉ (updatePrescription id rejectInherited revokedStore cityCare 40
      [paracetamol] none).2.reminders :=
  ⟨by decide,
   (update_regenerates_reminders id rejectInherited revokedStore cityCare 40 [paracetamol]
      none _ _ samplePrescription 1 (by decide) (by decide) rfl (by decide)).elim
      (fun _ h => h.2.2.2.2.2 (by decide) sampleReminder (by decide) (by decide))⟩

/-- C28: the update of a prescription reads the prescriptions, the reminders and
the id counter only.  Two stores that agree on these three, whatever consents,
admissions, users and notifications they hold, give the same reply, the same
prescriptions, the same reminders and the same id counter; and the call leaves
the consents, the admissions and the notifications of the store as they were. -/
theorem update_ignores_consent_and_admissions (unicodeLower : String → String)
    (castInherited : String → Option String) (s t : Store) (reqUser : User) (pid : Nat)
    (medicines : List Medicine) (notes : Option String)
    (hp : s.prescriptions = t.prescriptions) (hr : s.reminders = t.reminders)
    (hn : s.nextId = t.nextId) :
    (updatePrescription unicodeLower castInherited s reqUser pid medicines notes).1 =
      (updatePrescription unicodeLower castInherited t reqUser pid medicines notes).1 ∧
    (updatePrescription unicodeLower castInherited s reqUser pid medicines
      notes).2.prescriptions =
      (updatePrescription unicodeLower castInherited t reqUser pid medicines
        notes).2.prescriptions ∧
    (updatePrescription unicodeLower castInherited s reqUser pid medicines
      notes).2.reminders =
      (updatePrescription unicodeLower castInherited t reqUser pid medicines
        notes).2.reminders ∧
    (updatePrescription unicodeLower castInherited s reqUser pid medicines notes).2.nextId =
      (updatePrescription unicodeLower castInherited t reqUser pid medicines
        notes).2.nextId ∧
    (updatePrescription unicodeLower castInherited s reqUser pid medicines notes).2.consents =
      s.consents ∧
    (updatePrescription unicodeLower castInherited s reqUser pid medicines
      notes).2.admissions = s.admissions ∧
    (updatePrescription unicodeLower castInherited s reqUser pid medicines
      notes).2.notifications = s.notifications := by
  obtain ⟨su, sc, sa, sn, sp, srep, sr, se, sid⟩ := s
  obtain ⟨tu, tc, ta, tn, tp, trep, tr, te, tid⟩ := t
  simp only at hp hr hn
  subst hp hr hn
  simp only [updatePrescription, createMedicineReminders]
  split
  · simp
  · split
    · simp
    · split
      · simp
      · generalize reminderDocs castInherited _ _ = d
        cases d <;> simp

/-- C28 at a concrete input: City Care updates its prescription 40 in the store
where Asha has revoked her consent and is not admitted; the call replies 200,
as it does in the store with a granted consent and an active admission. -/
theorem update_ignores_consent_and_admissions_witness :
    (updatePrescription id rejectInherited revokedStore cityCare 40 [paracetamol]
      none).1 = Response.msg 200 "Prescription updated successfully" ∧
    (updatePrescription id rejectInherited revokedStore cityCare 40 [paracetamol] none).1 =
      (updatePrescription id rejectInherited grantedAdmittedStore cityCare 40 [paracetamol]
        none).1 ∧
    (updatePrescription id rejectInherited revokedStore cityCare 40 [paracetamol]
      none).2.reminders =
      (updatePrescription id rejectInherited grantedAdmittedStore cityCare 40 [paracetamol]
        none).2.reminders :=
  have h := update_ignores_consent_and_admissions id rejectInherited revokedStore
    grantedAdmittedStore cityCare 40 [paracetamol] none rfl rfl rfl
  ⟨by decide, h.1, h.2.2.1⟩

end AarogyaDarpan
